import Mathlib

/-!
# XPLR-IOT-1 time-of-flight demo: fragment transport and capture fold

A shallow embedding of

* `bt_broadcaster_create`, `bt_broadcaster_send_message`, `bt_broadcaster_delete`
  (sensor_broadcaster/bluetooth_brodcaster/bt_broadcaster.c),
* `scan_cb`, `adv_check_name`, `adv_data_found`, `mqttMeasurementToJsonHelper`,
  `mqttMeasurementToJson` and the publish step of `main` (Gateway/src/main.c),
* `lightranger9_parse_measurement`, `lightranger9_sample_fetch`, the bootloader
  commands, `lightranger9_download_fw_bin` and `lightranger9_init`
  (lightranger9_oot_driver/zephyr/lightranger9.c),

followed by the properties established about them.  The sensor bus is an oracle that
answers each transfer, and the text a `printf` conversion of a `float` produces is a
parameter.

Bytes and machine integers are natural numbers; a narrowing C assignment is
written with an explicit `% 256`.  A C `memcpy` that would leave its destination
or source object has no defined result and is modelled by `none`.
-/

namespace ToF

/-! ## Shared constants -/

/-- Value of `BT_AD_EFFECTIVE_PAYLOAD` (both applications). -/
def BT_AD_EFFECTIVE_PAYLOAD : Nat := 210

/-- Value of `BT_ADD_MAIN_BUFF_CHUNK` (both applications). -/
def BT_ADD_MAIN_BUFF_CHUNK : Nat := 206

/-- Value of `sizeof(bt_data_header_t)`: the packed struct `id[2], part_no, parts_total`. -/
def SIZEOF_HEADER : Nat := 4

/-- AD type `BT_DATA_MANUFACTURER_DATA` of the Bluetooth stack. -/
def BT_DATA_MANUFACTURER_DATA : Nat := 0xFF

/-- Value of `LIGHTRANGER9_OBJECT_MAP_SIZE`. -/
def LIGHTRANGER9_OBJECT_MAP_SIZE : Nat := 64

/-- Value of `sizeof(lightranger9_meas_result_t)`: the struct `uint8_t confidence;
uint16_t distance_mm` is not itself declared packed, so it keeps its padding byte. -/
def SIZEOF_MEAS_RESULT : Nat := 4

/-- Value of `sizeof(lightranger9_btdata_t)` (the same layout as `lightranger9_measurement_t`):
19 bytes of packed scalar fields followed by two object maps of 64 cells. -/
def SIZEOF_BTDATA : Nat := 19 + 2 * LIGHTRANGER9_OBJECT_MAP_SIZE * SIZEOF_MEAS_RESULT

/-- The header put in front of every fragment (`bt_data_header_t`). -/
structure bt_data_header_t where
  id0 : Nat
  id1 : Nat
  part_no : Nat
  parts_total : Nat
deriving DecidableEq, Repr

/-- One advertising data element (`struct bt_data`): its AD type and its bytes;
`data_len` is the number of bytes. -/
structure bt_data where
  type : Nat
  data : List Nat
deriving DecidableEq, Repr

/-- The field `data_len` of `struct bt_data`. -/
def bt_data.data_len (d : bt_data) : Nat := d.data.length

/-- C `memcpy(dst + off, src, n)` on byte lists: defined only when the `n` bytes lie
inside `dst` and `src` holds at least `n` bytes. -/
def memcpy (dst : List Nat) (off : Nat) (src : List Nat) (n : Nat) : Option (List Nat) :=
  if off + n ≤ dst.length ∧ n ≤ src.length then
    some (dst.take off ++ src.take n ++ dst.drop (off + n))
  else
    none

/-! ## Transmitter: `bt_broadcaster_send_message` -/

/-- Zephyr macro `ceiling_fraction(numerator, divider)`. -/
def ceiling_fraction (numerator divider : Nat) : Nat :=
  (numerator + (divider - 1)) / divider

/-- The assignment `parts = ceiling_fraction(len, BT_AD_EFFECTIVE_PAYLOAD)` into the
`uint8_t parts`. -/
def send_parts (len : Nat) : Nat :=
  ceiling_fraction len BT_AD_EFFECTIVE_PAYLOAD % 256

/-- Number of message bytes that loop iteration `cnt` copies behind the header
(the third argument of the `memcpy` in either branch).  For the part count the
function computes the difference is never negative (`last_part_offset_le`). -/
def part_payload_len (len parts cnt : Nat) : Nat :=
  if cnt = parts - 1 then len - cnt * BT_ADD_MAIN_BUFF_CHUNK else BT_ADD_MAIN_BUFF_CHUNK

/-- The bytes of `header` as `memcpy(tmp_buff, &header, sizeof(bt_data_header_t))` lays them out. -/
def header_bytes (h : bt_data_header_t) : List Nat :=
  [h.id0, h.id1, h.part_no, h.parts_total]

/-- One iteration of the `for` loop of `bt_broadcaster_send_message`: clear `tmp_buff`,
copy the header, copy the chunk, and describe the element handed to
`bt_le_ext_adv_set_data` (`ad.data = tmp_buff`, and the `uint8_t ad.data_len` bytes
of it).  `none` when a `memcpy` leaves `tmp_buff` or `buf`. -/
def send_part (id : Nat × Nat) (buf : List Nat) (len parts cnt : Nat) : Option bt_data :=
  let tmp_buff := List.replicate BT_AD_EFFECTIVE_PAYLOAD 0
  let header : bt_data_header_t :=
    { id0 := id.1, id1 := id.2, part_no := (cnt + 1) % 256, parts_total := parts }
  match memcpy tmp_buff 0 (header_bytes header) SIZEOF_HEADER with
  | none => none
  | some tmp1 =>
    let n := part_payload_len len parts cnt
    match memcpy tmp1 SIZEOF_HEADER (buf.drop (cnt * BT_ADD_MAIN_BUFF_CHUNK)) n with
    | none => none
    | some tmp2 =>
      let data_len :=
        (if cnt = parts - 1 then
          (len - cnt * BT_ADD_MAIN_BUFF_CHUNK) + SIZEOF_HEADER
        else BT_AD_EFFECTIVE_PAYLOAD) % 256
      some { type := BT_DATA_MANUFACTURER_DATA, data := tmp2.take data_len }

/-- The loop `for (cnt = 0; cnt < parts; cnt++)` from iteration `cnt` on, with `k`
iterations left: the elements handed to the transport in order, and the value of
`ret` after the last `bt_le_ext_adv_set_data` call. -/
def send_loop (set_data : bt_data → Int) (id : Nat × Nat) (buf : List Nat) (len parts : Nat) :
    Nat → Nat → Int → Option (Int × List bt_data)
  | 0, _, ret => some (ret, [])
  | k + 1, cnt, _ =>
    match send_part id buf len parts cnt with
    | none => none
    | some ad =>
      match send_loop set_data id buf len parts k (cnt + 1) (set_data ad) with
      | none => none
      | some (ret, ads) => some (ret, ad :: ads)

/-- Errno value `ENOENT`. -/
def ENOENT : Int := 2

/-- The function `bt_broadcaster_send_message(buf, len)`.  `adv` tells whether the advertising set
exists (`adv != NULL`), `buf` is `none` for a NULL pointer, `id` the two bytes
`bt_rand` produces, `set_data` the result of `bt_le_ext_adv_set_data` for an element.
The result is the return value and the elements handed to the transport. -/
def bt_broadcaster_send_message (adv : Bool) (set_data : bt_data → Int) (id : Nat × Nat)
    (buf : Option (List Nat)) (len : Nat) : Option (Int × List bt_data) :=
  match buf, adv with
  | some b, true =>
    let parts := send_parts len
    send_loop set_data id b len parts parts 0 (-999)
  | _, _ => some (-ENOENT, [])

/-! ## Receiver: `adv_data_found` -/

/-- The file-scope state `adv_data_found` works on: `header`, `prev_header`, `buffer`,
its function-static `cnt`, and the hand-off pair `gMeasurement`, `gMeasReceived`. -/
structure RxState where
  header : bt_data_header_t
  prev_header : bt_data_header_t
  buffer : List Nat
  cnt : Nat
  gMeasurement : List Nat
  gMeasReceived : Bool
deriving DecidableEq, Repr

/-- The all-zero header (`memset(&header, 0, sizeof(header))`). -/
def zero_header : bt_data_header_t :=
  { id0 := 0, id1 := 0, part_no := 0, parts_total := 0 }

/-- The receiver at start-up: zero-initialised statics, and `main` clearing both headers. -/
def rx_init : RxState :=
  { header := zero_header
    prev_header := zero_header
    buffer := List.replicate SIZEOF_BTDATA 0
    cnt := 0
    gMeasurement := List.replicate SIZEOF_BTDATA 0
    gMeasReceived := false }

/-- The effect of `memcpy(&header, data->data, sizeof(header))`; `none` when the element
holds fewer than four bytes. -/
def read_header (data : List Nat) : Option bt_data_header_t :=
  match data with
  | a :: b :: c :: d :: _ => some { id0 := a, id1 := b, part_no := c, parts_total := d }
  | _ => none

/-- The chunk copy
`memcpy(buffer + ((header.part_no - 1) * BT_ADD_MAIN_BUFF_CHUNK), data->data + sizeof(header),
data->data_len - sizeof(header))`.
With `part_no = 0` the destination lies before `buffer`, and with `data_len < 4` the
size wraps around: both are outside the buffer, hence `none`. -/
def copy_chunk (buffer : List Nat) (header : bt_data_header_t) (data : bt_data) :
    Option (List Nat) :=
  if header.part_no = 0 ∨ data.data_len < SIZEOF_HEADER then none
  else
    memcpy buffer ((header.part_no - 1) * BT_ADD_MAIN_BUFF_CHUNK)
      (data.data.drop SIZEOF_HEADER) (data.data_len - SIZEOF_HEADER)

/-- The callback `adv_data_found(data, user_data)` as a transition of the receiver state. -/
def adv_data_found (st : RxState) (data : bt_data) : Option RxState :=
  if data.type = BT_DATA_MANUFACTURER_DATA then
    match read_header data.data with
    | none => none
    | some header =>
      if (st.prev_header.id0, st.prev_header.id1) ≠ (header.id0, header.id1) then
        match copy_chunk (List.replicate SIZEOF_BTDATA 0) header data with
        | none => none
        | some buffer =>
          some { st with header := header, prev_header := header, buffer := buffer, cnt := 1 }
      else if header.part_no ≠ st.prev_header.part_no then
        match copy_chunk st.buffer header data with
        | none => none
        | some buffer =>
          let cnt := (st.cnt + 1) % 256
          if cnt = header.parts_total then
            match memcpy st.gMeasurement 0 buffer SIZEOF_BTDATA with
            | none => none
            | some meas =>
              some { header := zero_header, prev_header := zero_header, buffer := buffer,
                     cnt := 0, gMeasurement := meas, gMeasReceived := true }
          else
            some { st with header := header, prev_header := header, buffer := buffer, cnt := cnt }
      else
        some { st with header := header }
  else
    some st

/-- The record the callback hands over when it signals record-ready on `data`: observed
with the flag cleared beforehand, as the poll loop of `main` leaves it. -/
def ready_event (st : RxState) (data : bt_data) : Option (List Nat) :=
  match adv_data_found { st with gMeasReceived := false } data with
  | some st1 => if st1.gMeasReceived then some st1.gMeasurement else none
  | none => none

/-- Feed a sequence of elements to the callback, collecting for each one whether
record-ready was signalled and with which record. -/
def rx_run : RxState → List bt_data → Option (RxState × List (Option (List Nat)))
  | st, [] => some (st, [])
  | st, d :: ds =>
    match adv_data_found st d with
    | none => none
    | some st1 =>
      match rx_run st1 ds with
      | none => none
      | some (st2, evs) => some (st2, ready_event st d :: evs)

/-! ## Capture fold: `lightranger9_parse_measurement` -/

/-- Value of `LIGHTRANGER9_MAX_MEAS_RESULTS`. -/
def LIGHTRANGER9_MAX_MEAS_RESULTS : Nat := 36

/-- Value of `LIGHTRANGER9_SUBCAPTURE_3`. -/
def LIGHTRANGER9_SUBCAPTURE_3 : Nat := 3

/-- One distance result (`lightranger9_meas_result_t`). -/
structure lightranger9_meas_result_t where
  confidence : Nat
  distance_mm : Nat
deriving DecidableEq, Repr

/-- One capture (`lightranger9_meas_cpt_t`).  `temperature` is the `int8_t` value and
`sys_tick_sec` stands for the 32-bit pattern of the `float`, which the fold only copies. -/
structure lightranger9_meas_cpt_t where
  sub_capture : Nat
  result_number : Nat
  temperature : Int
  valid_results : Nat
  ambient_light : Nat
  photon_count : Nat
  reference_count : Nat
  sys_tick_sec : Nat
  result : List lightranger9_meas_result_t
deriving DecidableEq, Repr

/-- The assembled measurement (`lightranger9_measurement_t`). -/
structure lightranger9_measurement_t where
  result_number : Nat
  temperature : Int
  valid_results : Nat
  ambient_light : Nat
  photon_count : Nat
  reference_count : Nat
  sys_tick_sec : Nat
  obj1 : List lightranger9_meas_result_t
  obj2 : List lightranger9_meas_result_t
deriving DecidableEq, Repr

/-- The `uint8_t row` assigned in the loop body. -/
def remap_row (result_cnt sub_capture : Nat) : Nat :=
  ((((result_cnt % 9) / 2) * 2) + (sub_capture / 2)) % 256

/-- The `uint8_t col` assigned in the loop body. -/
def remap_col (result_cnt sub_capture : Nat) : Nat :=
  ((((result_cnt % 9) % 2) * 4) + ((result_cnt % 18) / 9) + ((sub_capture % 2) * 2)) % 256

/-- The array index `(row * 8) + col` used for both object maps. -/
def remap_cell (result_cnt sub_capture : Nat) : Nat :=
  (remap_row result_cnt sub_capture * 8) + remap_col result_cnt sub_capture

/-- The test `8 == (result_cnt % 9)` that makes the loop `continue`. -/
def fold_skips (result_cnt : Nat) : Bool := 8 == result_cnt % 9

/-- Assignment of both fields of `map[idx]`; `none` when `idx` is outside the map. -/
def write_cell (map : List lightranger9_meas_result_t) (idx : Nat)
    (r : lightranger9_meas_result_t) : Option (List lightranger9_meas_result_t) :=
  if idx < map.length then
    some (map.set idx { confidence := r.confidence, distance_mm := r.distance_mm })
  else none

/-- The body of the `for` loop of `lightranger9_parse_measurement` for one `result_cnt`;
`none` when `capture->result[result_cnt]` or the written cell does not exist. -/
def fold_slot (capture : lightranger9_meas_cpt_t) (parsed_data : lightranger9_measurement_t)
    (result_cnt : Nat) : Option lightranger9_measurement_t :=
  if fold_skips result_cnt then some parsed_data
  else
    match capture.result[result_cnt]? with
    | none => none
    | some r =>
      let idx := remap_cell result_cnt capture.sub_capture
      if result_cnt ≥ LIGHTRANGER9_MAX_MEAS_RESULTS / 2 then
        match write_cell parsed_data.obj2 idx r with
        | none => none
        | some m => some { parsed_data with obj2 := m }
      else
        match write_cell parsed_data.obj1 idx r with
        | none => none
        | some m => some { parsed_data with obj1 := m }

/-- The iterations `result_cnt = 0, 1, ..., n - 1` of the loop, in that order. -/
def fold_upto (capture : lightranger9_meas_cpt_t) (parsed_data : lightranger9_measurement_t) :
    Nat → Option lightranger9_measurement_t
  | 0 => some parsed_data
  | n + 1 =>
    match fold_upto capture parsed_data n with
    | none => none
    | some pd => fold_slot capture pd n

/-- The function `lightranger9_parse_measurement(capture, parsed_data)`: from the value of the static
`sub_capture_cnt` to its new value, the updated `*parsed_data` and the returned flag. -/
def lightranger9_parse_measurement (sub_capture_cnt : Nat) (capture : lightranger9_meas_cpt_t)
    (parsed_data : lightranger9_measurement_t) :
    Option (Nat × lightranger9_measurement_t × Bool) :=
  match fold_upto capture parsed_data LIGHTRANGER9_MAX_MEAS_RESULTS with
  | none => none
  | some pd =>
    if sub_capture_cnt < LIGHTRANGER9_SUBCAPTURE_3 then
      some ((sub_capture_cnt + 1) % 256, pd, false)
    else
      some (0,
        { pd with
          result_number := capture.result_number
          temperature := capture.temperature
          valid_results := capture.valid_results
          ambient_light := capture.ambient_light
          photon_count := capture.photon_count
          reference_count := capture.reference_count
          sys_tick_sec := capture.sys_tick_sec },
        true)

/-! ## Quantities as the specification words them, and sample inputs -/

/-- Row of the fold as the specification states it: `((i%9)/2)*2 + subcapture/2`. -/
def spec_row (i subcapture : Nat) : Nat := ((i % 9) / 2) * 2 + subcapture / 2

/-- Column of the fold as the specification states it:
`((i%9)%2)*4 + (i%18)/9 + (subcapture%2)*2`. -/
def spec_col (i subcapture : Nat) : Nat := ((i % 9) % 2) * 4 + (i % 18) / 9 + (subcapture % 2) * 2

/-- A capture of sub-capture 0 whose slot 0 holds `r` and whose other slots are zero. -/
def sample_capture (r : lightranger9_meas_result_t) : lightranger9_meas_cpt_t :=
  { sub_capture := 0, result_number := 1, temperature := 25, valid_results := 1,
    ambient_light := 0, photon_count := 0, reference_count := 0, sys_tick_sec := 0,
    result := r :: List.replicate 35 { confidence := 0, distance_mm := 0 } }

/-- The all-zero measurement record (`memset(&bt_data, 0, sizeof(bt_data))`). -/
def zero_measurement : lightranger9_measurement_t :=
  { result_number := 0, temperature := 0, valid_results := 0, ambient_light := 0,
    photon_count := 0, reference_count := 0, sys_tick_sec := 0,
    obj1 := List.replicate 64 { confidence := 0, distance_mm := 0 },
    obj2 := List.replicate 64 { confidence := 0, distance_mm := 0 } }

/-- Fragment number `cnt + 1` of a message as the specification describes it: the
header `[id_hi, id_lo, part_no, parts_total]` followed by the slice of at most one
chunk of the message that starts at `cnt` chunks. -/
def fragment (id : Nat × Nat) (parts_total : Nat) (buf : List Nat) (cnt : Nat) : bt_data :=
  { type := BT_DATA_MANUFACTURER_DATA
    data := [id.1, id.2, cnt + 1, parts_total] ++
      (buf.drop (cnt * BT_ADD_MAIN_BUFF_CHUNK)).take BT_ADD_MAIN_BUFF_CHUNK }

/-- Physical re-broadcast: the receiver sees element `i` of `ads` `reps[i]` times in a
row, then the next element. -/
def rebroadcast : List bt_data → List Nat → List bt_data
  | d :: ds, k :: ks => List.replicate k d ++ rebroadcast ds ks
  | _, _ => []

/-- Bookkeeping next to the receiver state: the part numbers the receiver has copied
since the current session began, after `data` has been processed.  A fragment with a
new session id opens the list, a fragment that is copied and counted extends it, any
other element leaves it as it is. -/
def track (st : RxState) (seen : List Nat) (data : bt_data) : List Nat :=
  if data.type = BT_DATA_MANUFACTURER_DATA then
    match read_header data.data with
    | none => seen
    | some header =>
      if (st.prev_header.id0, st.prev_header.id1) ≠ (header.id0, header.id1) then
        [header.part_no]
      else if header.part_no ≠ st.prev_header.part_no then header.part_no :: seen
      else seen
  else seen

/-- The receiver state and the part numbers copied in the current session after a
sequence of elements; a completed record ends the session and empties the list. -/
def rx_track : RxState → List Nat → List bt_data → Option (RxState × List Nat)
  | st, seen, [] => some (st, seen)
  | st, seen, d :: ds =>
    match adv_data_found st d with
    | none => none
    | some st1 =>
      rx_track st1 (if (ready_event st d).isSome then [] else track st seen d) ds

/-! ## Sampling loop, capture decoding and further sample inputs -/

/-- The scalar fields of a measurement record: result number, temperature, valid
results, ambient light, photon count, reference count and tick seconds. -/
def record_scalars (pd : lightranger9_measurement_t) :
    Nat × Int × Nat × Nat × Nat × Nat × Nat :=
  (pd.result_number, pd.temperature, pd.valid_results, pd.ambient_light, pd.photon_count,
    pd.reference_count, pd.sys_tick_sec)

/-- The same scalar fields of a capture. -/
def capture_scalars (capture : lightranger9_meas_cpt_t) :
    Nat × Int × Nat × Nat × Nat × Nat × Nat :=
  (capture.result_number, capture.temperature, capture.valid_results, capture.ambient_light,
    capture.photon_count, capture.reference_count, capture.sys_tick_sec)

/-- The calls of `lightranger9_parse_measurement` that the sampling loop of `main`
(sensor_broadcaster/src/main.c) issues for a sequence of captures, on the one record
`bt_data`: after a call that returned true the record is cleared
(`memset(&bt_data, 0, sizeof(bt_data))`).  The result lists the returned flags in call
order. -/
def parse_calls : Nat → lightranger9_measurement_t → List lightranger9_meas_cpt_t →
    Option (Nat × lightranger9_measurement_t × List Bool)
  | cnt, bt_data, [] => some (cnt, bt_data, [])
  | cnt, bt_data, sens_data :: rest =>
    match lightranger9_parse_measurement cnt sens_data bt_data with
    | none => none
    | some (cnt1, pd1, ready_flag) =>
      match parse_calls cnt1 (if ready_flag then zero_measurement else pd1) rest with
      | none => none
      | some (cnt2, pd2, flags) => some (cnt2, pd2, ready_flag :: flags)

/-- Value of `LIGHTRANGER9_BLOCKREAD_SIZE`. -/
def LIGHTRANGER9_BLOCKREAD_SIZE : Nat := 132

/-- Value of `LIGHTRANGER9_CONFIDENCE_THRESHOLD`. -/
def LIGHTRANGER9_CONFIDENCE_THRESHOLD : Nat := 100

/-- Value of `LIGHTRANGER9_SUBCAPTURE_MASK`. -/
def LIGHTRANGER9_SUBCAPTURE_MASK : Nat := 0x03

/-- Value of `LIGHTRANGER9_RESULT_NUMBER_MASK`. -/
def LIGHTRANGER9_RESULT_NUMBER_MASK : Nat := 0x3F

/-- Offset in `data_buf` of a register of the block read
(`reg - LIGHTRANGER9_REG_BLOCKREAD`, with `LIGHTRANGER9_REG_BLOCKREAD = 0x20`). -/
def block_offset (reg : Nat) : Nat := reg - 0x20

/-- A 32-bit field assembled from the four bytes at `data_buf[off .. off + 3]`
(`(b3 << 24) | (b2 << 16) | (b1 << 8) | b0`, as `uint32_t`); `none` outside the array. -/
def decode_u32 (data_buf : List Nat) (off : Nat) : Option Nat :=
  match data_buf[off + 3]?, data_buf[off + 2]?, data_buf[off + 1]?, data_buf[off]? with
  | some b3, some b2, some b1, some b0 =>
    some (((b3 <<< 24) ||| (b2 <<< 16) ||| (b1 <<< 8) ||| b0) % 2 ^ 32)
  | _, _, _, _ => none

/-- The body of the result loop of `lightranger9_sample_fetch` for one `cnt`: the
confidence byte, and the distance bytes only when the confidence reaches the threshold;
`none` when a byte read lies outside `data_buf`. -/
def decode_result (data_buf : List Nat) (cnt : Nat) : Option lightranger9_meas_result_t :=
  match data_buf[block_offset 0x38 + cnt * 3]? with
  | none => none
  | some confidence =>
    if confidence ≥ LIGHTRANGER9_CONFIDENCE_THRESHOLD then
      match data_buf[block_offset 0x3A + cnt * 3]?, data_buf[block_offset 0x39 + cnt * 3]? with
      | some msb, some lsb =>
        some { confidence := confidence, distance_mm := ((msb <<< 8) ||| lsb) % 2 ^ 16 }
      | _, _ => none
    else some { confidence := confidence, distance_mm := 0 }

/-- The iterations `cnt = 0, ..., n - 1` of the result loop, in that order. -/
def decode_results (data_buf : List Nat) : Nat → Option (List lightranger9_meas_result_t)
  | 0 => some []
  | n + 1 =>
    match decode_results data_buf n, decode_result data_buf n with
    | some rs, some r => some (rs ++ [r])
    | _, _ => none

/-- The decoding part of `lightranger9_sample_fetch` (the branch `ret == 0`): the capture
decoded from the block `data_buf`.  `sys_tick_to_sec` stands for the floating point
product of the 32-bit tick count with `LIGHTRANGER9_SYS_TICK_TO_SEC`. -/
def sample_decode (sys_tick_to_sec : Nat → Nat) (data_buf : List Nat) :
    Option lightranger9_meas_cpt_t :=
  match data_buf[block_offset 0x24]?, data_buf[block_offset 0x25]?,
      data_buf[block_offset 0x26]?, decode_u32 data_buf (block_offset 0x28),
      decode_u32 data_buf (block_offset 0x2C), decode_u32 data_buf (block_offset 0x30),
      decode_u32 data_buf (block_offset 0x34),
      decode_results data_buf LIGHTRANGER9_MAX_MEAS_RESULTS with
  | some b4, some b5, some b6, some ambient, some photon, some reference, some tick,
      some results =>
    some { sub_capture := b4 &&& LIGHTRANGER9_SUBCAPTURE_MASK
           result_number := (b4 >>> 2) &&& LIGHTRANGER9_RESULT_NUMBER_MASK
           temperature := if b5 < 128 then (b5 : Int) else (b5 : Int) - 256
           valid_results := b6
           ambient_light := ambient
           photon_count := photon
           reference_count := reference
           sys_tick_sec := sys_tick_to_sec tick
           result := results }
  | _, _, _, _, _, _, _, _ => none

/-- The function `lightranger9_sample_fetch`, given what the two bus operations return
(`ret_clear` from `lightranger9_clear_interrupts`, `ret_read` and the block `data_buf`
from the block read) and the capture `data` held by the device: the `uint8_t ret`
collects both results, and the capture is replaced only when it is zero. -/
def lightranger9_sample_fetch (sys_tick_to_sec : Nat → Nat) (ret_clear ret_read : Int)
    (data_buf : List Nat) (data : lightranger9_meas_cpt_t) :
    Option (Int × lightranger9_meas_cpt_t) :=
  let ret : Nat := (ret_clear % 256).toNat ||| (ret_read % 256).toNat
  if ret = 0 then
    match sample_decode sys_tick_to_sec data_buf with
    | none => none
    | some d => some (0, d)
  else some (-1, data)

/-! ## Sensor bus and firmware bootstrap -/

/-- What the I2C bus answers to one transfer: the value `i2c_write_dt` or
`i2c_write_read_dt` returns and, for a read, the bytes the device delivers. -/
structure bus_reply where
  ret : Int
  rx : List Nat
deriving DecidableEq, Repr

/-- One transfer on the bus as the driver issued it, with the answer it got. -/
inductive bus_op where
  | write (bytes : List Nat) (ret : Int)
  | read (reg : Nat) (len : Nat) (ret : Int) (rx : List Nat)
deriving DecidableEq, Repr

/-- The device seen from the driver: `bus` gives the answer to the transfer with a given
number (counted from 0), `log` lists the transfers issued so far. -/
structure DevIO where
  bus : Nat → bus_reply
  log : List bus_op

/-- The call `i2c_write_dt(&cfg->bus, buf, num_bytes)`. -/
def i2c_write_dt (io : DevIO) (bytes : List Nat) : DevIO × Int :=
  let r := io.bus io.log.length
  ({ io with log := io.log ++ [bus_op.write bytes r.ret] }, r.ret)

/-- The call `i2c_write_read_dt(&cfg->bus, tx_buf, 1, rx_buf, rx_len)` with
`tx_buf[0] = reg`: the bytes the device delivers, at most `rx_len`, replace the front
of `rx_buf`. -/
def i2c_write_read_dt (io : DevIO) (reg : Nat) (rx_buf : List Nat) (rx_len : Nat) :
    DevIO × Int × List Nat :=
  let r := io.bus io.log.length
  ({ io with log := io.log ++ [bus_op.read reg rx_len r.ret r.rx] }, r.ret,
    r.rx.take rx_len ++ rx_buf.drop (min r.rx.length rx_len))

/-- Register `LIGHTRANGER9_REG_CMD_STAT`. -/
def LIGHTRANGER9_REG_CMD_STAT : Nat := 0x08

/-- Register `LIGHTRANGER9_REG_APPID`. -/
def LIGHTRANGER9_REG_APPID : Nat := 0x00

/-- The function `lightranger9_calculate_checksum(data_in, len)`: a `uint16_t` sum of the
first `len` bytes, complemented as an `int` and cut to its low byte. -/
def lightranger9_calculate_checksum (data_in : List Nat) (len : Nat) : Nat :=
  let data_sum := (data_in.take len).foldl (fun s b => (s + b) % 65536) 0
  (4294967295 - data_sum) % 256

/-- The function `lightranger9_generic_write(dev, reg, data_in, len)`: the register
address followed by the first `len` bytes of `data_in` goes out in one write. -/
def lightranger9_generic_write (io : DevIO) (reg : Nat) (data_in : List Nat) (len : Nat) :
    DevIO × Int :=
  i2c_write_dt io (reg :: data_in.take len)

/-- The function `lightranger9_read_register(dev, reg_addr, rx_buf, rx_len)`. -/
def lightranger9_read_register (io : DevIO) (reg_addr : Nat) (rx_buf : List Nat)
    (rx_len : Nat) : DevIO × Int × List Nat :=
  i2c_write_read_dt io reg_addr rx_buf rx_len

/-- The function `lightranger9_write_bl_cmd(dev, cmd, data_in, len)`.  `data_buf` holds
`cmd`, `len`, the first `len` bytes of `data_in` and the checksum of these `len + 2`
bytes; `len + 3` bytes of it are written to the command register.  `none` when `len`
exceeds `data_in` or a `uint8_t` length wraps around (`len + 3 > 255`). -/
def lightranger9_write_bl_cmd (io : DevIO) (cmd : Nat) (data_in : List Nat) (len : Nat) :
    Option ( DevIO × Int) :=
  if len + 3 ≤ 255 ∧ len ≤ data_in.length then
    let data_buf := [cmd, len] ++ data_in.take len
    let frame := data_buf ++ [lightranger9_calculate_checksum data_buf (len + 2)]
    some (lightranger9_generic_write io LIGHTRANGER9_REG_CMD_STAT frame (len + 3))
  else none

/-! ## Broadcaster life cycle -/

/-- Errno value `ENODATA`. -/
def ENODATA : Int := 61

/-- The function `bt_broadcaster_create()`: `adv` tells whether the advertising set
exists, `create_ret` and `start_ret` are the results of `bt_le_ext_adv_create` and
`bt_le_ext_adv_start`.  The result is the new `adv` and the return value. -/
def bt_broadcaster_create (adv : Bool) (create_ret start_ret : Int) : Bool × Int :=
  if adv = false then
    if create_ret = 0 then (true, start_ret)
    else (false, create_ret)
  else (adv, -ENOENT)

/-- The function `bt_broadcaster_delete()`: `stop_ret` and `delete_ret` are the results
of `bt_le_ext_adv_stop` and `bt_le_ext_adv_delete`.  The assignment `adv = NULL` stands
in the branch `if (ret)` taken when `bt_le_ext_adv_delete` failed. -/
def bt_broadcaster_delete (adv : Bool) (stop_ret delete_ret : Int) : Bool × Int :=
  if adv = true then
    if stop_ret = 0 then
      if delete_ret ≠ 0 then (false, delete_ret)
      else (adv, delete_ret)
    else (adv, stop_ret)
  else (adv, -ENODATA)

/-- A transport that rejects the element carrying part number 1 with `-EINVAL` and
accepts every other element. -/
def reject_part_1 (ad : bt_data) : Int :=
  if ad.data[2]? = some 1 then -22 else 0

/-! ## Firmware download and device initialisation -/

/-- Value of `LIGHTRANGER9_TIMEOUT`. -/
def LIGHTRANGER9_TIMEOUT : Nat := 5000

/-- Value of `BL_MAX_CHUNK_BYTES`. -/
def BL_MAX_CHUNK_BYTES : Nat := 128

/-- Value of `BL_DOWNLOAD_INIT_SEED`. -/
def BL_DOWNLOAD_INIT_SEED : Nat := 0x29

/-- Value of `BL_START_ADDRESS`. -/
def BL_START_ADDRESS : Nat := 0x0000

/-- Command `LIGHTRANGER9_BL_CMD_RAMREMAP_RESET`. -/
def LIGHTRANGER9_BL_CMD_RAMREMAP_RESET : Nat := 0x11

/-- Command `LIGHTRANGER9_BL_CMD_DOWNLOAD_INIT`. -/
def LIGHTRANGER9_BL_CMD_DOWNLOAD_INIT : Nat := 0x14

/-- Command `LIGHTRANGER9_BL_CMD_W_RAM`. -/
def LIGHTRANGER9_BL_CMD_W_RAM : Nat := 0x41

/-- Command `LIGHTRANGER9_BL_CMD_ADDR_RAM`. -/
def LIGHTRANGER9_BL_CMD_ADDR_RAM : Nat := 0x43

/-- Status `LIGHTRANGER9_BL_CMD_STAT_READY`. -/
def LIGHTRANGER9_BL_CMD_STAT_READY : Nat := 0x00

/-- Application id `LIGHTRANGER9_APP_ID_BOOTLOADER`. -/
def LIGHTRANGER9_APP_ID_BOOTLOADER : Nat := 0x80

/-- Application id `LIGHTRANGER9_APP_ID_MEASUREMENT`. -/
def LIGHTRANGER9_APP_ID_MEASUREMENT : Nat := 0x03

/-- The function `lightranger9_read_bl_cmd_status(dev, status)`: the device after the
3-byte read, the return value, and the byte `*status` holds afterwards (`status` is its
value before the call). -/
def lightranger9_read_bl_cmd_status (io : DevIO) (status : Nat) : DevIO × Int × Nat :=
  match lightranger9_read_register io LIGHTRANGER9_REG_CMD_STAT [0, 0, 0] 3 with
  | (io1, ret, data_buf) =>
    if ret = 0 then
      if data_buf.getD 1 0 ≠ 0 ∨
          data_buf.getD 2 0 ≠ lightranger9_calculate_checksum data_buf 2 then
        (io1, -1, status)
      else (io1, 0, data_buf.getD 0 0)
    else (io1, ret, status)

/-- How a polling loop of `lightranger9_download_fw_bin` was left: the device, the value
of `error_flag`, the content of `data_buf`, and whether the loop was left through
`return -1` because `++timeout_cnt > LIGHTRANGER9_TIMEOUT`. -/
structure poll_result where
  io : DevIO
  error_flag : Int
  data_buf : List Nat
  timed_out : Bool

/-- The loop
`do { error_flag |= lightranger9_read_bl_cmd_status(dev, data_buf); if (++timeout_cnt >
LIGHTRANGER9_TIMEOUT) return -1; } while (LIGHTRANGER9_BL_CMD_STAT_READY != data_buf[0]);`
The first argument is the number of iterations left before the counter passes the
bound, `LIGHTRANGER9_TIMEOUT + 1` when the loop is entered with `timeout_cnt = 0`. -/
def poll_status : Nat → DevIO → Int → List Nat → poll_result
  | 0, io, error_flag, data_buf => ⟨io, error_flag, data_buf, true⟩
  | left + 1, io, error_flag, data_buf =>
    match lightranger9_read_bl_cmd_status io (data_buf.getD 0 0) with
    | (io1, ret, status) =>
      if left = 0 then ⟨io1, Int.lor error_flag ret, data_buf.set 0 status, true⟩
      else if LIGHTRANGER9_BL_CMD_STAT_READY ≠ (data_buf.set 0 status).getD 0 0 then
        poll_status left io1 (Int.lor error_flag ret) (data_buf.set 0 status)
      else ⟨io1, Int.lor error_flag ret, data_buf.set 0 status, false⟩

/-- The loop
`do { error_flag |= lightranger9_read_register(dev, LIGHTRANGER9_REG_APPID, data_buf, 1);
if (++timeout_cnt > LIGHTRANGER9_TIMEOUT) return -1; }
while (LIGHTRANGER9_APP_ID_MEASUREMENT != data_buf[0]);` -/
def poll_appid : Nat → DevIO → Int → List Nat → poll_result
  | 0, io, error_flag, data_buf => ⟨io, error_flag, data_buf, true⟩
  | left + 1, io, error_flag, data_buf =>
    match lightranger9_read_register io LIGHTRANGER9_REG_APPID data_buf 1 with
    | (io1, ret, buf1) =>
      if left = 0 then ⟨io1, Int.lor error_flag ret, buf1, true⟩
      else if LIGHTRANGER9_APP_ID_MEASUREMENT ≠ buf1.getD 0 0 then
        poll_appid left io1 (Int.lor error_flag ret) buf1
      else ⟨io1, Int.lor error_flag ret, buf1, false⟩

/-- The loop `while (fw_index < sizeof(tof_bin_image))` of
`lightranger9_download_fw_bin` from `fw_index` on.  The first argument bounds the
number of iterations; `none` when it is used up or a command cannot be built. -/
def fw_loop (tof_bin_image : List Nat) :
    Nat → Nat → DevIO → Int → List Nat → Option poll_result
  | fuel, fw_index, io, error_flag, data_buf =>
    if fw_index < tof_bin_image.length then
      match fuel with
      | 0 => none
      | fuel1 + 1 =>
        let chunk_bytes :=
          if fw_index + BL_MAX_CHUNK_BYTES ≤ tof_bin_image.length then BL_MAX_CHUNK_BYTES
          else tof_bin_image.length - fw_index
        let buf1 := (tof_bin_image.drop fw_index).take chunk_bytes ++ data_buf.drop chunk_bytes
        match lightranger9_write_bl_cmd io LIGHTRANGER9_BL_CMD_W_RAM buf1 chunk_bytes with
        | none => none
        | some (io1, ret) =>
          let p := poll_status (LIGHTRANGER9_TIMEOUT + 1) io1 (Int.lor error_flag ret) buf1
          if p.timed_out then some p
          else fw_loop tof_bin_image fuel1 (fw_index + chunk_bytes) p.io p.error_flag p.data_buf
    else some ⟨io, error_flag, data_buf, false⟩

/-- The function `lightranger9_download_fw_bin(dev)` for the firmware image
`tof_bin_image` (the array of `tof_bin_image.h`): the device afterwards, the return
value, and whether the function was left through the `return -1` of a polling loop.
`none` when a command cannot be built. -/
def lightranger9_download_fw_bin (io : DevIO) (tof_bin_image : List Nat) :
    Option ( DevIO × Int × Bool) :=
  match lightranger9_read_register io LIGHTRANGER9_REG_APPID
      (List.replicate BL_MAX_CHUNK_BYTES 0) 1 with
  | (io1, ret0, buf1) =>
    if LIGHTRANGER9_APP_ID_BOOTLOADER = buf1.getD 0 0 then
      match lightranger9_write_bl_cmd io1 LIGHTRANGER9_BL_CMD_DOWNLOAD_INIT
          (buf1.set 0 BL_DOWNLOAD_INIT_SEED) 1 with
      | none => none
      | some (io2, ret1) =>
        match poll_status (LIGHTRANGER9_TIMEOUT + 1) io2 (Int.lor (Int.lor 0 ret0) ret1)
            (buf1.set 0 BL_DOWNLOAD_INIT_SEED) with
        | p1 =>
          if p1.timed_out then some (p1.io, -1, true)
          else
            match lightranger9_write_bl_cmd p1.io LIGHTRANGER9_BL_CMD_ADDR_RAM
                ((p1.data_buf.set 0 (BL_START_ADDRESS % 256)).set 1
                  (BL_START_ADDRESS / 256 % 256)) 2 with
            | none => none
            | some (io3, ret2) =>
              match poll_status (LIGHTRANGER9_TIMEOUT + 1) io3 (Int.lor p1.error_flag ret2)
                  ((p1.data_buf.set 0 (BL_START_ADDRESS % 256)).set 1
                    (BL_START_ADDRESS / 256 % 256)) with
              | p2 =>
                if p2.timed_out then some (p2.io, -1, true)
                else
                  match fw_loop tof_bin_image tof_bin_image.length 0 p2.io p2.error_flag
                      p2.data_buf with
                  | none => none
                  | some p3 =>
                    if p3.timed_out then some (p3.io, -1, true)
                    else
                      match lightranger9_write_bl_cmd p3.io
                          LIGHTRANGER9_BL_CMD_RAMREMAP_RESET [] 0 with
                      | none => none
                      | some (io4, ret3) =>
                        match poll_appid (LIGHTRANGER9_TIMEOUT + 1) io4
                            (Int.lor p3.error_flag ret3) p3.data_buf with
                        | p4 =>
                          if p4.timed_out then some (p4.io, -1, true)
                          else some (p4.io, p4.error_flag, false)
    else some (io1, Int.lor 0 ret0, false)

/-- Value of `MEAS_DIST_RES_BUFF_LEN`, the size of `dist_res`. -/
def MEAS_DIST_RES_BUFF_LEN : Nat := 2560

/-- Value of `MEAS_HEADER_BUFF_LEN`. -/
def MEAS_HEADER_BUFF_LEN : Nat := 512

/-- Value of `MEAS_COMPLETE_BUFF_LEN`, the size of `gMessageToPublish`. -/
def MEAS_COMPLETE_BUFF_LEN : Nat := MEAS_DIST_RES_BUFF_LEN + MEAS_HEADER_BUFF_LEN

/-- The gateway's declaration `lightranger9_btdata_t` of the measurement record. -/
abbrev lightranger9_btdata_t : Type := lightranger9_measurement_t

/-- The character that ends a C string. -/
def NUL : Char := Char.ofNat 0

/-- The C string that starts at the first character of `buf`. -/
def c_str (buf : List Char) : List Char := buf.takeWhile (fun c => c != NUL)

/-- The call `snprintk(str + off, size, fmt, ...)`, where `text` is the expansion of the
format: at most `size - 1` characters of `text` and a terminator are stored from
`str[off]` on, nothing at all for `size = 0`; the value returned is the length of
`text`.  `none` when the characters stored do not fit `str`. -/
def snprintk (str : List Char) (off size : Nat) (text : List Char) :
    Option (List Char × Nat) :=
  if size = 0 then some (str, text.length)
  else if off + ((text.take (size - 1)).length + 1) ≤ str.length then
    some (str.take off ++ (text.take (size - 1) ++ [NUL]) ++
      str.drop (off + ((text.take (size - 1)).length + 1)), text.length)
  else none

/-- The argument `max_len - current_len` of the calls in `mqttMeasurementToJsonHelper`:
the difference of two `uint16_t` is an `int`, converted to the 32-bit `size_t`. -/
def size_left (max_len current_len : Nat) : Nat :=
  if current_len ≤ max_len then max_len - current_len
  else 4294967296 - (current_len - max_len)

/-- The expansion of `%d` for a value that is not negative. -/
def fmt_d (n : Nat) : List Char := (Nat.repr n).data

/-- The statement `current_len += snprintk(json + current_len, max_len - current_len,
...)` on the pair `(json, current_len)`, for the expansion `text`; `current_len` is a
`uint16_t`. -/
def json_print (max_len : Nat) (s : List Char × Nat) (text : List Char) :
    Option (List Char × Nat) :=
  match snprintk s.1 s.2 (size_left max_len s.2) text with
  | none => none
  | some (json, ret) => some (json, (s.2 + ret) % 65536)

/-- The statement `current_len --` on the `uint16_t current_len`. -/
def json_back (s : List Char × Nat) : List Char × Nat := (s.1, (s.2 + 65535) % 65536)

/-- The body of the `for` loop of `mqttMeasurementToJsonHelper` for one `cnt`: its three
`if` statements in order.  `none` when the cell read does not exist or a call stores
outside `json`. -/
def json_body (meas : lightranger9_btdata_t) (max_len : Nat) (s : List Char × Nat)
    (cnt : Nat) : Option (List Char × Nat) :=
  match
    (if cnt < LIGHTRANGER9_OBJECT_MAP_SIZE then
      match meas.obj1[cnt]? with
      | none => none
      | some r => json_print max_len s (fmt_d r.distance_mm ++ ",".data)
    else some s) with
  | none => none
  | some s1 =>
    match
      (if cnt = LIGHTRANGER9_OBJECT_MAP_SIZE then
        json_print max_len (json_back s1) "],\"map2\":[".data
      else some s1) with
    | none => none
    | some s2 =>
      if cnt ≥ LIGHTRANGER9_OBJECT_MAP_SIZE then
        match meas.obj2[cnt - LIGHTRANGER9_OBJECT_MAP_SIZE]? with
        | none => none
        | some r => json_print max_len s2 (fmt_d r.distance_mm ++ ",".data)
      else some s2

/-- The iterations `cnt = 0, ..., n - 1` of the loop, in that order. -/
def json_upto (meas : lightranger9_btdata_t) (max_len : Nat) (s : List Char × Nat) :
    Nat → Option (List Char × Nat)
  | 0 => some s
  | n + 1 =>
    match json_upto meas max_len s n with
    | none => none
    | some s1 => json_body meas max_len s1 n

/-- The function `mqttMeasurementToJsonHelper(meas, json, max_len)`: the content of
`json` afterwards and the value returned. -/
def mqttMeasurementToJsonHelper (meas : lightranger9_btdata_t) (json : List Char)
    (max_len : Nat) : Option (List Char × Bool) :=
  match snprintk json 0 (size_left max_len 0) "\x7b\"map1\":[".data with
  | none => none
  | some (json0, ret0) =>
    match json_upto meas max_len (json0, ret0 % 65536)
        (LIGHTRANGER9_OBJECT_MAP_SIZE * 2) with
    | none => none
    | some s1 =>
      match json_print max_len (json_back s1) "]\x7d".data with
      | none => none
      | some s2 => some (s2.1, if s2.2 ≥ max_len then false else true)

/-- The text of both distance maps as the specification words it: the decimal
distances of object map 1 in cell order, separated by commas, between `\x7b"map1":[` and
`],"map2":[`, then those of object map 2, closed by `]\x7d`. -/
def spec_maps_text (meas : lightranger9_btdata_t) : List Char :=
  "\x7b\"map1\":[".data ++
    ",".data.intercalate (meas.obj1.map (fun r => fmt_d r.distance_mm)) ++
    "],\"map2\":[".data ++
    ",".data.intercalate (meas.obj2.map (fun r => fmt_d r.distance_mm)) ++
    "]\x7d".data

/-- The text `mqttMeasurementToJsonHelper` stores for a run of cells: each decimal
distance followed by a comma. -/
def cells_text (cells : List lightranger9_meas_result_t) : List Char :=
  (cells.map (fun r => fmt_d r.distance_mm ++ ",".data)).flatten

/-- The pair `(json, current_len)` holds the text `t`: `json` has `max_len` characters,
begins with `t`, and `current_len` is the length of `t`. -/
def holds_text (max_len : Nat) (s : List Char × Nat) (t : List Char) : Prop :=
  ∃ rest, s = (t ++ rest, t.length) ∧ (t ++ rest).length = max_len

/-- A record as the gateway holds it: two object maps of 64 cells with 16-bit
distances. -/
def btdata_ok (meas : lightranger9_btdata_t) : Prop :=
  meas.obj1.length = LIGHTRANGER9_OBJECT_MAP_SIZE ∧
  meas.obj2.length = LIGHTRANGER9_OBJECT_MAP_SIZE ∧
  (∀ r ∈ meas.obj1, r.distance_mm < 65536) ∧ (∀ r ∈ meas.obj2, r.distance_mm < 65536)

/-- The all-zero record with confidence 200 in every cell of object map 1. -/
def confident_measurement : lightranger9_btdata_t :=
  { zero_measurement with obj1 := List.replicate 64 { confidence := 200, distance_mm := 0 } }

/-- The expansion of `%d` for an `int`. -/
def fmt_int (n : Int) : List Char :=
  if n < 0 then '-' :: fmt_d n.natAbs else fmt_d n.toNat

/-- The `int` that `%d` reads where a `uint32_t` was passed. -/
def as_int32 (n : Nat) : Int :=
  if n < 2147483648 then (n : Int) else (n : Int) - 4294967296

/-- The expansion of `format_str` for a record: `fmt_f` gives the expansion of `%.2f`
for the tick seconds, `dist` is the string passed for `%s`. -/
def message_text (fmt_f : Nat → List Char) (meas : lightranger9_btdata_t)
    (dist : List Char) : List Char :=
  "\x7b\"resno\":".data ++ fmt_int (meas.result_number : Int) ++
    ",\"temp\":".data ++ fmt_int meas.temperature ++
    ",\"valres\":".data ++ fmt_int (meas.valid_results : Int) ++
    ",\"ambli\":".data ++ fmt_int (as_int32 meas.ambient_light) ++
    ",\"phocnt\":".data ++ fmt_int (as_int32 meas.photon_count) ++
    ",\"refcnt\":".data ++ fmt_int (as_int32 meas.reference_count) ++
    ",\"syst\":".data ++ fmt_f meas.sys_tick_sec ++
    ",\"res\":".data ++ dist ++ "\x7d".data

/-- The call `memset(buf, 0, n)` on a character array; `none` when `buf` is shorter. -/
def memset_nul (buf : List Char) (n : Nat) : Option (List Char) :=
  if n ≤ buf.length then some (List.replicate n NUL ++ buf.drop n) else none

/-- The function `mqttMeasurementToJson(meas, json, max_len)`: the content of `json`
afterwards and the value returned.  `dist_res` is cleared and filled by the helper,
then `format_str` is expanded into `json`. -/
def mqttMeasurementToJson (fmt_f : Nat → List Char) (meas : lightranger9_btdata_t)
    (json : List Char) (max_len : Nat) : Option (List Char × Bool) :=
  match memset_nul json max_len with
  | none => none
  | some json0 =>
    match mqttMeasurementToJsonHelper meas (List.replicate MEAS_DIST_RES_BUFF_LEN NUL)
        MEAS_DIST_RES_BUFF_LEN with
    | none => none
    | some (dist_res, ret) =>
      if ret then
        match snprintk json0 0 max_len (message_text fmt_f meas (c_str dist_res)) with
        | none => none
        | some (json1, print_ret) =>
          if print_ret = 0 then some (json1, false)
          else if print_ret ≥ max_len then some (json1, false)
          else some (json1, true)
      else some (json0, false)

/-- The publish step of the loop in `main` (Gateway/src/main.c) for the record
`gMeasurement`: `gMessageToPublish` is cleared, `mqttMeasurementToJson` fills it (its
result is not used), and `uMqttClientPublish` is handed the `strlen(gMessageToPublish)`
characters of the buffer.  The result is the message handed over. -/
def publish_step (fmt_f : Nat → List Char) (gMeasurement : lightranger9_btdata_t) :
    Option (List Char) :=
  match mqttMeasurementToJson fmt_f gMeasurement
      (List.replicate MEAS_COMPLETE_BUFF_LEN NUL) MEAS_COMPLETE_BUFF_LEN with
  | none => none
  | some (gMessageToPublish, _) => some (c_str gMessageToPublish)

/-- The scalar fields of a record are in the range of their C types. -/
def scalars_ok (meas : lightranger9_btdata_t) : Prop :=
  meas.result_number < 256 ∧ -128 ≤ meas.temperature ∧ meas.temperature ≤ 127 ∧
  meas.valid_results < 256 ∧ meas.ambient_light < 4294967296 ∧
  meas.photon_count < 4294967296 ∧ meas.reference_count < 4294967296

/-- A text a `printf` conversion can produce for the tick seconds: no terminator inside
and at most 2048 characters. -/
def float_text_ok (fmt_f : Nat → List Char) : Prop :=
  ∀ x, (fmt_f x).length ≤ 2048 ∧ ∀ c ∈ fmt_f x, c ≠ NUL

/-! ## Gateway: scan callback -/

/-- AD type `BT_DATA_NAME_COMPLETE` of the Bluetooth stack. -/
def BT_DATA_NAME_COMPLETE : Nat := 0x09

/-- The seven characters of `BROADCASTER_NAME`, "LIGHTR9". -/
def BROADCASTER_NAME : List Nat := [0x4C, 0x49, 0x47, 0x48, 0x54, 0x52, 0x39]

/-- The bytes of the advertisement that lie behind an element: the elements that
follow, each as its length byte (one more than its number of data bytes), its AD type
and its data. -/
def ad_bytes (rest : List bt_data) : List Nat :=
  (rest.map (fun d => (d.data.length + 1) % 256 :: d.type :: d.data)).flatten

/-- The test `memcmp(data->data, BROADCASTER_NAME, strlen(BROADCASTER_NAME)) == 0`:
seven bytes are compared from `data->data` on, whatever `data->data_len` is, so for an
element with fewer than seven bytes the comparison goes on in the bytes `behind` it in
the advertisement.  `none` when the advertisement ends before a difference is found,
the outcome then depending on memory that was not received. -/
def name_matches (data behind : List Nat) : Option Bool :=
  if (data ++ behind).take 7 = BROADCASTER_NAME then some true
  else if (data ++ behind).length < 7 ∧
      data ++ behind = BROADCASTER_NAME.take (data ++ behind).length then none
  else some false

/-- The callback `adv_check_name(data, name_found)`: the value returned and the value of
`*name_found` afterwards.  `behind` are the bytes that follow `data->data[data_len - 1]`
in the advertisement. -/
def adv_check_name (data : bt_data) (behind : List Nat) (name_found : Bool) :
    Option (Bool × Bool) :=
  if name_found = false then
    if data.type = BT_DATA_MANUFACTURER_DATA then some (true, name_found)
    else if data.type = BT_DATA_NAME_COMPLETE then
      match name_matches data.data behind with
      | none => none
      | some true => some (false, true)
      | some false => some (false, name_found)
    else some (false, name_found)
  else some (false, name_found)

/-- The stack's `bt_data_parse(ad, func, user_data)` on a broadcast given as the list of
its elements: `func` is called on the elements in order until it returns false.  The
element handed to `func` points into the advertisement, so `func` also gets the bytes
that lie behind the element. -/
def bt_data_parse {σ : Type} (func : bt_data → List Nat → σ → Option (Bool × σ)) :
    List bt_data → σ → Option σ
  | [], user_data => some user_data
  | data :: rest, user_data =>
    match func data (ad_bytes rest) user_data with
    | none => none
    | some (true, user_data1) => bt_data_parse func rest user_data1
    | some (false, user_data1) => some user_data1

/-- The state of the scan callback: whether the broadcaster's address has been obtained,
that address, and the state of `adv_data_found`. -/
structure ScanState where
  gAddressObtained : Bool
  gAddress : List Nat
  rx : RxState
deriving DecidableEq, Repr

/-- The callback `scan_cb(addr, rssi, adv_type, buf)`: `addr` stands for the six bytes
`addr->a.val`, `buf` for the elements of the broadcast.  `adv_data_found` returns false
on every element. -/
def scan_cb (st : ScanState) (addr : List Nat) (buf : List bt_data) : Option ScanState :=
  if st.gAddressObtained = false then
    match bt_data_parse adv_check_name buf false with
    | none => none
    | some name_found =>
      if name_found then some { st with gAddress := addr, gAddressObtained := true }
      else some st
  else if addr = st.gAddress then
    match bt_data_parse
        (fun data _ rx =>
          match adv_data_found rx data with
          | none => none
          | some rx1 => some (false, rx1)) buf st.rx with
    | none => none
    | some rx1 => some { st with rx := rx1 }
  else some st

/-- The scan callback at start-up: no address obtained, `gAddress` zero. -/
def scan_init : ScanState :=
  { gAddressObtained := false, gAddress := [0, 0, 0, 0, 0, 0], rx := rx_init }

/-- A sample sender address. -/
def sample_addr : List Nat := [0xC0, 0x11, 0x22, 0x33, 0x44, 0x55]

/-- A broadcast that carries a name element only, as an advertising set started with
`BT_LE_ADV_OPT_USE_NAME` sends it before any data has been set. -/
def name_only_broadcast : List bt_data :=
  [{ type := BT_DATA_NAME_COMPLETE, data := BROADCASTER_NAME }]

/-- A broadcast whose only element is the name "LIGHTR9X". -/
def longer_name_broadcast : List bt_data :=
  [{ type := BT_DATA_NAME_COMPLETE, data := BROADCASTER_NAME ++ [0x58] }]

/-- A broadcast whose first element is the five-byte name "LIGHT"; the element behind
it has 81 data bytes and the AD type 0x39, so that the advertisement goes on with the
bytes 0x52, 0x39 after the name. -/
def short_name_broadcast : List bt_data :=
  [{ type := BT_DATA_NAME_COMPLETE, data := [0x4C, 0x49, 0x47, 0x48, 0x54] },
   { type := 0x39, data := List.replicate 81 0 }]

/-- A broadcast of one manufacturer-data element followed by the name element. -/
def data_and_name_broadcast : List bt_data :=
  [{ type := BT_DATA_MANUFACTURER_DATA, data := [1, 2, 1, 3, 7] },
   { type := BT_DATA_NAME_COMPLETE, data := BROADCASTER_NAME }]

/-- The scan callback after the address `sample_addr` has been obtained. -/
def scan_locked : ScanState :=
  { scan_init with gAddressObtained := true, gAddress := sample_addr }

/-- A device in bootloader mode that acknowledges every transfer except the status
read after the RAM-address command (transfer number 4), which fails on the bus; the
status reads number 2 and 6 report ready with a valid checksum, and the application
id read number 8 reports the measurement application. -/
def failed_poll_bus (n : Nat) : bus_reply :=
  if n = 0 then ⟨0, [LIGHTRANGER9_APP_ID_BOOTLOADER]⟩
  else if n = 2 ∨ n = 6 then ⟨0, [0x00, 0x00, 0xFF]⟩
  else if n = 4 then ⟨-5, []⟩
  else if n = 8 then ⟨0, [LIGHTRANGER9_APP_ID_MEASUREMENT]⟩
  else ⟨0, []⟩

/-- A status answer that passes the validation of `lightranger9_read_bl_cmd_status` and
reports ready: the transfer succeeds and delivers the bytes `0x00, 0x00, 0xFF`. -/
def ready_reply (r : bus_reply) : Prop := r.ret = 0 ∧ r.rx.take 3 = [0x00, 0x00, 0xFF]

/-- The payload a transfer carries if it is a RAM-write command, that is a write of
`[LIGHTRANGER9_REG_CMD_STAT, LIGHTRANGER9_BL_CMD_W_RAM, n, payload (n bytes), checksum]`. -/
def ram_write_payload : bus_op → Option (List Nat)
  | bus_op.write (reg :: cmd :: len :: rest) _ =>
    if reg = LIGHTRANGER9_REG_CMD_STAT ∧ cmd = LIGHTRANGER9_BL_CMD_W_RAM then
      some (rest.take len)
    else none
  | _ => none

/-- The payloads of the RAM-write commands among the transfers `ops`, in order. -/
def ram_payloads (ops : List bus_op) : List (List Nat) := ops.filterMap ram_write_payload

/-- The image from byte `i` on cut into pieces of `BL_MAX_CHUNK_BYTES` bytes, the last
piece holding what is left; the first argument bounds the number of pieces. -/
def chunks_from (image : List Nat) : Nat → Nat → List (List Nat)
  | 0, _ => []
  | fuel + 1, i =>
    if i < image.length then
      (image.drop i).take BL_MAX_CHUNK_BYTES ::
        chunks_from image fuel (i + BL_MAX_CHUNK_BYTES)
    else []

/-- A device in bootloader mode that acknowledges every transfer and answers every
read after the first with the bytes `0x00, 0x00, 0xFF`. -/
def ready_bus (n : Nat) : bus_reply :=
  if n = 0 then ⟨0, [LIGHTRANGER9_APP_ID_BOOTLOADER]⟩ else ⟨0, [0x00, 0x00, 0xFF]⟩

/-- The receiver as the completion of a record whose bytes are all 7 leaves it: headers
and count cleared, the record still in `buffer`. -/
def rx_completed : RxState :=
  { header := zero_header
    prev_header := zero_header
    buffer := List.replicate SIZEOF_BTDATA 7
    cnt := 0
    gMeasurement := List.replicate SIZEOF_BTDATA 7
    gMeasReceived := true }

/-! ## Folding a sequence of captures -/

/-- Successive calls `lightranger9_parse_measurement(capture, parsed_data)` on the one
record `parsed_data` for a sequence of captures: the value of `sub_capture_cnt` and the
record after the last call. -/
def fold_captures : Nat → lightranger9_measurement_t → List lightranger9_meas_cpt_t →
    Option (Nat × lightranger9_measurement_t)
  | cnt, parsed_data, [] => some (cnt, parsed_data)
  | cnt, parsed_data, capture :: rest =>
    match lightranger9_parse_measurement cnt capture parsed_data with
    | none => none
    | some (cnt1, pd1, _) => fold_captures cnt1 pd1 rest

/-- The sub-capture whose fold writes cell `c` of an object map. -/
def cell_sub (c : Nat) : Nat := (c / 8 % 2) * 2 + (c % 4) / 2

/-- The result slot (of object map 1; add 18 for object map 2) that the fold of
sub-capture `cell_sub c` writes to cell `c`. -/
def cell_slot (c : Nat) : Nat := (c / 16) * 2 + (c % 8) / 4 + 9 * (c % 2)

/-- The value a cell holds after the folds of `captures`, given its value `v` before:
each capture of the cell's sub-capture replaces it by the capture's result `slot`. -/
def cell_after (c slot : Nat) (captures : List lightranger9_meas_cpt_t)
    (v : Option lightranger9_meas_result_t) : Option lightranger9_meas_result_t :=
  captures.foldl (fun v capture =>
    if capture.sub_capture = cell_sub c then capture.result[slot]? else v) v

/-- A capture of sub-capture `s` whose 36 results all hold confidence `s` and distance
`100 + s`. -/
def capture_of_sub (s : Nat) : lightranger9_meas_cpt_t :=
  { sub_capture := s, result_number := 1, temperature := 25, valid_results := 36,
    ambient_light := 0, photon_count := 0, reference_count := 0, sys_tick_sec := 0,
    result := List.replicate 36 { confidence := s, distance_mm := 100 + s } }

end ToF

/-! # Properties -/

namespace ToF

/-! ## `memcpy` -/

theorem memcpy_length {dst src r : List Nat} {off n : Nat} (h : memcpy dst off src n = some r) :
    r.length = dst.length := by
  unfold memcpy at h
  split at h
  · cases h
    simp only [List.length_append, List.length_take, List.length_drop]
    omega
  · cases h

theorem memcpy_none {dst src : List Nat} {off n : Nat} (h : dst.length < off + n) :
    memcpy dst off src n = none := by
  unfold memcpy
  rw [if_neg]
  omega

/-! ## Transmitter -/

set_option maxRecDepth 4000 in
theorem send_loop_succ (sd : bt_data → Int) (id : Nat × Nat) (buf : List Nat)
    (len parts k cnt : Nat) (ret : Int) :
    send_loop sd id buf len parts (k + 1) cnt ret =
      match send_part id buf len parts cnt with
      | none => none
      | some ad =>
        match send_loop sd id buf len parts k (cnt + 1) (sd ad) with
        | none => none
        | some (ret, ads) => some (ret, ad :: ads) := by
  rw [send_loop]

/-- The offset of the last part never exceeds the message length, so the length of
the last chunk is a genuine difference. -/
theorem last_part_offset_le (len : Nat) :
    (send_parts len - 1) * BT_ADD_MAIN_BUFF_CHUNK ≤ len := by
  simp only [send_parts, ceiling_fraction, BT_AD_EFFECTIVE_PAYLOAD, BT_ADD_MAIN_BUFF_CHUNK]
  omega

theorem send_part_overflow (id : Nat × Nat) (buf : List Nat) (len parts cnt : Nat)
    (h : BT_ADD_MAIN_BUFF_CHUNK < part_payload_len len parts cnt) :
    send_part id buf len parts cnt = none := by
  unfold send_part
  dsimp only
  cases h1 : memcpy (List.replicate BT_AD_EFFECTIVE_PAYLOAD 0) 0
      (header_bytes ⟨id.1, id.2, (cnt + 1) % 256, parts⟩) SIZEOF_HEADER with
  | none => rfl
  | some tmp1 =>
    have hl := memcpy_length h1
    have hn : memcpy tmp1 SIZEOF_HEADER (List.drop (cnt * BT_ADD_MAIN_BUFF_CHUNK) buf)
        (part_payload_len len parts cnt) = none := by
      apply memcpy_none
      rw [hl, List.length_replicate]
      simp only [BT_AD_EFFECTIVE_PAYLOAD, SIZEOF_HEADER, BT_ADD_MAIN_BUFF_CHUNK] at *
      omega
    simp only [hn]

/-- C5, at the message length 207: `bt_broadcaster_send_message` divides by the
210-byte packet size, so its part count is 1 and its loop runs once, while the chunk
size 206 calls for `ceil(207 / 206) = 2` fragments. -/
theorem send_parts_207 :
    send_parts 207 = 1 ∧ ceiling_fraction 207 BT_ADD_MAIN_BUFF_CHUNK = 2 ∧
      part_payload_len 207 (send_parts 207) 0 = 207 := by
  simp [send_parts, ceiling_fraction, part_payload_len, BT_AD_EFFECTIVE_PAYLOAD,
    BT_ADD_MAIN_BUFF_CHUNK]

/-- C6, at the message length 207: the single loop iteration copies 207 payload bytes
behind the 4-byte header, which does not fit the 210-byte `tmp_buff`; the copy leaves
the buffer and the call has no defined result. -/
theorem send_message_207_overflows (sd : bt_data → Int) (id : Nat × Nat) (buf : List Nat) :
    SIZEOF_HEADER + part_payload_len 207 (send_parts 207) 0 = 211 ∧
      bt_broadcaster_send_message true sd id (some buf) 207 = none := by
  have hp : send_parts 207 = 1 := by
    simp [send_parts, ceiling_fraction, BT_AD_EFFECTIVE_PAYLOAD]
  refine ⟨by simp [hp, part_payload_len, SIZEOF_HEADER, BT_ADD_MAIN_BUFF_CHUNK], ?_⟩
  show send_loop sd id buf 207 (send_parts 207) (send_parts 207) 0 (-999) = none
  rw [hp, send_loop_succ,
    send_part_overflow id buf 207 1 0 (by simp [part_payload_len, BT_ADD_MAIN_BUFF_CHUNK])]

/-! ## Spatial remap -/

set_option maxRecDepth 100000 in
/-- The cell determines the sub-capture and the position of the slot inside its map. -/
theorem remap_decode :
    ∀ i, i < 36 → ∀ s, s < 4 → fold_skips i = false →
      remap_cell i s < 64 ∧
      s = (remap_cell i s / 8 % 2) * 2 + (remap_cell i s % 4) / 2 ∧
      i % 18 = (remap_cell i s / 16) * 2 + (remap_cell i s % 8) / 4 +
        9 * (remap_cell i s % 2) := by
  decide

/-- C7: within one object map, distinct (result index, sub-capture) pairs that the fold
writes are mapped to distinct cells `row * 8 + col`, and every such cell is below 64. -/
theorem remap_no_collisions (i j s t : Nat) (hi : i < LIGHTRANGER9_MAX_MEAS_RESULTS)
    (hj : j < LIGHTRANGER9_MAX_MEAS_RESULTS) (hs : s < 4) (ht : t < 4)
    (hni : fold_skips i = false) (hnj : fold_skips j = false)
    (hmap : i ≥ LIGHTRANGER9_MAX_MEAS_RESULTS / 2 ↔ j ≥ LIGHTRANGER9_MAX_MEAS_RESULTS / 2) :
    remap_cell i s < LIGHTRANGER9_OBJECT_MAP_SIZE ∧
      (remap_cell i s = remap_cell j t → i = j ∧ s = t) := by
  have h1 := remap_decode i hi s hs hni
  have h2 := remap_decode j hj t ht hnj
  simp only [LIGHTRANGER9_MAX_MEAS_RESULTS, LIGHTRANGER9_OBJECT_MAP_SIZE] at *
  refine ⟨h1.1, fun h => ?_⟩
  rw [h] at h1
  omega

/-- Witness of C7: slots 1 and 10 of sub-capture 0 both go to object map 1. -/
theorem remap_no_collisions_witness :
    remap_cell 1 0 < LIGHTRANGER9_OBJECT_MAP_SIZE ∧
      (remap_cell 1 0 = remap_cell 10 0 → 1 = 10 ∧ 0 = 0) :=
  remap_no_collisions 1 10 0 0 (by decide) (by decide) (by decide) (by decide)
    (by decide) (by decide) (by decide)

/-- C8 as stated fails: slot 1 of sub-capture 0 is not placed at row 0, column 1. -/
theorem remap_slot1_not_col1 : ¬ (remap_row 1 0 = 0 ∧ remap_col 1 0 = 1) := by
  decide

/-- C8, amended: slot 1 of sub-capture 0 is placed at row 0, column 4. -/
theorem remap_slot1 : remap_row 1 0 = 0 ∧ remap_col 1 0 = 4 := by
  decide

/-! ## Capture fold -/

theorem write_cell_some (m : List lightranger9_meas_result_t) (idx : Nat)
    (r : lightranger9_meas_result_t) (h : idx < m.length) :
    write_cell m idx r = some (m.set idx r) := by
  unfold write_cell
  rw [if_pos h]

theorem fold_slot_skip (capture : lightranger9_meas_cpt_t) (pd : lightranger9_measurement_t)
    (n : Nat) (h : fold_skips n = true) : fold_slot capture pd n = some pd := by
  unfold fold_slot
  rw [if_pos h]

theorem fold_slot_low (capture : lightranger9_meas_cpt_t) (pd : lightranger9_measurement_t)
    (n : Nat) (r : lightranger9_meas_result_t) (h : fold_skips n = false)
    (hr : capture.result[n]? = some r) (hn : n < 18)
    (hc : remap_cell n capture.sub_capture < pd.obj1.length) :
    fold_slot capture pd n =
      some { pd with obj1 := pd.obj1.set (remap_cell n capture.sub_capture) r } := by
  have hlt : ¬ (n ≥ LIGHTRANGER9_MAX_MEAS_RESULTS / 2) := by
    simp only [LIGHTRANGER9_MAX_MEAS_RESULTS]; omega
  unfold fold_slot
  rw [if_neg (by simp [h])]
  simp only [hr]
  rw [if_neg hlt, write_cell_some _ _ _ hc]

theorem fold_slot_high (capture : lightranger9_meas_cpt_t) (pd : lightranger9_measurement_t)
    (n : Nat) (r : lightranger9_meas_result_t) (h : fold_skips n = false)
    (hr : capture.result[n]? = some r) (hn : 18 ≤ n)
    (hc : remap_cell n capture.sub_capture < pd.obj2.length) :
    fold_slot capture pd n =
      some { pd with obj2 := pd.obj2.set (remap_cell n capture.sub_capture) r } := by
  have hge : n ≥ LIGHTRANGER9_MAX_MEAS_RESULTS / 2 := by
    simp only [LIGHTRANGER9_MAX_MEAS_RESULTS]; omega
  unfold fold_slot
  rw [if_neg (by simp [h])]
  simp only [hr]
  rw [if_pos hge, write_cell_some _ _ _ hc]

/-- Two unskipped slots of the same object map and sub-capture share no cell. -/
theorem remap_cell_ne (i n s : Nat) (hi : i < n) (hn : n < 36) (hs : s < 4)
    (hni : fold_skips i = false) (hnn : fold_skips n = false)
    (hmap : 18 ≤ i ↔ 18 ≤ n) : remap_cell i s ≠ remap_cell n s := by
  intro h
  have h1 := remap_decode i (by omega) s hs hni
  have h2 := remap_decode n hn s hs hnn
  rw [h] at h1
  omega

/-- What the first `n` iterations of the fold loop leave in the record. -/
theorem fold_upto_spec (capture : lightranger9_meas_cpt_t) (pd : lightranger9_measurement_t)
    (hs : capture.sub_capture < 4) (hr : capture.result.length = 36)
    (h1 : pd.obj1.length = 64) (h2 : pd.obj2.length = 64) :
    ∀ n, n ≤ 36 → ∃ pd1, fold_upto capture pd n = some pd1 ∧
      pd1.obj1.length = 64 ∧ pd1.obj2.length = 64 ∧
      { pd1 with obj1 := pd.obj1, obj2 := pd.obj2 } = pd ∧
      (∀ i, i < n → fold_skips i = false → i < 18 →
        pd1.obj1[remap_cell i capture.sub_capture]? = capture.result[i]?) ∧
      (∀ i, i < n → fold_skips i = false → 18 ≤ i →
        pd1.obj2[remap_cell i capture.sub_capture]? = capture.result[i]?) ∧
      (∀ c, (∀ i, i < n → fold_skips i = false → i < 18 →
        remap_cell i capture.sub_capture ≠ c) → pd1.obj1[c]? = pd.obj1[c]?) ∧
      (∀ c, (∀ i, i < n → fold_skips i = false → 18 ≤ i →
        remap_cell i capture.sub_capture ≠ c) → pd1.obj2[c]? = pd.obj2[c]?) := by
  intro n
  induction n with
  | zero =>
    intro _
    exact ⟨pd, rfl, h1, h2, rfl, fun i hi => absurd hi (Nat.not_lt_zero i),
      fun i hi => absurd hi (Nat.not_lt_zero i), fun _ _ => rfl, fun _ _ => rfl⟩
  | succ n ih =>
    intro hn
    obtain ⟨pd1, hf, l1, l2, hsc, p1, p2, k1, k2⟩ := ih (by omega)
    have hstep : fold_upto capture pd (n + 1) = fold_slot capture pd1 n := by
      simp only [fold_upto, hf]
    rw [hstep]
    cases hskip : fold_skips n with
    | true =>
      refine ⟨pd1, fold_slot_skip capture pd1 n hskip, l1, l2, hsc, ?_, ?_, ?_, ?_⟩
      · intro i hi hni h18
        have : i ≠ n := by rintro rfl; rw [hskip] at hni; cases hni
        exact p1 i (by omega) hni h18
      · intro i hi hni h18
        have : i ≠ n := by rintro rfl; rw [hskip] at hni; cases hni
        exact p2 i (by omega) hni h18
      · intro c hc
        exact k1 c (fun i hi => hc i (by omega))
      · intro c hc
        exact k2 c (fun i hi => hc i (by omega))
    | false =>
      have hnlt : n < capture.result.length := by omega
      have hres : capture.result[n]? = some capture.result[n] := List.getElem?_eq_getElem hnlt
      have hcell := (remap_decode n (by omega) capture.sub_capture hs hskip).1
      by_cases h18 : n < 18
      · refine ⟨_, fold_slot_low capture pd1 n _ hskip hres h18 (by omega), ?_, l2, ?_,
          ?_, ?_, ?_, ?_⟩
        · simp only [List.length_set]; exact l1
        · simpa using hsc
        · intro i hi hni hi18
          by_cases hin : i = n
          · subst hin
            rw [List.getElem?_set_self (by omega), hres]
          · have hne := remap_cell_ne i n capture.sub_capture (by omega) (by omega) hs hni hskip
              (by omega)
            show (pd1.obj1.set _ _)[_]? = _
            rw [List.getElem?_set_ne (Ne.symm hne)]
            exact p1 i (by omega) hni hi18
        · intro i hi hni hi18
          exact p2 i (by omega) hni hi18
        · intro c hc
          have hne := hc n (by omega) hskip h18
          show (pd1.obj1.set _ _)[_]? = _
          rw [List.getElem?_set_ne hne]
          exact k1 c (fun i hi => hc i (by omega))
        · intro c hc
          exact k2 c (fun i hi => hc i (by omega))
      · have h18' : 18 ≤ n := by omega
        refine ⟨_, fold_slot_high capture pd1 n _ hskip hres h18' (by omega), l1, ?_, ?_,
          ?_, ?_, ?_, ?_⟩
        · simp only [List.length_set]; exact l2
        · simpa using hsc
        · intro i hi hni hi18
          exact p1 i (by omega) hni hi18
        · intro i hi hni hi18
          by_cases hin : i = n
          · subst hin
            rw [List.getElem?_set_self (by omega), hres]
          · have hne := remap_cell_ne i n capture.sub_capture (by omega) (by omega) hs hni hskip
              (by omega)
            show (pd1.obj2.set _ _)[_]? = _
            rw [List.getElem?_set_ne (Ne.symm hne)]
            exact p2 i (by omega) hni hi18
        · intro c hc
          exact k1 c (fun i hi => hc i (by omega))
        · intro c hc
          have hne := hc n (by omega) hskip h18'
          show (pd1.obj2.set _ _)[_]? = _
          rw [List.getElem?_set_ne hne]
          exact k2 c (fun i hi => hc i (by omega))

theorem remap_cell_eq_spec (i s : Nat) (hs : s < 4) :
    remap_cell i s = spec_row i s * 8 + spec_col i s := by
  have hrow : ((i % 9) / 2) * 2 + s / 2 < 256 := by omega
  have hcol : ((i % 9) % 2) * 4 + (i % 18) / 9 + (s % 2) * 2 < 256 := by omega
  simp only [remap_cell, remap_row, remap_col, spec_row, spec_col,
    Nat.mod_eq_of_lt hrow, Nat.mod_eq_of_lt hcol]

/-- The call runs the whole loop and hands back its object maps untouched. -/
theorem parse_measurement_maps (sub_capture_cnt : Nat) (capture : lightranger9_meas_cpt_t)
    (pd pd1 : lightranger9_measurement_t)
    (h : fold_upto capture pd LIGHTRANGER9_MAX_MEAS_RESULTS = some pd1) :
    ∃ cnt1 pd2 ret, lightranger9_parse_measurement sub_capture_cnt capture pd =
        some (cnt1, pd2, ret) ∧ pd2.obj1 = pd1.obj1 ∧ pd2.obj2 = pd1.obj2 := by
  unfold lightranger9_parse_measurement
  simp only [h]
  split
  · exact ⟨_, _, _, rfl, rfl, rfl⟩
  · exact ⟨_, _, _, rfl, rfl, rfl⟩

/-- The content of a slot the loop skips has no influence on the loop. -/
theorem fold_upto_set_skipped (capture : lightranger9_meas_cpt_t)
    (pd : lightranger9_measurement_t) (i : Nat) (v : lightranger9_meas_result_t)
    (hi : fold_skips i = true) (n : Nat) :
    fold_upto { capture with result := capture.result.set i v } pd n =
      fold_upto capture pd n := by
  induction n with
  | zero => rfl
  | succ n ih =>
    simp only [fold_upto, ih]
    cases fold_upto capture pd n with
    | none => rfl
    | some pd1 =>
      show fold_slot _ pd1 n = fold_slot capture pd1 n
      cases hn : fold_skips n with
      | true => rw [fold_slot_skip _ _ _ hn, fold_slot_skip _ _ _ hn]
      | false =>
        have hne : i ≠ n := by rintro rfl; rw [hi] at hn; cases hn
        unfold fold_slot
        simp only [List.getElem?_set_ne hne]

/-- C9 as stated fails: slot 0 is not skipped.  Folding a capture whose slot 0 holds
confidence 150 and distance 500 into the all-zero record puts that pair into cell 0 of
object map 1. -/
theorem fold_copies_slot_0 :
    (lightranger9_parse_measurement 0 (sample_capture ⟨150, 500⟩) zero_measurement).map
      (fun p => p.2.1.obj1[0]?) = some (some ⟨150, 500⟩) := by
  decide

/-- C9, amended: the fold skips exactly the slots 8, 17, 26 and 35 (their content has no
influence on the result of the call) and copies each of the other 32 slots into a cell
of an object map. -/
theorem fold_skipped_slots (sub_capture_cnt : Nat) (capture : lightranger9_meas_cpt_t)
    (pd : lightranger9_measurement_t)
    (hs : capture.sub_capture < 4)
    (hr : capture.result.length = LIGHTRANGER9_MAX_MEAS_RESULTS)
    (h1 : pd.obj1.length = LIGHTRANGER9_OBJECT_MAP_SIZE)
    (h2 : pd.obj2.length = LIGHTRANGER9_OBJECT_MAP_SIZE) :
    (∀ i, i < LIGHTRANGER9_MAX_MEAS_RESULTS →
      (fold_skips i = true ↔ i = 8 ∨ i = 17 ∨ i = 26 ∨ i = 35)) ∧
    (∀ i v, fold_skips i = true →
      lightranger9_parse_measurement sub_capture_cnt
          { capture with result := capture.result.set i v } pd =
        lightranger9_parse_measurement sub_capture_cnt capture pd) ∧
    (∀ i, i < LIGHTRANGER9_MAX_MEAS_RESULTS → fold_skips i = false →
      ∃ cnt1 pd1 ret, lightranger9_parse_measurement sub_capture_cnt capture pd =
          some (cnt1, pd1, ret) ∧
        ∃ c, c < LIGHTRANGER9_OBJECT_MAP_SIZE ∧
          (if i < 18 then pd1.obj1 else pd1.obj2)[c]? = capture.result[i]?) := by
  simp only [LIGHTRANGER9_MAX_MEAS_RESULTS, LIGHTRANGER9_OBJECT_MAP_SIZE] at hr h1 h2 ⊢
  refine ⟨?_, ?_, ?_⟩
  · intro i hi
    simp only [fold_skips, beq_iff_eq]
    omega
  · intro i v hi
    unfold lightranger9_parse_measurement
    rw [fold_upto_set_skipped capture pd i v hi]
  · intro i hi hni
    obtain ⟨pd1, hf, _, _, _, p1, p2, _, _⟩ := fold_upto_spec capture pd hs hr h1 h2 36 (by omega)
    obtain ⟨cnt1, pd2, ret, hp, e1, e2⟩ :=
      parse_measurement_maps sub_capture_cnt capture pd pd1 hf
    refine ⟨cnt1, pd2, ret, hp, remap_cell i capture.sub_capture,
      (remap_decode i hi _ hs hni).1, ?_⟩
    by_cases h18 : i < 18
    · rw [if_pos h18, e1]; exact p1 i hi hni h18
    · rw [if_neg h18, e2]; exact p2 i hi hni (by omega)

/-- Witness of C9 (amended) at the sample capture and the all-zero record. -/
theorem fold_skipped_slots_witness :
    (∀ i, i < LIGHTRANGER9_MAX_MEAS_RESULTS →
      (fold_skips i = true ↔ i = 8 ∨ i = 17 ∨ i = 26 ∨ i = 35)) ∧
    (∀ i v, fold_skips i = true →
      lightranger9_parse_measurement 0
          { sample_capture ⟨150, 500⟩ with
            result := (sample_capture ⟨150, 500⟩).result.set i v } zero_measurement =
        lightranger9_parse_measurement 0 (sample_capture ⟨150, 500⟩) zero_measurement) ∧
    (∀ i, i < LIGHTRANGER9_MAX_MEAS_RESULTS → fold_skips i = false →
      ∃ cnt1 pd1 ret, lightranger9_parse_measurement 0 (sample_capture ⟨150, 500⟩)
          zero_measurement = some (cnt1, pd1, ret) ∧
        ∃ c, c < LIGHTRANGER9_OBJECT_MAP_SIZE ∧
          (if i < 18 then pd1.obj1 else pd1.obj2)[c]? =
            (sample_capture ⟨150, 500⟩).result[i]?) :=
  fold_skipped_slots 0 (sample_capture ⟨150, 500⟩) zero_measurement (by decide) (by decide)
    (by decide) (by decide)

/-- C10: for a capture of sub-capture `s < 4`, after the call the cell `row * 8 + col`
(with the stated `row` and `col`) of object map 1 for a slot `i < 18`, of object map 2
otherwise, holds the pair of every unskipped slot `i`, and every cell that is no such
target keeps its previous value. -/
theorem fold_placement (sub_capture_cnt : Nat) (capture : lightranger9_meas_cpt_t)
    (pd : lightranger9_measurement_t)
    (hs : capture.sub_capture < 4)
    (hr : capture.result.length = LIGHTRANGER9_MAX_MEAS_RESULTS)
    (h1 : pd.obj1.length = LIGHTRANGER9_OBJECT_MAP_SIZE)
    (h2 : pd.obj2.length = LIGHTRANGER9_OBJECT_MAP_SIZE) :
    ∃ cnt1 pd1 ret,
      lightranger9_parse_measurement sub_capture_cnt capture pd = some (cnt1, pd1, ret) ∧
      (∀ i, i < LIGHTRANGER9_MAX_MEAS_RESULTS → fold_skips i = false →
        (if i < 18 then pd1.obj1 else pd1.obj2)[spec_row i capture.sub_capture * 8 +
          spec_col i capture.sub_capture]? = capture.result[i]?) ∧
      (∀ c, (∀ i, i < LIGHTRANGER9_MAX_MEAS_RESULTS → fold_skips i = false → i < 18 →
          spec_row i capture.sub_capture * 8 + spec_col i capture.sub_capture ≠ c) →
        pd1.obj1[c]? = pd.obj1[c]?) ∧
      (∀ c, (∀ i, i < LIGHTRANGER9_MAX_MEAS_RESULTS → fold_skips i = false → 18 ≤ i →
          spec_row i capture.sub_capture * 8 + spec_col i capture.sub_capture ≠ c) →
        pd1.obj2[c]? = pd.obj2[c]?) := by
  simp only [LIGHTRANGER9_MAX_MEAS_RESULTS, LIGHTRANGER9_OBJECT_MAP_SIZE] at hr h1 h2 ⊢
  obtain ⟨pd1, hf, _, _, _, p1, p2, k1, k2⟩ := fold_upto_spec capture pd hs hr h1 h2 36 (by omega)
  obtain ⟨cnt1, pd2, ret, hp, e1, e2⟩ :=
    parse_measurement_maps sub_capture_cnt capture pd pd1 hf
  refine ⟨cnt1, pd2, ret, hp, ?_, ?_, ?_⟩
  · intro i hi hni
    rw [← remap_cell_eq_spec i _ hs]
    by_cases h18 : i < 18
    · rw [if_pos h18, e1]; exact p1 i hi hni h18
    · rw [if_neg h18, e2]; exact p2 i hi hni (by omega)
  · intro c hc
    rw [e1]
    exact k1 c (fun i hi hni h18 => by rw [remap_cell_eq_spec i _ hs]; exact hc i hi hni h18)
  · intro c hc
    rw [e2]
    exact k2 c (fun i hi hni h18 => by rw [remap_cell_eq_spec i _ hs]; exact hc i hi hni h18)

/-- Witness of C10 at the sample capture and the all-zero record. -/
theorem fold_placement_witness :
    ∃ cnt1 pd1 ret,
      lightranger9_parse_measurement 0 (sample_capture ⟨150, 500⟩) zero_measurement =
        some (cnt1, pd1, ret) ∧
      (∀ i, i < LIGHTRANGER9_MAX_MEAS_RESULTS → fold_skips i = false →
        (if i < 18 then pd1.obj1 else pd1.obj2)[spec_row i
            (sample_capture ⟨150, 500⟩).sub_capture * 8 +
          spec_col i (sample_capture ⟨150, 500⟩).sub_capture]? =
            (sample_capture ⟨150, 500⟩).result[i]?) ∧
      (∀ c, (∀ i, i < LIGHTRANGER9_MAX_MEAS_RESULTS → fold_skips i = false → i < 18 →
          spec_row i (sample_capture ⟨150, 500⟩).sub_capture * 8 +
            spec_col i (sample_capture ⟨150, 500⟩).sub_capture ≠ c) →
        pd1.obj1[c]? = zero_measurement.obj1[c]?) ∧
      (∀ c, (∀ i, i < LIGHTRANGER9_MAX_MEAS_RESULTS → fold_skips i = false → 18 ≤ i →
          spec_row i (sample_capture ⟨150, 500⟩).sub_capture * 8 +
            spec_col i (sample_capture ⟨150, 500⟩).sub_capture ≠ c) →
        pd1.obj2[c]? = zero_measurement.obj2[c]?) :=
  fold_placement 0 (sample_capture ⟨150, 500⟩) zero_measurement (by decide) (by decide)
    (by decide) (by decide)

/-! ## Round trip -/

theorem memcpy_getElem? {dst src r : List Nat} {off n : Nat}
    (h : memcpy dst off src n = some r) (i : Nat) :
    r[i]? = if i < off then dst[i]? else if i < off + n then src[i - off]? else dst[i]? := by
  unfold memcpy at h
  split at h
  · rename_i hc
    cases h
    by_cases h1 : i < off
    · rw [if_pos h1, List.append_assoc, List.getElem?_append_left (by simp; omega)]
      exact List.getElem?_take_of_lt h1
    · rw [if_neg h1, List.append_assoc, List.getElem?_append_right (by simp; omega)]
      have hl : (List.take off dst).length = off := by simp; omega
      rw [hl]
      by_cases h2 : i < off + n
      · rw [if_pos h2, List.getElem?_append_left (by simp; omega)]
        exact List.getElem?_take_of_lt (by omega)
      · rw [if_neg h2, List.getElem?_append_right (by simp; omega)]
        have hl2 : (List.take n src).length = n := by simp; omega
        rw [hl2, List.getElem?_drop]
        congr 1
        omega
  · cases h

theorem memcpy_some {dst src : List Nat} {off n : Nat} (h1 : off + n ≤ dst.length)
    (h2 : n ≤ src.length) :
    memcpy dst off src n = some (dst.take off ++ src.take n ++ dst.drop (off + n)) := by
  unfold memcpy
  rw [if_pos ⟨h1, h2⟩]

/-- Header and chunk written into a cleared packet buffer, cut at `data_len`. -/
theorem packet_bytes (hb rest src : List Nat) (n : Nat) (h4 : hb.length = 4)
    (hn : n ≤ src.length) :
    ((hb ++ rest).take 4 ++ src.take n ++ (hb ++ rest).drop (4 + n)).take (n + 4) =
      hb ++ src.take n := by
  rw [List.take_left' h4]
  apply List.take_left'
  simp only [List.length_append, List.length_take, h4]
  omega

/-- An iteration whose chunk fits the packet hands the specified fragment to the transport. -/
theorem send_part_eq_fragment (id : Nat × Nat) (buf : List Nat) (len parts cnt : Nat)
    (hlen : buf.length = len) (hcnt : cnt + 1 < 256)
    (hfit : part_payload_len len parts cnt ≤ BT_ADD_MAIN_BUFF_CHUNK)
    (hlast : cnt = parts - 1 → cnt * BT_ADD_MAIN_BUFF_CHUNK ≤ len)
    (hmid : cnt ≠ parts - 1 → (cnt + 1) * BT_ADD_MAIN_BUFF_CHUNK ≤ len) :
    send_part id buf len parts cnt = some (fragment id parts buf cnt) := by
  have hsrc : part_payload_len len parts cnt ≤
      (buf.drop (cnt * BT_ADD_MAIN_BUFF_CHUNK)).length := by
    simp only [List.length_drop, hlen, part_payload_len, BT_ADD_MAIN_BUFF_CHUNK] at *
    split
    · omega
    · rename_i hne
      have := hmid hne
      omega
  have hdl : (if cnt = parts - 1 then (len - cnt * BT_ADD_MAIN_BUFF_CHUNK) + 4
      else BT_AD_EFFECTIVE_PAYLOAD) % 256 = part_payload_len len parts cnt + 4 := by
    have e : (if cnt = parts - 1 then (len - cnt * BT_ADD_MAIN_BUFF_CHUNK) + 4
        else BT_AD_EFFECTIVE_PAYLOAD) = part_payload_len len parts cnt + 4 := by
      simp only [part_payload_len, SIZEOF_HEADER, BT_AD_EFFECTIVE_PAYLOAD,
        BT_ADD_MAIN_BUFF_CHUNK]
      split <;> rfl
    rw [e]
    apply Nat.mod_eq_of_lt
    simp only [BT_ADD_MAIN_BUFF_CHUNK] at hfit
    omega
  have htake : (buf.drop (cnt * BT_ADD_MAIN_BUFF_CHUNK)).take (part_payload_len len parts cnt) =
      (buf.drop (cnt * BT_ADD_MAIN_BUFF_CHUNK)).take BT_ADD_MAIN_BUFF_CHUNK := by
    by_cases hc : cnt = parts - 1
    · have hl := hlast hc
      have e : part_payload_len len parts cnt =
          (buf.drop (cnt * BT_ADD_MAIN_BUFF_CHUNK)).length := by
        simp only [part_payload_len, if_pos hc, List.length_drop, hlen]
      rw [List.take_of_length_le (by omega), List.take_of_length_le (by omega)]
    · simp only [part_payload_len, if_neg hc]
  have hhdr : memcpy (List.replicate BT_AD_EFFECTIVE_PAYLOAD 0) 0
      (header_bytes ⟨id.1, id.2, (cnt + 1) % 256, parts⟩) SIZEOF_HEADER =
      some ([id.1, id.2, cnt + 1, parts] ++
        (List.replicate BT_AD_EFFECTIVE_PAYLOAD 0).drop 4) := by
    rw [memcpy_some (by
        simp only [List.length_replicate, BT_AD_EFFECTIVE_PAYLOAD, SIZEOF_HEADER]; omega)
      (by simp [header_bytes, SIZEOF_HEADER])]
    simp only [header_bytes, SIZEOF_HEADER, List.take_zero, List.nil_append, Nat.zero_add,
      Nat.mod_eq_of_lt hcnt]
    rfl
  unfold send_part
  simp only [hhdr]
  rw [memcpy_some (by
      simp only [List.length_append, List.length_drop, List.length_replicate, List.length_cons,
        List.length_nil, BT_AD_EFFECTIVE_PAYLOAD, SIZEOF_HEADER, BT_ADD_MAIN_BUFF_CHUNK] at *
      omega) hsrc]
  simp only [SIZEOF_HEADER]
  rw [hdl, packet_bytes [id.1, id.2, cnt + 1, parts] _ _ _ rfl hsrc, htake]
  rfl

set_option maxRecDepth 4000 in
theorem send_loop_zero (sd : bt_data → Int) (id : Nat × Nat) (buf : List Nat)
    (len parts cnt : Nat) (ret : Int) :
    send_loop sd id buf len parts 0 cnt ret = some (ret, []) := by
  rw [send_loop]

/-- The part count the transmitter computes for a record. -/
theorem send_parts_record : send_parts SIZEOF_BTDATA = 3 := by
  simp [send_parts, ceiling_fraction, SIZEOF_BTDATA, BT_AD_EFFECTIVE_PAYLOAD,
    LIGHTRANGER9_OBJECT_MAP_SIZE, SIZEOF_MEAS_RESULT]

/-- For a record the transmitter hands exactly the three specified fragments to the
transport, in part order, and returns what the transport answered for the last one. -/
theorem send_message_record (sd : bt_data → Int) (id : Nat × Nat) (R : List Nat)
    (hR : R.length = SIZEOF_BTDATA) :
    bt_broadcaster_send_message true sd id (some R) R.length =
      some (sd (fragment id 3 R 2), [fragment id 3 R 0, fragment id 3 R 1, fragment id 3 R 2]) := by
  have h531 : R.length = 531 := hR
  show send_loop sd id R R.length (send_parts R.length) (send_parts R.length) 0 (-999) = _
  rw [hR, send_parts_record]
  have p0 : send_part id R SIZEOF_BTDATA 3 0 = some (fragment id 3 R 0) :=
    send_part_eq_fragment id R _ 3 0 hR (by omega)
      (by simp [part_payload_len]) (by simp) (by simp [SIZEOF_BTDATA, BT_ADD_MAIN_BUFF_CHUNK,
        LIGHTRANGER9_OBJECT_MAP_SIZE, SIZEOF_MEAS_RESULT])
  have p1 : send_part id R SIZEOF_BTDATA 3 1 = some (fragment id 3 R 1) :=
    send_part_eq_fragment id R _ 3 1 hR (by omega)
      (by simp [part_payload_len]) (by simp) (by simp [SIZEOF_BTDATA, BT_ADD_MAIN_BUFF_CHUNK,
        LIGHTRANGER9_OBJECT_MAP_SIZE, SIZEOF_MEAS_RESULT])
  have p2 : send_part id R SIZEOF_BTDATA 3 2 = some (fragment id 3 R 2) :=
    send_part_eq_fragment id R _ 3 2 hR (by omega)
      (by simp [part_payload_len, SIZEOF_BTDATA, BT_ADD_MAIN_BUFF_CHUNK,
        LIGHTRANGER9_OBJECT_MAP_SIZE, SIZEOF_MEAS_RESULT])
      (by simp [SIZEOF_BTDATA, BT_ADD_MAIN_BUFF_CHUNK,
        LIGHTRANGER9_OBJECT_MAP_SIZE, SIZEOF_MEAS_RESULT]) (by simp)
  rw [send_loop_succ, p0]
  dsimp only
  rw [send_loop_succ, p1]
  dsimp only
  rw [send_loop_succ, p2]
  dsimp only
  rw [send_loop_zero]

/-! ## Receiver steps on the fragments of a record -/

theorem size_btdata : SIZEOF_BTDATA = 531 := by
  simp [SIZEOF_BTDATA, LIGHTRANGER9_OBJECT_MAP_SIZE, SIZEOF_MEAS_RESULT]

/-- Copying the chunk of fragment `k + 1` puts the bytes of the record's chunk `k` in
place and leaves every other byte of the buffer alone. -/
theorem copy_chunk_fragment (id : Nat × Nat) (R buffer : List Nat) (k : Nat)
    (hR : R.length = 531) (hb : buffer.length = 531) (hk : k < 3) :
    ∃ b, copy_chunk buffer ⟨id.1, id.2, k + 1, 3⟩ (fragment id 3 R k) = some b ∧
      b.length = 531 ∧ ∀ i, b[i]? = if i / 206 = k then R[i]? else buffer[i]? := by
  have hdrop : (fragment id 3 R k).data.drop SIZEOF_HEADER =
      (R.drop (k * 206)).take 206 := rfl
  have hlen : (fragment id 3 R k).data_len = 4 + ((R.drop (k * 206)).take 206).length := by
    simp only [bt_data.data_len, fragment, BT_ADD_MAIN_BUFF_CHUNK, List.length_append,
      List.length_cons, List.length_nil]
  have hL : ((R.drop (k * 206)).take 206).length = min 206 (531 - k * 206) := by
    simp only [List.length_take, List.length_drop, hR]
  have hcond : ¬ ((k + 1 = 0) ∨ (fragment id 3 R k).data_len < SIZEOF_HEADER) := by
    rw [hlen]; simp only [SIZEOF_HEADER]; omega
  have hcopy : copy_chunk buffer ⟨id.1, id.2, k + 1, 3⟩ (fragment id 3 R k) =
      memcpy buffer (k * 206) ((R.drop (k * 206)).take 206)
        ((R.drop (k * 206)).take 206).length := by
    unfold copy_chunk
    rw [if_neg hcond, hdrop, hlen]
    simp only [BT_ADD_MAIN_BUFF_CHUNK, SIZEOF_HEADER, Nat.add_sub_cancel, Nat.add_sub_cancel_left]
  have hsome := @memcpy_some buffer ((R.drop (k * 206)).take 206) (k * 206)
    ((R.drop (k * 206)).take 206).length (by rw [hL, hb]; omega) (Nat.le_refl _)
  refine ⟨_, hcopy.trans hsome, ?_, ?_⟩
  · rw [memcpy_length hsome, hb]
  · intro i
    rw [memcpy_getElem? hsome i, hL]
    by_cases h1 : i < k * 206
    · rw [if_pos h1, if_neg (by omega)]
    · rw [if_neg h1]
      by_cases h2 : i < k * 206 + min 206 (531 - k * 206)
      · rw [if_pos h2, if_pos (by omega), List.getElem?_take_of_lt (by omega),
          List.getElem?_drop]
        congr 1
        omega
      · rw [if_neg h2]
        by_cases h3 : i / 206 = k
        · rw [if_pos h3, List.getElem?_eq_none (by omega), List.getElem?_eq_none (by omega)]
        · rw [if_neg h3]

theorem read_header_fragment (id : Nat × Nat) (parts : Nat) (R : List Nat) (k : Nat) :
    read_header (fragment id parts R k).data = some ⟨id.1, id.2, k + 1, parts⟩ := rfl

theorem adv_data_found_new (st : RxState) (id : Nat × Nat) (R b : List Nat) (k : Nat)
    (hc : copy_chunk (List.replicate SIZEOF_BTDATA 0) ⟨id.1, id.2, k + 1, 3⟩
      (fragment id 3 R k) = some b)
    (hid : (st.prev_header.id0, st.prev_header.id1) ≠ (id.1, id.2)) :
    adv_data_found st (fragment id 3 R k) =
      some { st with header := ⟨id.1, id.2, k + 1, 3⟩, prev_header := ⟨id.1, id.2, k + 1, 3⟩,
                     buffer := b, cnt := 1 } := by
  unfold adv_data_found
  rw [if_pos (show (fragment id 3 R k).type = BT_DATA_MANUFACTURER_DATA from rfl),
    read_header_fragment]
  dsimp only
  rw [if_pos hid, hc]

theorem adv_data_found_accept (st : RxState) (id : Nat × Nat) (R b : List Nat) (k : Nat)
    (hc : copy_chunk st.buffer ⟨id.1, id.2, k + 1, 3⟩ (fragment id 3 R k) = some b)
    (hl : b.length = 531) (hm : st.gMeasurement.length = 531)
    (hid : (st.prev_header.id0, st.prev_header.id1) = (id.1, id.2))
    (hp : st.prev_header.part_no ≠ k + 1) :
    adv_data_found st (fragment id 3 R k) =
      some (if (st.cnt + 1) % 256 = 3 then
          { header := zero_header, prev_header := zero_header, buffer := b, cnt := 0,
            gMeasurement := b, gMeasReceived := true }
        else
          { st with header := ⟨id.1, id.2, k + 1, 3⟩,
                    prev_header := ⟨id.1, id.2, k + 1, 3⟩,
                    buffer := b, cnt := (st.cnt + 1) % 256 }) := by
  have hmc : memcpy st.gMeasurement 0 b SIZEOF_BTDATA = some b := by
    rw [memcpy_some (by rw [hm, size_btdata]) (by rw [hl, size_btdata])]
    rw [size_btdata, List.take_zero, List.nil_append, List.take_of_length_le (by omega),
      List.drop_of_length_le (by omega), List.append_nil]
  unfold adv_data_found
  rw [if_pos (show (fragment id 3 R k).type = BT_DATA_MANUFACTURER_DATA from rfl),
    read_header_fragment]
  dsimp only
  rw [if_neg (by rw [hid]; simp), if_pos (fun h => hp h.symm), hc]
  dsimp only
  by_cases h3 : (st.cnt + 1) % 256 = 3
  · rw [if_pos h3, if_pos h3, hmc]
  · rw [if_neg h3, if_neg h3]

/-- A fragment with the remembered session id and part number changes nothing but
`header`, and signals nothing. -/
theorem rx_dup (st : RxState) (id : Nat × Nat) (R : List Nat) (k : Nat)
    (hid : (st.prev_header.id0, st.prev_header.id1) = (id.1, id.2))
    (hp : st.prev_header.part_no = k + 1) :
    adv_data_found st (fragment id 3 R k) =
        some { st with header := ⟨id.1, id.2, k + 1, 3⟩ } ∧
      ready_event st (fragment id 3 R k) = none := by
  have key : ∀ s : RxState, (s.prev_header.id0, s.prev_header.id1) = (id.1, id.2) →
      s.prev_header.part_no = k + 1 →
      adv_data_found s (fragment id 3 R k) = some { s with header := ⟨id.1, id.2, k + 1, 3⟩ } := by
    intro s hid hp
    unfold adv_data_found
    rw [if_pos (show (fragment id 3 R k).type = BT_DATA_MANUFACTURER_DATA from rfl),
      read_header_fragment]
    dsimp only
    rw [if_neg (by rw [hid]; simp), if_neg (by rw [hp]; simp)]
  refine ⟨key st hid hp, ?_⟩
  unfold ready_event
  rw [key { st with gMeasReceived := false } hid hp]
  rfl

/-- A fragment arriving while another session id is remembered starts a new record and
signals nothing. -/
theorem rx_new (st : RxState) (id : Nat × Nat) (R : List Nat) (k : Nat)
    (hR : R.length = 531) (hk : k < 3)
    (hid : (st.prev_header.id0, st.prev_header.id1) ≠ (id.1, id.2)) :
    ∃ b, b.length = 531 ∧ (∀ i, i / 206 = k → b[i]? = R[i]?) ∧
      adv_data_found st (fragment id 3 R k) =
        some { st with header := ⟨id.1, id.2, k + 1, 3⟩, prev_header := ⟨id.1, id.2, k + 1, 3⟩,
                       buffer := b, cnt := 1 } ∧
      ready_event st (fragment id 3 R k) = none := by
  obtain ⟨b, hc, hl, hg⟩ := copy_chunk_fragment id R (List.replicate SIZEOF_BTDATA 0) k hR
    (by rw [List.length_replicate, size_btdata]) hk
  refine ⟨b, hl, fun i hi => by rw [hg i, if_pos hi], adv_data_found_new st id R b k hc hid, ?_⟩
  unfold ready_event
  rw [adv_data_found_new { st with gMeasReceived := false } id R b k hc hid]
  rfl

/-- A fragment of the remembered session with another part number than the last one is
copied and counted; reaching `parts_total` completes the record, signals record-ready
and resets the receiver. -/
theorem rx_accept (st : RxState) (id : Nat × Nat) (R : List Nat) (k : Nat)
    (hR : R.length = 531) (hk : k < 3) (hb : st.buffer.length = 531)
    (hm : st.gMeasurement.length = 531)
    (hid : (st.prev_header.id0, st.prev_header.id1) = (id.1, id.2))
    (hp : st.prev_header.part_no ≠ k + 1) :
    ∃ b, b.length = 531 ∧ (∀ i, b[i]? = if i / 206 = k then R[i]? else st.buffer[i]?) ∧
      adv_data_found st (fragment id 3 R k) =
        some (if (st.cnt + 1) % 256 = 3 then
            { header := zero_header, prev_header := zero_header, buffer := b, cnt := 0,
              gMeasurement := b, gMeasReceived := true }
          else
            { st with header := ⟨id.1, id.2, k + 1, 3⟩,
                      prev_header := ⟨id.1, id.2, k + 1, 3⟩,
                      buffer := b, cnt := (st.cnt + 1) % 256 }) ∧
      ready_event st (fragment id 3 R k) =
        (if (st.cnt + 1) % 256 = 3 then some b else none) := by
  obtain ⟨b, hc, hl, hg⟩ := copy_chunk_fragment id R st.buffer k hR hb hk
  refine ⟨b, hl, hg, adv_data_found_accept st id R b k hc hl hm hid hp, ?_⟩
  unfold ready_event
  rw [adv_data_found_accept { st with gMeasReceived := false } id R b k hc hl hm hid hp]
  dsimp only
  by_cases h3 : (st.cnt + 1) % 256 = 3
  · rw [if_pos h3, if_pos h3]; rfl
  · rw [if_neg h3, if_neg h3]; rfl

/-- The first fragment a receiver sees after start-up or after a completed record, and
whatever its session id, starts a record: it is copied, counted as the first part and
remembered, and nothing is signalled. -/
theorem rx_first (st : RxState) (id : Nat × Nat) (R : List Nat) (k : Nat)
    (hR : R.length = 531) (hk : k < 3) (hb : st.buffer.length = 531)
    (hm : st.gMeasurement.length = 531)
    (hprev : st.prev_header = zero_header) (hcnt : st.cnt = 0) :
    ∃ b, b.length = 531 ∧ (∀ i, i / 206 = k → b[i]? = R[i]?) ∧
      adv_data_found st (fragment id 3 R k) =
        some { st with header := ⟨id.1, id.2, k + 1, 3⟩, prev_header := ⟨id.1, id.2, k + 1, 3⟩,
                       buffer := b, cnt := 1 } ∧
      ready_event st (fragment id 3 R k) = none := by
  by_cases hid : (st.prev_header.id0, st.prev_header.id1) = (id.1, id.2)
  · obtain ⟨b, hl, hg, hs, he⟩ := rx_accept st id R k hR hk hb hm hid
      (by rw [hprev]; simp [zero_header])
    have h3 : ¬ ((st.cnt + 1) % 256 = 3) := by rw [hcnt]; decide
    rw [if_neg h3] at hs he
    refine ⟨b, hl, fun i hi => by rw [hg i, if_pos hi], ?_, he⟩
    rw [hs, hcnt]
  · exact rx_new st id R k hR hk hid

/-! ## Runs of the receiver -/

theorem rx_run_cons (st st1 st2 : RxState) (d : bt_data) (ds : List bt_data)
    (evs : List (Option (List Nat))) (h1 : adv_data_found st d = some st1)
    (h2 : rx_run st1 ds = some (st2, evs)) :
    rx_run st (d :: ds) = some (st2, ready_event st d :: evs) := by
  simp only [rx_run, h1, h2]

theorem rx_run_append (xs ys : List bt_data) :
    ∀ (st st1 st2 : RxState) (e1 e2 : List (Option (List Nat))),
      rx_run st xs = some (st1, e1) → rx_run st1 ys = some (st2, e2) →
      rx_run st (xs ++ ys) = some (st2, e1 ++ e2) := by
  induction xs with
  | nil =>
    intro st st1 st2 e1 e2 h1 h2
    simp only [rx_run, Option.some.injEq, Prod.mk.injEq] at h1
    obtain ⟨rfl, rfl⟩ := h1
    simpa using h2
  | cons d ds ih =>
    intro st st1 st2 e1 e2 h1 h2
    cases ha : adv_data_found st d with
    | none => simp [rx_run, ha] at h1
    | some sa =>
      cases hr : rx_run sa ds with
      | none => simp [rx_run, ha, hr] at h1
      | some p =>
        obtain ⟨sb, eb⟩ := p
        simp only [rx_run, ha, hr, Option.some.injEq, Prod.mk.injEq] at h1
        obtain ⟨rfl, rfl⟩ := h1
        have := ih sa sb st2 eb e2 hr h2
        rw [List.cons_append, rx_run_cons st sa st2 d (ds ++ ys) (eb ++ e2) ha this]
        rfl

/-- Repeats of an element that leaves the state as it is and signals nothing. -/
theorem rx_run_repeat (st : RxState) (d : bt_data) (h : adv_data_found st d = some st)
    (he : ready_event st d = none) (n : Nat) :
    rx_run st (List.replicate n d) = some (st, List.replicate n none) := by
  induction n with
  | zero => rfl
  | succ n ih =>
    rw [List.replicate_succ, rx_run_cons st st st d _ _ h ih, he]
    rfl

theorem fragment_inj (id : Nat × Nat) (R : List Nat) (j k : Nat)
    (h : fragment id 3 R j = fragment id 3 R k) : j = k := by
  have h1 := congrArg (fun d => read_header d.data) h
  simp only [read_header_fragment, Option.some.injEq, bt_data_header_t.mk.injEq] at h1
  omega

/-- A buffer that holds the three chunks of a record is the record. -/
theorem buffer_complete (R b1 b2 b3 : List Nat) (k1 k2 k3 : Nat) (hR : R.length = 531)
    (h12 : k1 ≠ k2) (h13 : k1 ≠ k3) (h23 : k2 ≠ k3)
    (hk1 : k1 < 3) (hk2 : k2 < 3) (hk3 : k3 < 3) (l1 : b1.length = 531)
    (g1 : ∀ i, i / 206 = k1 → b1[i]? = R[i]?)
    (g2 : ∀ i, b2[i]? = if i / 206 = k2 then R[i]? else b1[i]?)
    (g3 : ∀ i, b3[i]? = if i / 206 = k3 then R[i]? else b2[i]?) : b3 = R := by
  apply List.ext_getElem?
  intro i
  rw [g3 i]
  by_cases c3 : i / 206 = k3
  · rw [if_pos c3]
  · rw [if_neg c3, g2 i]
    by_cases c2 : i / 206 = k2
    · rw [if_pos c2]
    · rw [if_neg c2]
      by_cases c1 : i / 206 = k1
      · exact g1 i c1
      · rw [List.getElem?_eq_none (by omega), List.getElem?_eq_none (by omega)]

/-- One record session: from a receiver that remembers nothing, the three fragments of
a record in any order, the first two possibly re-broadcast, complete the record on the
third one and on nothing earlier. -/
theorem rx_session (st : RxState) (id : Nat × Nat) (R : List Nat) (k1 k2 k3 a b : Nat)
    (hR : R.length = 531) (h12 : k1 ≠ k2) (h13 : k1 ≠ k3) (h23 : k2 ≠ k3)
    (hk1 : k1 < 3) (hk2 : k2 < 3) (hk3 : k3 < 3)
    (hb : st.buffer.length = 531) (hm : st.gMeasurement.length = 531)
    (hprev : st.prev_header = zero_header) (hcnt : st.cnt = 0) :
    rx_run st ((fragment id 3 R k1 :: List.replicate a (fragment id 3 R k1)) ++
        ((fragment id 3 R k2 :: List.replicate b (fragment id 3 R k2)) ++
          [fragment id 3 R k3])) =
      some ({ header := zero_header, prev_header := zero_header, buffer := R, cnt := 0,
              gMeasurement := R, gMeasReceived := true },
            (none :: List.replicate a none) ++ ((none :: List.replicate b none) ++ [some R])) := by
  obtain ⟨b1, l1, g1, s1, e1⟩ := rx_first st id R k1 hR hk1 hb hm hprev hcnt
  obtain ⟨d1, de1⟩ := rx_dup (⟨⟨id.1, id.2, k1 + 1, 3⟩, ⟨id.1, id.2, k1 + 1, 3⟩, b1, 1,
    st.gMeasurement, st.gMeasReceived⟩ : RxState) id R k1 rfl rfl
  obtain ⟨b2, l2, g2, s2, e2⟩ := rx_accept (⟨⟨id.1, id.2, k1 + 1, 3⟩, ⟨id.1, id.2, k1 + 1, 3⟩, b1, 1,
    st.gMeasurement, st.gMeasReceived⟩ : RxState) id R k2 hR hk2 l1 hm rfl
    (by show k1 + 1 ≠ k2 + 1; omega)
  have n2 : ¬ ((1 + 1) % 256 = 3) := by decide
  dsimp only at s2 e2 g2
  rw [if_neg n2] at s2 e2
  obtain ⟨d2, de2⟩ := rx_dup (⟨⟨id.1, id.2, k2 + 1, 3⟩, ⟨id.1, id.2, k2 + 1, 3⟩, b2, (1 + 1) % 256,
    st.gMeasurement, st.gMeasReceived⟩ : RxState) id R k2 rfl rfl
  obtain ⟨b3, l3, g3, s3, e3⟩ := rx_accept (⟨⟨id.1, id.2, k2 + 1, 3⟩, ⟨id.1, id.2, k2 + 1, 3⟩, b2, (1 + 1) % 256,
    st.gMeasurement, st.gMeasReceived⟩ : RxState) id R k3 hR hk3
    l2 hm rfl (by show k2 + 1 ≠ k3 + 1; omega)
  have y3 : ((1 + 1) % 256 + 1) % 256 = 3 := by decide
  dsimp only at s3 e3 g3
  rw [if_pos y3] at s3 e3
  have hb3 : b3 = R := buffer_complete R b1 b2 b3 k1 k2 k3 hR h12 h13 h23 hk1 hk2 hk3 l1 g1 g2 g3
  subst hb3
  have r3 := rx_run_cons _ _ _ (fragment id 3 b3 k3) [] [] s3 rfl
  rw [e3] at r3
  have r2 := rx_run_cons _ _ _ (fragment id 3 b3 k2) _ _ s2
    (rx_run_append _ _ _ _ _ _ _ (rx_run_repeat _ _ d2 de2 b) r3)
  rw [e2] at r2
  have r1 := rx_run_cons _ _ _ (fragment id 3 b3 k1) _ _ s1
    (rx_run_append _ _ _ _ _ _ _ (rx_run_repeat _ _ d1 de1 a) r2)
  rw [e1] at r1
  exact r1

/-- Repeats of one fragment reaching a receiver that remembers nothing signal nothing
and leave the completed record alone. -/
theorem rx_after (st : RxState) (id : Nat × Nat) (R : List Nat) (k c : Nat)
    (hR : R.length = 531) (hk : k < 3)
    (hb : st.buffer.length = 531) (hm : st.gMeasurement.length = 531)
    (hprev : st.prev_header = zero_header) (hcnt : st.cnt = 0) :
    ∃ st1, rx_run st (List.replicate c (fragment id 3 R k)) =
        some (st1, List.replicate c none) ∧ st1.gMeasurement = st.gMeasurement := by
  cases c with
  | zero => exact ⟨st, rfl, rfl⟩
  | succ c =>
    obtain ⟨b1, l1, g1, s1, e1⟩ := rx_first st id R k hR hk hb hm hprev hcnt
    obtain ⟨d1, de1⟩ := rx_dup (⟨⟨id.1, id.2, k + 1, 3⟩, ⟨id.1, id.2, k + 1, 3⟩, b1, 1,
    st.gMeasurement, st.gMeasReceived⟩ : RxState) id R k rfl rfl
    have r1 := rx_run_cons _ _ _ (fragment id 3 R k) _ _ s1 (rx_run_repeat _ _ d1 de1 c)
    rw [e1] at r1
    exact ⟨_, r1, rfl⟩

theorem reduceOption_replicate_none (n : Nat) :
    (List.replicate n (none : Option (List Nat))).reduceOption = [] := by
  induction n with
  | zero => rfl
  | succ n ih => rw [List.replicate_succ, List.reduceOption_cons_of_none, ih]

theorem rx_init_clean :
    rx_init.buffer.length = 531 ∧ rx_init.gMeasurement.length = 531 ∧
      rx_init.prev_header = zero_header ∧ rx_init.cnt = 0 := by
  refine ⟨?_, ?_, rfl, rfl⟩
  · show (List.replicate SIZEOF_BTDATA 0).length = 531
    rw [List.length_replicate, size_btdata]
  · show (List.replicate SIZEOF_BTDATA 0).length = 531
    rw [List.length_replicate, size_btdata]

/-! ## Transport of a record -/

/-- C1: the fragments `bt_broadcaster_send_message` emits for a record, delivered once
each in emission order to a freshly initialised receiver, make it signal record-ready
(on the last fragment) with a completed record equal to the record sent. -/
theorem round_trip (sd : bt_data → Int) (id : Nat × Nat) (R : List Nat)
    (hR : R.length = SIZEOF_BTDATA) :
    ∃ ret ads st,
      bt_broadcaster_send_message true sd id (some R) R.length = some (ret, ads) ∧
      rx_run rx_init ads = some (st, [none, none, some R]) ∧
      st.gMeasReceived = true ∧ st.gMeasurement = R := by
  have h531 : R.length = 531 := by rw [hR, size_btdata]
  obtain ⟨cb, cm, cp, cc⟩ := rx_init_clean
  refine ⟨_, _, ⟨zero_header, zero_header, R, 0, R, true⟩,
    send_message_record sd id R hR, ?_, rfl, rfl⟩
  exact rx_session rx_init id R 0 1 2 0 0 h531 (by decide) (by decide) (by decide)
    (by decide) (by decide) (by decide) cb cm cp cc

/-- Witness of C1 at the all-zero record and session id (1, 2). -/
theorem round_trip_witness :
    ∃ ret ads st,
      bt_broadcaster_send_message true (fun _ => 0) (1, 2)
        (some (List.replicate SIZEOF_BTDATA 0)) (List.replicate SIZEOF_BTDATA 0).length =
          some (ret, ads) ∧
      rx_run rx_init ads = some (st, [none, none, some (List.replicate SIZEOF_BTDATA 0)]) ∧
      st.gMeasReceived = true ∧ st.gMeasurement = List.replicate SIZEOF_BTDATA 0 :=
  round_trip (fun _ => 0) (1, 2) (List.replicate SIZEOF_BTDATA 0) (List.length_replicate _ _)

/-- C2: when every fragment of a record reaches a freshly initialised receiver a
positive number of times in a row, in part order, record-ready is signalled exactly
once and the record delivered is the record sent. -/
theorem exactly_once_under_rebroadcast (sd : bt_data → Int) (id : Nat × Nat) (R : List Nat)
    (a b c : Nat) (hR : R.length = SIZEOF_BTDATA) (ha : 0 < a) (hb : 0 < b) (hc : 0 < c) :
    ∃ ret ads st evs,
      bt_broadcaster_send_message true sd id (some R) R.length = some (ret, ads) ∧
      rx_run rx_init (rebroadcast ads [a, b, c]) = some (st, evs) ∧
      evs.reduceOption = [R] ∧ st.gMeasurement = R := by
  have h531 : R.length = 531 := by rw [hR, size_btdata]
  obtain ⟨cb, cm, cp, cc⟩ := rx_init_clean
  obtain ⟨a, rfl⟩ : ∃ n, a = n + 1 := ⟨a - 1, by omega⟩
  obtain ⟨b, rfl⟩ : ∃ n, b = n + 1 := ⟨b - 1, by omega⟩
  obtain ⟨c, rfl⟩ : ∃ n, c = n + 1 := ⟨c - 1, by omega⟩
  have hs := rx_session rx_init id R 0 1 2 a b h531 (by decide) (by decide) (by decide)
    (by decide) (by decide) (by decide) cb cm cp cc
  obtain ⟨st1, hr, hg⟩ := rx_after (⟨zero_header, zero_header, R, 0, R, true⟩ : RxState) id R 2 c h531 (by decide)
    h531 h531 rfl rfl
  have hrun := rx_run_append _ _ _ _ _ _ _ hs hr
  refine ⟨_, _, st1,
    ((none :: List.replicate a none) ++ ((none :: List.replicate b none) ++ [some R])) ++
      List.replicate c none,
    send_message_record sd id R hR, ?_, ?_, hg⟩
  · have hseq : rebroadcast [fragment id 3 R 0, fragment id 3 R 1, fragment id 3 R 2]
        [a + 1, b + 1, c + 1] =
        ((fragment id 3 R 0 :: List.replicate a (fragment id 3 R 0)) ++
          ((fragment id 3 R 1 :: List.replicate b (fragment id 3 R 1)) ++
            [fragment id 3 R 2])) ++ List.replicate c (fragment id 3 R 2) := by
      simp only [rebroadcast, List.replicate_succ, List.append_nil, List.cons_append,
        List.append_assoc, List.nil_append]
    rw [hseq]
    exact hrun
  · simp only [List.reduceOption_append, List.reduceOption_cons_of_none,
      reduceOption_replicate_none, List.nil_append, List.append_nil,
      List.reduceOption_cons_of_some, List.reduceOption_nil]

/-- Witness of C2: the all-zero record, each fragment seen twice. -/
theorem exactly_once_under_rebroadcast_witness :
    ∃ ret ads st evs,
      bt_broadcaster_send_message true (fun _ => 0) (1, 2)
        (some (List.replicate SIZEOF_BTDATA 0)) (List.replicate SIZEOF_BTDATA 0).length =
          some (ret, ads) ∧
      rx_run rx_init (rebroadcast ads [2, 2, 2]) = some (st, evs) ∧
      evs.reduceOption = [List.replicate SIZEOF_BTDATA 0] ∧
      st.gMeasurement = List.replicate SIZEOF_BTDATA 0 :=
  exactly_once_under_rebroadcast (fun _ => 0) (1, 2) (List.replicate SIZEOF_BTDATA 0) 2 2 2
    (List.length_replicate _ _) (by decide) (by decide) (by decide)

/-- C3: the fragments emitted for a record, delivered once each to a freshly initialised
receiver in any order, signal record-ready exactly when the last of them is processed,
and the completed record is the record sent. -/
theorem arrival_order_irrelevant (sd : bt_data → Int) (id : Nat × Nat) (R : List Nat)
    (hR : R.length = SIZEOF_BTDATA) :
    ∃ ret ads,
      bt_broadcaster_send_message true sd id (some R) R.length = some (ret, ads) ∧
      ∀ ds, List.Perm ds ads →
        ∃ st, rx_run rx_init ds = some (st, [none, none, some R]) ∧
          st.gMeasReceived = true ∧ st.gMeasurement = R := by
  have h531 : R.length = 531 := by rw [hR, size_btdata]
  obtain ⟨cb, cm, cp, cc⟩ := rx_init_clean
  refine ⟨_, _, send_message_record sd id R hR, ?_⟩
  intro ds hperm
  have hmem : ∀ x, x ∈ ds → ∃ k, k < 3 ∧ x = fragment id 3 R k := by
    intro x hx
    have := (hperm.mem_iff).1 hx
    simp only [List.mem_cons, List.mem_singleton, List.not_mem_nil, or_false] at this
    rcases this with h | h | h
    · exact ⟨0, by decide, h⟩
    · exact ⟨1, by decide, h⟩
    · exact ⟨2, by decide, h⟩
  have hnd : ds.Nodup := by
    rw [hperm.nodup_iff]
    simp only [List.nodup_cons, List.mem_cons, List.mem_singleton, List.not_mem_nil,
      not_false_eq_true, List.nodup_nil, and_true, not_or, or_false]
    refine ⟨⟨?_, ?_⟩, ?_⟩
    · intro h; exact absurd (fragment_inj id R _ _ h) (by decide)
    · intro h; exact absurd (fragment_inj id R _ _ h) (by decide)
    · intro h; exact absurd (fragment_inj id R _ _ h) (by decide)
  obtain ⟨x, y, z, rfl⟩ := List.length_eq_three.1 (hperm.length_eq)
  obtain ⟨k1, hk1, rfl⟩ := hmem x (by simp)
  obtain ⟨k2, hk2, rfl⟩ := hmem y (by simp)
  obtain ⟨k3, hk3, rfl⟩ := hmem z (by simp)
  simp only [List.nodup_cons, List.mem_cons, List.mem_singleton, List.not_mem_nil,
    not_false_eq_true, List.nodup_nil, and_true, not_or, or_false] at hnd
  obtain ⟨⟨n12, n13⟩, n23⟩ := hnd
  have h12 : k1 ≠ k2 := fun h => n12 (by rw [h])
  have h13 : k1 ≠ k3 := fun h => n13 (by rw [h])
  have h23 : k2 ≠ k3 := fun h => n23 (by rw [h])
  exact ⟨⟨zero_header, zero_header, R, 0, R, true⟩,
    rx_session rx_init id R k1 k2 k3 0 0 h531 h12 h13 h23 hk1 hk2 hk3 cb cm cp cc, rfl, rfl⟩

/-- Witness of C3 at the all-zero record and session id (1, 2). -/
theorem arrival_order_irrelevant_witness :
    ∃ ret ads,
      bt_broadcaster_send_message true (fun _ => 0) (1, 2)
        (some (List.replicate SIZEOF_BTDATA 0)) (List.replicate SIZEOF_BTDATA 0).length =
          some (ret, ads) ∧
      ∀ ds, List.Perm ds ads →
        ∃ st, rx_run rx_init ds = some (st, [none, none, some (List.replicate SIZEOF_BTDATA 0)]) ∧
          st.gMeasReceived = true ∧ st.gMeasurement = List.replicate SIZEOF_BTDATA 0 :=
  arrival_order_irrelevant (fun _ => 0) (1, 2) (List.replicate SIZEOF_BTDATA 0)
    (List.length_replicate _ _)

/-! ## Completion and the count of copied parts -/

/-- One callback step keeps the counter equal to the number of parts copied in the
session (modulo 256); a step that signals record-ready does so on a count equal to the
`parts_total` of the element processed, and leaves the counter at zero. -/
theorem step_count (st st1 : RxState) (seen : List Nat) (d : bt_data)
    (hinv : st.cnt = seen.length % 256) (h : adv_data_found st d = some st1) :
    (ready_event st d = none → st1.cnt = (track st seen d).length % 256) ∧
    (∀ r, ready_event st d = some r →
      st1.cnt = 0 ∧ ∀ header, read_header d.data = some header →
        (track st seen d).length % 256 = header.parts_total) := by
  unfold ready_event
  unfold adv_data_found at h ⊢
  unfold track
  by_cases ht : d.type = BT_DATA_MANUFACTURER_DATA
  · simp only [if_pos ht] at h ⊢
    cases hh : read_header d.data with
    | none => simp [hh] at h
    | some header =>
      simp only [hh] at h ⊢
      by_cases hid : (st.prev_header.id0, st.prev_header.id1) ≠ (header.id0, header.id1)
      · simp only [if_pos hid] at h ⊢
        cases hc : copy_chunk (List.replicate SIZEOF_BTDATA 0) header d with
        | none => simp [hc] at h
        | some b =>
          simp only [hc, Option.some.injEq] at h ⊢
          subst h
          simp
      · simp only [if_neg hid] at h ⊢
        by_cases hp : header.part_no ≠ st.prev_header.part_no
        · simp only [if_pos hp] at h ⊢
          cases hc : copy_chunk st.buffer header d with
          | none => simp [hc] at h
          | some b =>
            simp only [hc] at h ⊢
            by_cases hcnt : (st.cnt + 1) % 256 = header.parts_total
            · simp only [if_pos hcnt] at h ⊢
              cases hm : memcpy st.gMeasurement 0 b SIZEOF_BTDATA with
              | none => simp [hm] at h
              | some m =>
                simp only [hm, Option.some.injEq] at h ⊢
                subst h
                simp only [List.length_cons]
                refine ⟨by simp, fun r _ => ⟨trivial, fun header1 e => ?_⟩⟩
                cases e
                rw [← hcnt, hinv]
                omega
            · simp only [if_neg hcnt, Option.some.injEq] at h ⊢
              subst h
              simp only [List.length_cons]
              refine ⟨fun _ => ?_, by simp⟩
              show (st.cnt + 1) % 256 = _
              rw [hinv]
              omega
        · simp only [if_neg hp, Option.some.injEq] at h ⊢
          subst h
          exact ⟨fun _ => hinv, by simp⟩
  · simp only [if_neg ht, Option.some.injEq] at h ⊢
    subst h
    exact ⟨fun _ => hinv, by simp⟩

/-- The counter equals the number of parts copied in the session along every run. -/
theorem rx_track_count (ds : List bt_data) :
    ∀ (st st1 : RxState) (seen seen1 : List Nat), st.cnt = seen.length % 256 →
      rx_track st seen ds = some (st1, seen1) → st1.cnt = seen1.length % 256 := by
  induction ds with
  | nil =>
    intro st st1 seen seen1 hinv h
    simp only [rx_track, Option.some.injEq, Prod.mk.injEq] at h
    obtain ⟨rfl, rfl⟩ := h
    exact hinv
  | cons d ds ih =>
    intro st st1 seen seen1 hinv h
    cases ha : adv_data_found st d with
    | none => simp [rx_track, ha] at h
    | some sa =>
      simp only [rx_track, ha] at h
      have hs := step_count st sa seen d hinv ha
      cases he : ready_event st d with
      | none =>
        simp only [he, Option.isSome_none, Bool.false_eq_true, if_false] at h
        exact ih sa st1 _ seen1 (hs.1 he) h
      | some r =>
        simp only [he, Option.isSome_some, if_true] at h
        exact ih sa st1 _ seen1 (by rw [(hs.2 r he).1]; rfl) h

/-- Pairwise distinct part numbers within `1..t`, `t` of them modulo 256, are all of
`1..t`. -/
theorem parts_cover (seen : List Nat) (t : Nat) (hlen : seen.length % 256 = t)
    (hnd : seen.Nodup) (hr : ∀ p ∈ seen, 1 ≤ p ∧ p ≤ t) :
    ∀ p, 1 ≤ p → p ≤ t → p ∈ seen := by
  have hsub : seen.toFinset ⊆ Finset.Icc 1 t := by
    intro p hp
    rw [List.mem_toFinset] at hp
    rw [Finset.mem_Icc]
    exact hr p hp
  have hcard : seen.toFinset.card = seen.length := List.toFinset_card_of_nodup hnd
  have hle : seen.length ≤ t := by
    have := Finset.card_le_card hsub
    rw [hcard, Nat.card_Icc] at this
    omega
  have heq : seen.toFinset = Finset.Icc 1 t := by
    apply Finset.eq_of_subset_of_card_le hsub
    rw [hcard, Nat.card_Icc]
    omega
  intro p h1 h2
  have : p ∈ Finset.Icc 1 t := Finset.mem_Icc.2 ⟨h1, h2⟩
  rw [← heq, List.mem_toFinset] at this
  exact this

theorem ready_count (st : RxState) (seen : List Nat) (d : bt_data) (header : bt_data_header_t)
    (r : List Nat) (hinv : st.cnt = seen.length % 256)
    (hh : read_header d.data = some header) (hev : ready_event st d = some r) :
    (track st seen d).length % 256 = header.parts_total := by
  cases ha : adv_data_found { st with gMeasReceived := false } d with
  | none =>
    unfold ready_event at hev
    rw [ha] at hev
    cases hev
  | some s1 =>
    exact ((step_count { st with gMeasReceived := false } s1 seen d hinv ha).2 r hev).2 header hh

/-- Parts 1, 2, 1 of a three-part record complete a record although part 3 never
arrived. -/
theorem premature_run (R : List Nat) (hR : R.length = 531) :
    ∃ st seen r,
      rx_track rx_init [] [fragment (1, 2) 3 R 0, fragment (1, 2) 3 R 1] = some (st, seen) ∧
      ready_event st (fragment (1, 2) 3 R 0) = some r ∧
      track st seen (fragment (1, 2) 3 R 0) = [1, 2, 1] := by
  obtain ⟨cb, cm, cp, cc⟩ := rx_init_clean
  obtain ⟨b1, l1, g1, s1, e1⟩ := rx_new rx_init (1, 2) R 0 hR (by decide)
    (by rw [cp]; decide)
  obtain ⟨b2, l2, g2, s2, e2⟩ := rx_accept (⟨⟨1, 2, 0 + 1, 3⟩, ⟨1, 2, 0 + 1, 3⟩, b1, 1,
    rx_init.gMeasurement, rx_init.gMeasReceived⟩ : RxState) (1, 2) R 1 hR (by decide) l1 cm rfl
    (by show (0 + 1 : Nat) ≠ 1 + 1; decide)
  have n2 : ¬ ((1 + 1) % 256 = 3) := by decide
  dsimp only at s2 e2 g2
  rw [if_neg n2] at s2 e2
  obtain ⟨b3, l3, g3, s3, e3⟩ := rx_accept (⟨⟨1, 2, 1 + 1, 3⟩, ⟨1, 2, 1 + 1, 3⟩, b2,
    (1 + 1) % 256, rx_init.gMeasurement, rx_init.gMeasReceived⟩ : RxState) (1, 2) R 0 hR
    (by decide) l2 cm rfl (by show (1 + 1 : Nat) ≠ 0 + 1; decide)
  have y3 : ((1 + 1) % 256 + 1) % 256 = 3 := by decide
  dsimp only at s3 e3 g3
  rw [if_pos y3] at e3
  refine ⟨⟨⟨1, 2, 1 + 1, 3⟩, ⟨1, 2, 1 + 1, 3⟩, b2, (1 + 1) % 256, rx_init.gMeasurement,
    rx_init.gMeasReceived⟩, [2, 1], b3, ?_, e3, ?_⟩
  · have t1 : track rx_init [] (fragment (1, 2) 3 R 0) = [1] := by
      simp [track, fragment, read_header, rx_init, zero_header]
    have t2 : track (⟨⟨1, 2, 0 + 1, 3⟩, ⟨1, 2, 0 + 1, 3⟩, b1, 1,
        rx_init.gMeasurement, rx_init.gMeasReceived⟩ : RxState) [1]
        (fragment (1, 2) 3 R 1) = [2, 1] := by
      simp [track, fragment, read_header]
    simp only [rx_track, s1, s2, e1, e2, Option.isSome_none, Bool.false_eq_true, if_false, t1, t2]
  · simp [track, fragment, read_header]

/-- C4 as stated fails: with the all-zero record and session id (1, 2), the fragments
with part numbers 1, 2, 1 make the receiver signal record-ready on the third one,
although part number 3 of the 3 parts was never processed. -/
theorem premature_completion :
    ∃ st seen r,
      rx_track rx_init []
        [fragment (1, 2) 3 (List.replicate SIZEOF_BTDATA 0) 0,
         fragment (1, 2) 3 (List.replicate SIZEOF_BTDATA 0) 1] = some (st, seen) ∧
      ready_event st (fragment (1, 2) 3 (List.replicate SIZEOF_BTDATA 0) 0) = some r ∧
      3 ∉ track st seen (fragment (1, 2) 3 (List.replicate SIZEOF_BTDATA 0) 0) := by
  obtain ⟨st, seen, r, h1, h2, h3⟩ := premature_run (List.replicate SIZEOF_BTDATA 0)
    (by rw [List.length_replicate, size_btdata])
  exact ⟨st, seen, r, h1, h2, by rw [h3]; decide⟩

/-- C4, amended: the receiver counts the parts it copies in the `uint8_t cnt`, and it
skips a part only when the part number equals that of the element processed just
before.  After any sequence of elements fed to a freshly initialised receiver,
record-ready is signalled on the next element only if the number of parts copied since
the session began equals that element's `parts_total` modulo 256, hence equals it when
fewer than 256 parts were copied; if in addition the part numbers copied are pairwise
distinct and lie in `1..parts_total`, every part number of `1..parts_total` has been
processed since the session began. -/
theorem no_premature_completion (ds : List bt_data) (st : RxState) (seen : List Nat)
    (d : bt_data) (header : bt_data_header_t) (r : List Nat)
    (hrun : rx_track rx_init [] ds = some (st, seen))
    (hh : read_header d.data = some header)
    (hev : ready_event st d = some r) :
    (track st seen d).length % 256 = header.parts_total ∧
    ((track st seen d).length < 256 → (track st seen d).length = header.parts_total) ∧
    ((track st seen d).Nodup →
      (∀ p ∈ track st seen d, 1 ≤ p ∧ p ≤ header.parts_total) →
      ∀ p, 1 ≤ p → p ≤ header.parts_total → p ∈ track st seen d) := by
  have hinv : st.cnt = seen.length % 256 := rx_track_count ds rx_init st [] seen rfl hrun
  have hlen := ready_count st seen d header r hinv hh hev
  exact ⟨hlen, fun hlt => by rw [← hlen, Nat.mod_eq_of_lt hlt],
    fun hnd hr => parts_cover _ _ hlen hnd hr⟩

set_option maxRecDepth 100000 in
/-- Witness of C4 (amended): part 1 of a two-part message with session id (1, 2) has been
processed on the freshly initialised receiver, and part 2 completes the record. -/
theorem no_premature_completion_witness :
    (track (⟨⟨1, 2, 1, 2⟩, ⟨1, 2, 1, 2⟩, List.replicate SIZEOF_BTDATA 0, 1,
        List.replicate SIZEOF_BTDATA 0, false⟩ : RxState) [1]
      ⟨BT_DATA_MANUFACTURER_DATA, [1, 2, 2, 2]⟩).length % 256 = 2 ∧
    ((track (⟨⟨1, 2, 1, 2⟩, ⟨1, 2, 1, 2⟩, List.replicate SIZEOF_BTDATA 0, 1,
        List.replicate SIZEOF_BTDATA 0, false⟩ : RxState) [1]
      ⟨BT_DATA_MANUFACTURER_DATA, [1, 2, 2, 2]⟩).length < 256 →
      (track (⟨⟨1, 2, 1, 2⟩, ⟨1, 2, 1, 2⟩, List.replicate SIZEOF_BTDATA 0, 1,
          List.replicate SIZEOF_BTDATA 0, false⟩ : RxState) [1]
        ⟨BT_DATA_MANUFACTURER_DATA, [1, 2, 2, 2]⟩).length = 2) ∧
    ((track (⟨⟨1, 2, 1, 2⟩, ⟨1, 2, 1, 2⟩, List.replicate SIZEOF_BTDATA 0, 1,
        List.replicate SIZEOF_BTDATA 0, false⟩ : RxState) [1]
      ⟨BT_DATA_MANUFACTURER_DATA, [1, 2, 2, 2]⟩).Nodup →
      (∀ p ∈ track (⟨⟨1, 2, 1, 2⟩, ⟨1, 2, 1, 2⟩, List.replicate SIZEOF_BTDATA 0, 1,
          List.replicate SIZEOF_BTDATA 0, false⟩ : RxState) [1]
        ⟨BT_DATA_MANUFACTURER_DATA, [1, 2, 2, 2]⟩, 1 ≤ p ∧ p ≤ 2) →
      ∀ p, 1 ≤ p → p ≤ 2 →
        p ∈ track (⟨⟨1, 2, 1, 2⟩, ⟨1, 2, 1, 2⟩, List.replicate SIZEOF_BTDATA 0, 1,
            List.replicate SIZEOF_BTDATA 0, false⟩ : RxState) [1]
          ⟨BT_DATA_MANUFACTURER_DATA, [1, 2, 2, 2]⟩) :=
  no_premature_completion [⟨BT_DATA_MANUFACTURER_DATA, [1, 2, 1, 2]⟩]
    ⟨⟨1, 2, 1, 2⟩, ⟨1, 2, 1, 2⟩, List.replicate SIZEOF_BTDATA 0, 1,
      List.replicate SIZEOF_BTDATA 0, false⟩ [1]
    ⟨BT_DATA_MANUFACTURER_DATA, [1, 2, 2, 2]⟩ ⟨1, 2, 2, 2⟩
    (List.replicate SIZEOF_BTDATA 0) (by decide) rfl (by decide)

/-! ## Fold counting -/

/-- One call on a well-formed capture: the counter advances modulo 4, the call returns
true exactly from counter value 3, the object maps keep their size, and the scalar
fields are those of the capture after a true return and untouched after a false one. -/
theorem parse_measurement_step (cnt : Nat) (capture : lightranger9_meas_cpt_t)
    (pd : lightranger9_measurement_t) (hcnt : cnt < 4)
    (hs : capture.sub_capture < 4) (hr : capture.result.length = 36)
    (h1 : pd.obj1.length = 64) (h2 : pd.obj2.length = 64) :
    ∃ pd1, lightranger9_parse_measurement cnt capture pd =
        some ((cnt + 1) % 4, pd1, decide (cnt = 3)) ∧
      pd1.obj1.length = 64 ∧ pd1.obj2.length = 64 ∧
      (cnt = 3 → record_scalars pd1 = capture_scalars capture) ∧
      (cnt ≠ 3 → record_scalars pd1 = record_scalars pd) := by
  obtain ⟨pd1, hf, l1, l2, hsc, _, _, _, _⟩ := fold_upto_spec capture pd hs hr h1 h2 36 (by omega)
  have hscal : record_scalars pd1 = record_scalars pd := by
    have := congrArg record_scalars hsc
    simpa [record_scalars] using this
  unfold lightranger9_parse_measurement
  simp only [LIGHTRANGER9_MAX_MEAS_RESULTS, hf, LIGHTRANGER9_SUBCAPTURE_3]
  by_cases h3 : cnt < 3
  · rw [if_pos h3]
    have e1 : (cnt + 1) % 256 = (cnt + 1) % 4 := by omega
    have e2 : decide (cnt = 3) = false := by simp; omega
    rw [e1, e2]
    exact ⟨pd1, rfl, l1, l2, fun h => by omega, fun _ => hscal⟩
  · rw [if_neg h3]
    have hc : cnt = 3 := by omega
    subst hc
    exact ⟨_, rfl, l1, l2, fun _ => rfl, fun h => absurd rfl h⟩

theorem parse_calls_cons (cnt cnt1 cnt2 : Nat) (pd pd1 pd2 : lightranger9_measurement_t)
    (c : lightranger9_meas_cpt_t) (cs : List lightranger9_meas_cpt_t) (ret : Bool)
    (flags : List Bool)
    (h1 : lightranger9_parse_measurement cnt c pd = some (cnt1, pd1, ret))
    (h2 : parse_calls cnt1 (if ret then zero_measurement else pd1) cs =
      some (cnt2, pd2, flags)) :
    parse_calls cnt pd (c :: cs) = some (cnt2, pd2, ret :: flags) := by
  show (match lightranger9_parse_measurement cnt c pd with
    | none => none
    | some (cnt1, pd1, ready_flag) =>
      match parse_calls cnt1 (if ready_flag then zero_measurement else pd1) cs with
      | none => none
      | some (cnt2, pd2, flags) => some (cnt2, pd2, ready_flag :: flags)) = _
  rw [h1]
  dsimp only
  rw [h2]

/-- The flags of the sampling loop when `k` calls have been made before. -/
theorem parse_calls_flags (captures : List lightranger9_meas_cpt_t) :
    ∀ (k : Nat) (pd : lightranger9_measurement_t),
      pd.obj1.length = 64 → pd.obj2.length = 64 →
      (∀ c ∈ captures, c.sub_capture < 4 ∧ c.result.length = 36) →
      ∃ cnt1 pd1 flags, parse_calls (k % 4) pd captures = some (cnt1, pd1, flags) ∧
        flags.length = captures.length ∧
        ∀ j, j < captures.length → flags[j]? = some (decide ((k + j + 1) % 4 = 0)) := by
  induction captures with
  | nil =>
    intro k pd _ _ _
    exact ⟨_, _, [], rfl, rfl, fun j hj => absurd hj (Nat.not_lt_zero j)⟩
  | cons c cs ih =>
    intro k pd h1 h2 hwf
    obtain ⟨hs, hr⟩ := hwf c (List.mem_cons_self _ _)
    obtain ⟨pd1, hp, l1, l2, _, _⟩ :=
      parse_measurement_step (k % 4) c pd (Nat.mod_lt _ (by decide)) hs hr h1 h2
    have hk : (k % 4 + 1) % 4 = (k + 1) % 4 := by omega
    rw [hk] at hp
    have z1 : zero_measurement.obj1.length = 64 := by simp [zero_measurement]
    have z2 : zero_measurement.obj2.length = 64 := by simp [zero_measurement]
    have n1 : (if decide (k % 4 = 3) then zero_measurement else pd1).obj1.length = 64 := by
      by_cases hd : decide (k % 4 = 3) = true
      · rw [if_pos hd]; exact z1
      · rw [if_neg hd]; exact l1
    have n2 : (if decide (k % 4 = 3) then zero_measurement else pd1).obj2.length = 64 := by
      by_cases hd : decide (k % 4 = 3) = true
      · rw [if_pos hd]; exact z2
      · rw [if_neg hd]; exact l2
    obtain ⟨cnt2, pd2, flags, hrun, hlen, hfl⟩ :=
      ih (k + 1) (if decide (k % 4 = 3) then zero_measurement else pd1) n1 n2
        (fun c1 hc1 => hwf c1 (List.mem_cons_of_mem _ hc1))
    refine ⟨cnt2, pd2, decide (k % 4 = 3) :: flags, ?_, ?_, ?_⟩
    · exact parse_calls_cons _ _ _ _ _ _ _ _ _ _ hp hrun
    · simp only [List.length_cons, hlen]
    · intro j hj
      cases j with
      | zero =>
        simp only [List.getElem?_cons_zero, Option.some.injEq, decide_eq_decide]
        omega
      | succ j =>
        simp only [List.getElem?_cons_succ]
        rw [hfl j (by simpa using hj)]
        have e : k + 1 + j + 1 = k + (j + 1) + 1 := by omega
        rw [e]

/-- C11: counted from start-up, the calls of `lightranger9_parse_measurement` return
true exactly on calls number 4, 8, 12, ... and false on all others; a call that returns
true sets the scalar fields of the record to those of the capture just folded, and a
call that returns false leaves them unchanged. -/
theorem fold_counting (captures : List lightranger9_meas_cpt_t)
    (hwf : ∀ c ∈ captures, c.sub_capture < 4 ∧ c.result.length = LIGHTRANGER9_MAX_MEAS_RESULTS) :
    (∃ cnt1 pd1 flags, parse_calls 0 zero_measurement captures = some (cnt1, pd1, flags) ∧
      flags.length = captures.length ∧
      ∀ n, 1 ≤ n → n ≤ captures.length → flags[n - 1]? = some (decide (n % 4 = 0))) ∧
    (∀ cnt capture pd cnt1 pd1 ret, cnt < 4 → capture.sub_capture < 4 →
      capture.result.length = LIGHTRANGER9_MAX_MEAS_RESULTS →
      pd.obj1.length = LIGHTRANGER9_OBJECT_MAP_SIZE →
      pd.obj2.length = LIGHTRANGER9_OBJECT_MAP_SIZE →
      lightranger9_parse_measurement cnt capture pd = some (cnt1, pd1, ret) →
      (ret = true → record_scalars pd1 = capture_scalars capture) ∧
      (ret = false → record_scalars pd1 = record_scalars pd)) := by
  simp only [LIGHTRANGER9_MAX_MEAS_RESULTS, LIGHTRANGER9_OBJECT_MAP_SIZE] at hwf ⊢
  constructor
  · obtain ⟨cnt1, pd1, flags, hrun, hlen, hfl⟩ :=
      parse_calls_flags captures 0 zero_measurement (by simp [zero_measurement])
        (by simp [zero_measurement]) hwf
    refine ⟨cnt1, pd1, flags, hrun, hlen, fun n h1 h2 => ?_⟩
    rw [hfl (n - 1) (by omega)]
    have e : 0 + (n - 1) + 1 = n := by omega
    rw [e]
  · intro cnt capture pd cnt1 pd1 ret hcnt hs hr h1 h2 hp
    obtain ⟨pd2, hp2, _, _, ht, hf⟩ := parse_measurement_step cnt capture pd hcnt hs hr h1 h2
    rw [hp2] at hp
    simp only [Option.some.injEq, Prod.mk.injEq] at hp
    obtain ⟨_, rfl, rfl⟩ := hp
    constructor
    · intro h
      exact ht (by simpa using h)
    · intro h
      exact hf (by simpa using h)

/-- Witness of C11: four captures of the sample kind. -/
theorem fold_counting_witness :
    (∃ cnt1 pd1 flags, parse_calls 0 zero_measurement
        (List.replicate 4 (sample_capture ⟨150, 500⟩)) = some (cnt1, pd1, flags) ∧
      flags.length = (List.replicate 4 (sample_capture ⟨150, 500⟩)).length ∧
      ∀ n, 1 ≤ n → n ≤ (List.replicate 4 (sample_capture ⟨150, 500⟩)).length →
        flags[n - 1]? = some (decide (n % 4 = 0))) ∧
    (∀ cnt capture pd cnt1 pd1 ret, cnt < 4 → capture.sub_capture < 4 →
      capture.result.length = LIGHTRANGER9_MAX_MEAS_RESULTS →
      pd.obj1.length = LIGHTRANGER9_OBJECT_MAP_SIZE →
      pd.obj2.length = LIGHTRANGER9_OBJECT_MAP_SIZE →
      lightranger9_parse_measurement cnt capture pd = some (cnt1, pd1, ret) →
      (ret = true → record_scalars pd1 = capture_scalars capture) ∧
      (ret = false → record_scalars pd1 = record_scalars pd)) :=
  fold_counting (List.replicate 4 (sample_capture ⟨150, 500⟩))
    (fun c hc => by rw [List.eq_of_mem_replicate hc]; decide)

/-! ## Confidence gate -/

theorem decode_result_eq (data_buf : List Nat) (hl : data_buf.length = 132)
    (hb : ∀ b ∈ data_buf, b < 256) (i : Nat) (hi : i < 36) :
    decode_result data_buf i =
      some { confidence := data_buf.getD (24 + 3 * i) 0
             distance_mm :=
               if data_buf.getD (24 + 3 * i) 0 < 100 then 0
               else data_buf.getD (26 + 3 * i) 0 * 256 + data_buf.getD (25 + 3 * i) 0 } := by
  have g : ∀ k, k < 132 → data_buf[k]? = some (data_buf.getD k 0) := by
    intro k hk
    rw [List.getD_eq_getElem?_getD, List.getElem?_eq_getElem (by omega)]
    rfl
  have hlsb : data_buf.getD (25 + 3 * i) 0 < 2 ^ 8 := by
    have h := g (25 + 3 * i) (by omega)
    exact hb _ (List.getElem?_mem h)
  have hmsb : data_buf.getD (26 + 3 * i) 0 < 256 := by
    have h := g (26 + 3 * i) (by omega)
    exact hb _ (List.getElem?_mem h)
  have e1 : block_offset 0x38 + i * 3 = 24 + 3 * i := by simp [block_offset]; omega
  have e2 : block_offset 0x3A + i * 3 = 26 + 3 * i := by simp [block_offset]; omega
  have e3 : block_offset 0x39 + i * 3 = 25 + 3 * i := by simp [block_offset]; omega
  unfold decode_result
  rw [e1, e2, e3, g _ (by omega), g _ (by omega), g _ (by omega)]
  simp only [LIGHTRANGER9_CONFIDENCE_THRESHOLD]
  by_cases hc : data_buf.getD (24 + 3 * i) 0 < 100
  · rw [if_neg (by omega), if_pos hc]
  · rw [if_pos (by omega), if_neg hc]
    have hor : (data_buf.getD (26 + 3 * i) 0 <<< 8) ||| data_buf.getD (25 + 3 * i) 0 =
        data_buf.getD (26 + 3 * i) 0 * 256 + data_buf.getD (25 + 3 * i) 0 := by
      rw [Nat.shiftLeft_eq, Nat.mul_comm, ← Nat.mul_add_lt_is_or hlsb]
    rw [hor, Nat.mod_eq_of_lt (by omega)]

theorem decode_results_spec (data_buf : List Nat) (hl : data_buf.length = 132)
    (hb : ∀ b ∈ data_buf, b < 256) :
    ∀ n, n ≤ 36 → ∃ rs, decode_results data_buf n = some rs ∧ rs.length = n ∧
      ∀ i, i < n → rs[i]? = decode_result data_buf i := by
  intro n
  induction n with
  | zero =>
    intro _
    exact ⟨[], rfl, rfl, fun i hi => absurd hi (Nat.not_lt_zero i)⟩
  | succ n ih =>
    intro hn
    obtain ⟨rs, hrs, hlen, hget⟩ := ih (by omega)
    have hd := decode_result_eq data_buf hl hb n (by omega)
    refine ⟨rs ++ [{ confidence := data_buf.getD (24 + 3 * n) 0
                     distance_mm :=
                       if data_buf.getD (24 + 3 * n) 0 < 100 then 0
                       else data_buf.getD (26 + 3 * n) 0 * 256 +
                         data_buf.getD (25 + 3 * n) 0 }], ?_, ?_, ?_⟩
    · simp only [decode_results, hrs, hd]
    · simp only [List.length_append, hlen, List.length_cons, List.length_nil]
    · intro i hi
      by_cases hin : i < n
      · rw [List.getElem?_append_left (by omega), hget i hin]
      · have : i = n := by omega
        subst this
        rw [List.getElem?_append_right (by omega), hlen, Nat.sub_self, hd]
        rfl

theorem decode_u32_some (data_buf : List Nat) (hl : data_buf.length = 132) (off : Nat)
    (ho : off + 3 < 132) : ∃ v, decode_u32 data_buf off = some v := by
  have g : ∀ k, k < 132 → data_buf[k]? = some (data_buf.getD k 0) := by
    intro k hk
    rw [List.getD_eq_getElem?_getD, List.getElem?_eq_getElem (by omega)]
    rfl
  unfold decode_u32
  rw [g _ ho, g _ (by omega), g _ (by omega), g _ (by omega)]
  exact ⟨_, rfl⟩

/-- Decoding a 132-byte block succeeds; the sub-capture index is below 4 and the result
slots are those of the result loop. -/
theorem sample_decode_spec (sys_tick_to_sec : Nat → Nat) (data_buf : List Nat)
    (hl : data_buf.length = 132) (hb : ∀ b ∈ data_buf, b < 256) :
    ∃ cap, sample_decode sys_tick_to_sec data_buf = some cap ∧ cap.sub_capture < 4 ∧
      cap.result.length = 36 ∧ ∀ i, i < 36 → cap.result[i]? = decode_result data_buf i := by
  have g : ∀ k, k < 132 → data_buf[k]? = some (data_buf.getD k 0) := by
    intro k hk
    rw [List.getD_eq_getElem?_getD, List.getElem?_eq_getElem (by omega)]
    rfl
  obtain ⟨rs, hrs, hlen, hget⟩ := decode_results_spec data_buf hl hb 36 (by omega)
  obtain ⟨a, ha⟩ := decode_u32_some data_buf hl (block_offset 0x28) (by simp [block_offset])
  obtain ⟨p, hp⟩ := decode_u32_some data_buf hl (block_offset 0x2C) (by simp [block_offset])
  obtain ⟨r, hr⟩ := decode_u32_some data_buf hl (block_offset 0x30) (by simp [block_offset])
  obtain ⟨t, ht⟩ := decode_u32_some data_buf hl (block_offset 0x34) (by simp [block_offset])
  unfold sample_decode
  rw [g _ (by simp [block_offset]), g _ (by simp [block_offset]), g _ (by simp [block_offset]),
    ha, hp, hr, ht]
  simp only [LIGHTRANGER9_MAX_MEAS_RESULTS, hrs]
  refine ⟨_, rfl, ?_, hlen, hget⟩
  exact Nat.lt_of_le_of_lt Nat.and_le_right (by decide)

/-- C12: for a 132-byte block and a result slot, a confidence byte below the threshold
gives the decoded distance 0 whatever the distance bytes are (and the little-endian
16-bit distance otherwise), and the cell the fold writes from that slot has distance 0. -/
theorem confidence_gate (sys_tick_to_sec : Nat → Nat) (data_buf : List Nat)
    (data : lightranger9_meas_cpt_t) (i : Nat)
    (hl : data_buf.length = LIGHTRANGER9_BLOCKREAD_SIZE) (hb : ∀ b ∈ data_buf, b < 256)
    (hi : i < LIGHTRANGER9_MAX_MEAS_RESULTS) :
    ∃ cap, lightranger9_sample_fetch sys_tick_to_sec 0 0 data_buf data = some (0, cap) ∧
      cap.result[i]? =
        some { confidence := data_buf.getD (24 + 3 * i) 0
               distance_mm :=
                 if data_buf.getD (24 + 3 * i) 0 < LIGHTRANGER9_CONFIDENCE_THRESHOLD then 0
                 else data_buf.getD (26 + 3 * i) 0 * 256 + data_buf.getD (25 + 3 * i) 0 } ∧
      (data_buf.getD (24 + 3 * i) 0 < LIGHTRANGER9_CONFIDENCE_THRESHOLD →
        fold_skips i = false →
        ∀ cnt pd, pd.obj1.length = LIGHTRANGER9_OBJECT_MAP_SIZE →
          pd.obj2.length = LIGHTRANGER9_OBJECT_MAP_SIZE →
          ∃ cnt1 pd1 ret,
            lightranger9_parse_measurement cnt cap pd = some (cnt1, pd1, ret) ∧
            ((if i < 18 then pd1.obj1 else pd1.obj2)[remap_cell i cap.sub_capture]?).map
              (fun r => r.distance_mm) = some 0) := by
  simp only [LIGHTRANGER9_BLOCKREAD_SIZE, LIGHTRANGER9_MAX_MEAS_RESULTS,
    LIGHTRANGER9_CONFIDENCE_THRESHOLD, LIGHTRANGER9_OBJECT_MAP_SIZE] at hl hi ⊢
  obtain ⟨cap, hdec, hsub, hlen, hres⟩ := sample_decode_spec sys_tick_to_sec data_buf hl hb
  have hslot := (hres i hi).trans (decode_result_eq data_buf hl hb i hi)
  refine ⟨cap, ?_, hslot, ?_⟩
  · unfold lightranger9_sample_fetch
    simp [hdec]
  · intro hconf hskip cnt pd h1 h2
    obtain ⟨pd1, hf, _, _, _, p1, p2, _, _⟩ :=
      fold_upto_spec cap pd hsub hlen h1 h2 36 (by omega)
    obtain ⟨cnt1, pd2, ret, hp, e1, e2⟩ := parse_measurement_maps cnt cap pd pd1 hf
    refine ⟨cnt1, pd2, ret, hp, ?_⟩
    by_cases h18 : i < 18
    · rw [if_pos h18, e1, p1 i hi hskip h18, hslot, if_pos hconf]
      rfl
    · rw [if_neg h18, e2, p2 i hi hskip (by omega), hslot, if_pos hconf]
      rfl

/-- Witness of C12: the all-zero block and slot 0. -/
theorem confidence_gate_witness :
    ∃ cap, lightranger9_sample_fetch (fun t => t) 0 0 (List.replicate 132 0)
        (sample_capture ⟨0, 0⟩) = some (0, cap) ∧
      cap.result[0]? =
        some { confidence := (List.replicate 132 0).getD (24 + 3 * 0) 0
               distance_mm :=
                 if (List.replicate 132 0).getD (24 + 3 * 0) 0 <
                     LIGHTRANGER9_CONFIDENCE_THRESHOLD then 0
                 else (List.replicate 132 0).getD (26 + 3 * 0) 0 * 256 +
                   (List.replicate 132 0).getD (25 + 3 * 0) 0 } ∧
      ((List.replicate 132 0).getD (24 + 3 * 0) 0 < LIGHTRANGER9_CONFIDENCE_THRESHOLD →
        fold_skips 0 = false →
        ∀ cnt pd, pd.obj1.length = LIGHTRANGER9_OBJECT_MAP_SIZE →
          pd.obj2.length = LIGHTRANGER9_OBJECT_MAP_SIZE →
          ∃ cnt1 pd1 ret,
            lightranger9_parse_measurement cnt cap pd = some (cnt1, pd1, ret) ∧
            ((if 0 < 18 then pd1.obj1 else pd1.obj2)[remap_cell 0 cap.sub_capture]?).map
              (fun r => r.distance_mm) = some 0) :=
  confidence_gate (fun t => t) (List.replicate 132 0) (sample_capture ⟨0, 0⟩) 0
    (List.length_replicate _ _)
    (fun b hb => by rw [List.eq_of_mem_replicate hb]; decide) (by decide)

/-! ## Duplicates, session replacement and completion -/

/-- C13, amended: for every receiver state and every element whose first processing does
not complete a record, processing the same element a second time immediately after the
first leaves the receiver state exactly as the first left it (the count is not
incremented again and no byte of the buffer changes), and signals nothing. -/
theorem idempotent_duplicate (st st1 : RxState) (d : bt_data)
    (h : adv_data_found st d = some st1) (hev : ready_event st d = none) :
    adv_data_found st1 d = some st1 ∧ ready_event st1 d = none := by
  unfold ready_event at hev ⊢
  unfold adv_data_found at h hev ⊢
  by_cases ht : d.type = BT_DATA_MANUFACTURER_DATA
  · simp only [if_pos ht] at h hev ⊢
    cases hh : read_header d.data with
    | none => simp [hh] at h
    | some header =>
      simp only [hh] at h hev ⊢
      by_cases hid : (st.prev_header.id0, st.prev_header.id1) ≠ (header.id0, header.id1)
      · simp only [if_pos hid] at h
        cases hc : copy_chunk (List.replicate SIZEOF_BTDATA 0) header d with
        | none => simp [hc] at h
        | some b =>
          simp only [hc, Option.some.injEq] at h
          subst h
          simp
      · simp only [if_neg hid] at h hev
        by_cases hp : header.part_no ≠ st.prev_header.part_no
        · simp only [if_pos hp] at h hev
          cases hc : copy_chunk st.buffer header d with
          | none => simp [hc] at h
          | some b =>
            simp only [hc] at h hev
            by_cases hcnt : (st.cnt + 1) % 256 = header.parts_total
            · simp only [if_pos hcnt] at h hev
              cases hm : memcpy st.gMeasurement 0 b SIZEOF_BTDATA with
              | none => simp [hm] at h
              | some m => simp [hm] at hev
            · simp only [if_neg hcnt, Option.some.injEq] at h
              subst h
              simp
        · simp only [if_neg hp, Option.some.injEq] at h
          subst h
          have hid1 : (st.prev_header.id0, st.prev_header.id1) = (header.id0, header.id1) := by
            simpa using hid
          have hp1 : header.part_no = st.prev_header.part_no := by simpa using hp
          simp [hid1, hp1]
  · simp only [if_neg ht, Option.some.injEq] at h ⊢
    subst h
    simp

set_option maxRecDepth 100000 in
/-- C13 as stated fails: a fragment that completes the record is not recognised as a
duplicate when it comes again.  After part 1 of a two-part message with session id
(1, 2), part 2 completes the record and resets the receiver (count 0); the same part 2
once more is taken as the start of a new record and counted (count 1). -/
theorem duplicate_after_completion :
    ∃ st st1 st2,
      rx_run rx_init [⟨BT_DATA_MANUFACTURER_DATA, [1, 2, 1, 2]⟩] = some (st, [none]) ∧
      adv_data_found st ⟨BT_DATA_MANUFACTURER_DATA, [1, 2, 2, 2]⟩ = some st1 ∧
      adv_data_found st1 ⟨BT_DATA_MANUFACTURER_DATA, [1, 2, 2, 2]⟩ = some st2 ∧
      st1.cnt = 0 ∧ st1.prev_header = zero_header ∧
      st2.cnt = 1 ∧ st2.prev_header = ⟨1, 2, 2, 2⟩ ∧ st2 ≠ st1 := by
  refine ⟨⟨⟨1, 2, 1, 2⟩, ⟨1, 2, 1, 2⟩, List.replicate SIZEOF_BTDATA 0, 1,
      List.replicate SIZEOF_BTDATA 0, false⟩,
    ⟨zero_header, zero_header, List.replicate SIZEOF_BTDATA 0, 0,
      List.replicate SIZEOF_BTDATA 0, true⟩,
    ⟨⟨1, 2, 2, 2⟩, ⟨1, 2, 2, 2⟩, List.replicate SIZEOF_BTDATA 0, 1,
      List.replicate SIZEOF_BTDATA 0, true⟩, ?_, ?_, ?_, rfl, rfl, rfl, rfl, ?_⟩
  · decide
  · decide
  · decide
  · intro h
    have := congrArg RxState.cnt h
    exact absurd this (by decide)

set_option maxRecDepth 100000 in
/-- Witness of C13 (amended): part 1 of a two-part message on the start-up state. -/
theorem idempotent_duplicate_witness :
    adv_data_found (⟨⟨1, 2, 1, 2⟩, ⟨1, 2, 1, 2⟩, List.replicate SIZEOF_BTDATA 0, 1,
        List.replicate SIZEOF_BTDATA 0, false⟩ : RxState)
      ⟨BT_DATA_MANUFACTURER_DATA, [1, 2, 1, 2]⟩ =
        some ⟨⟨1, 2, 1, 2⟩, ⟨1, 2, 1, 2⟩, List.replicate SIZEOF_BTDATA 0, 1,
          List.replicate SIZEOF_BTDATA 0, false⟩ ∧
    ready_event (⟨⟨1, 2, 1, 2⟩, ⟨1, 2, 1, 2⟩, List.replicate SIZEOF_BTDATA 0, 1,
        List.replicate SIZEOF_BTDATA 0, false⟩ : RxState)
      ⟨BT_DATA_MANUFACTURER_DATA, [1, 2, 1, 2]⟩ = none :=
  idempotent_duplicate rx_init _ ⟨BT_DATA_MANUFACTURER_DATA, [1, 2, 1, 2]⟩
    (by decide) (by decide)

theorem read_header_len (data : List Nat) (header : bt_data_header_t)
    (h : read_header data = some header) : SIZEOF_HEADER ≤ data.length := by
  rcases data with _ | ⟨a, _ | ⟨b, _ | ⟨c, _ | ⟨e, rest⟩⟩⟩⟩
  · cases h
  · cases h
  · cases h
  · cases h
  · simp only [List.length_cons, SIZEOF_HEADER]; omega

/-- C14: whatever the receiver holds, a fragment whose session id differs from the
remembered one and whose chunk lies inside the record buffer leaves the buffer all zero
except for that chunk at offset `(part_no - 1) * 206`, the count at 1, and the
fragment's header as the remembered one. -/
theorem session_replacement (st : RxState) (d : bt_data) (header : bt_data_header_t)
    (ht : d.type = BT_DATA_MANUFACTURER_DATA)
    (hh : read_header d.data = some header)
    (hid : (st.prev_header.id0, st.prev_header.id1) ≠ (header.id0, header.id1))
    (hp : 1 ≤ header.part_no)
    (hfit : (header.part_no - 1) * BT_ADD_MAIN_BUFF_CHUNK + (d.data_len - SIZEOF_HEADER) ≤
      SIZEOF_BTDATA) :
    ∃ st1, adv_data_found st d = some st1 ∧ st1.cnt = 1 ∧ st1.prev_header = header ∧
      st1.buffer.length = SIZEOF_BTDATA ∧
      ∀ i, st1.buffer[i]? =
        if (header.part_no - 1) * BT_ADD_MAIN_BUFF_CHUNK ≤ i ∧
            i < (header.part_no - 1) * BT_ADD_MAIN_BUFF_CHUNK + (d.data_len - SIZEOF_HEADER)
        then d.data[SIZEOF_HEADER + (i - (header.part_no - 1) * BT_ADD_MAIN_BUFF_CHUNK)]?
        else (List.replicate SIZEOF_BTDATA 0)[i]? := by
  have hlen4 : SIZEOF_HEADER ≤ d.data_len := read_header_len d.data header hh
  have hsome := @memcpy_some (List.replicate SIZEOF_BTDATA 0) (d.data.drop SIZEOF_HEADER)
    ((header.part_no - 1) * BT_ADD_MAIN_BUFF_CHUNK) (d.data_len - SIZEOF_HEADER)
    (by rw [List.length_replicate]; exact hfit)
    (by simp only [List.length_drop, bt_data.data_len]; exact Nat.le_refl _)
  have hcopy : copy_chunk (List.replicate SIZEOF_BTDATA 0) header d =
      memcpy (List.replicate SIZEOF_BTDATA 0) ((header.part_no - 1) * BT_ADD_MAIN_BUFF_CHUNK)
        (d.data.drop SIZEOF_HEADER) (d.data_len - SIZEOF_HEADER) := by
    unfold copy_chunk
    rw [if_neg (by omega)]
  refine ⟨⟨header, header,
    (List.replicate SIZEOF_BTDATA 0).take ((header.part_no - 1) * BT_ADD_MAIN_BUFF_CHUNK) ++
      (d.data.drop SIZEOF_HEADER).take (d.data_len - SIZEOF_HEADER) ++
      (List.replicate SIZEOF_BTDATA 0).drop
        ((header.part_no - 1) * BT_ADD_MAIN_BUFF_CHUNK + (d.data_len - SIZEOF_HEADER)),
    1, st.gMeasurement, st.gMeasReceived⟩, ?_, rfl, rfl, ?_, ?_⟩
  · unfold adv_data_found
    rw [if_pos ht, hh]
    dsimp only
    rw [if_pos hid, hcopy, hsome]
  · show (_ : List Nat).length = _
    rw [memcpy_length hsome, List.length_replicate]
  · intro i
    show (_ : List Nat)[i]? = _
    rw [memcpy_getElem? hsome i]
    by_cases h1 : i < (header.part_no - 1) * BT_ADD_MAIN_BUFF_CHUNK
    · rw [if_pos h1, if_neg (by omega)]
    · rw [if_neg h1]
      by_cases h2 : i < (header.part_no - 1) * BT_ADD_MAIN_BUFF_CHUNK +
          (d.data_len - SIZEOF_HEADER)
      · rw [if_pos h2, if_pos ⟨by omega, h2⟩, List.getElem?_drop]
      · rw [if_neg h2, if_neg (by omega)]

set_option maxRecDepth 100000 in
/-- Witness of C14: part 2 of a message with session id (3, 4) reaching a receiver that
holds part 1 of session (1, 2). -/
theorem session_replacement_witness :
    ∃ st1, adv_data_found (⟨⟨1, 2, 1, 2⟩, ⟨1, 2, 1, 2⟩, List.replicate SIZEOF_BTDATA 0, 1,
          List.replicate SIZEOF_BTDATA 0, false⟩ : RxState)
        ⟨BT_DATA_MANUFACTURER_DATA, [3, 4, 2, 2, 9]⟩ = some st1 ∧
      st1.cnt = 1 ∧ st1.prev_header = ⟨3, 4, 2, 2⟩ ∧
      st1.buffer.length = SIZEOF_BTDATA ∧
      ∀ i, st1.buffer[i]? =
        if ((⟨3, 4, 2, 2⟩ : bt_data_header_t).part_no - 1) * BT_ADD_MAIN_BUFF_CHUNK ≤ i ∧
            i < ((⟨3, 4, 2, 2⟩ : bt_data_header_t).part_no - 1) * BT_ADD_MAIN_BUFF_CHUNK +
              ((⟨BT_DATA_MANUFACTURER_DATA, [3, 4, 2, 2, 9]⟩ : bt_data).data_len -
                SIZEOF_HEADER)
        then (⟨BT_DATA_MANUFACTURER_DATA, [3, 4, 2, 2, 9]⟩ : bt_data).data[SIZEOF_HEADER +
          (i - ((⟨3, 4, 2, 2⟩ : bt_data_header_t).part_no - 1) * BT_ADD_MAIN_BUFF_CHUNK)]?
        else (List.replicate SIZEOF_BTDATA 0)[i]? :=
  session_replacement _ ⟨BT_DATA_MANUFACTURER_DATA, [3, 4, 2, 2, 9]⟩ ⟨3, 4, 2, 2⟩ rfl rfl
    (by decide) (by decide) (by decide)

set_option maxRecDepth 100000 in
/-- C15, at a one-part message: on the start-up receiver the only fragment of a 100-byte
message with session id (1, 2) brings the count to 1, its `parts_total`, but the branch
for a new session id has no completion test: nothing is signalled, the completed record
is not written, and a repeat of the fragment is ignored as a duplicate. -/
theorem single_fragment_not_completed :
    ∃ st1, adv_data_found rx_init (fragment (1, 2) 1 (List.replicate 100 7) 0) = some st1 ∧
      st1.cnt = 1 ∧ st1.prev_header.parts_total = 1 ∧ st1.gMeasReceived = false ∧
      st1.gMeasurement = rx_init.gMeasurement ∧
      ready_event rx_init (fragment (1, 2) 1 (List.replicate 100 7) 0) = none ∧
      adv_data_found st1 (fragment (1, 2) 1 (List.replicate 100 7) 0) = some st1 ∧
      ready_event st1 (fragment (1, 2) 1 (List.replicate 100 7) 0) = none := by
  refine ⟨⟨⟨1, 2, 1, 1⟩, ⟨1, 2, 1, 1⟩,
    List.replicate 100 7 ++ List.replicate 431 0, 1, List.replicate SIZEOF_BTDATA 0, false⟩,
    ?_, rfl, rfl, rfl, rfl, ?_, ?_, ?_⟩
  · decide
  · decide
  · decide
  · decide

/-! ## Bootstrap frames -/

theorem checksum_fold (l : List Nat) :
    ∀ a, l.foldl (fun s b => (s + b) % 65536) a % 65536 = (a + l.sum) % 65536 := by
  induction l with
  | nil => intro a; simp
  | cons x xs ih =>
    intro a
    rw [List.foldl_cons, ih, List.sum_cons]
    omega

/-- The checksum is the one's complement of the low byte of the sum. -/
theorem calculate_checksum_eq (data_in : List Nat) (len : Nat) :
    lightranger9_calculate_checksum data_in len = 255 - (data_in.take len).sum % 256 := by
  unfold lightranger9_calculate_checksum
  have h := checksum_fold (data_in.take len) 0
  have hlt : (data_in.take len).foldl (fun s b => (s + b) % 65536) 0 < 65536 ∨
      data_in.take len = [] := by
    cases hl : data_in.take len with
    | nil => exact Or.inr rfl
    | cons x xs =>
      left
      have hne : x :: xs ≠ [] := by simp
      rw [← List.dropLast_append_getLast hne, List.foldl_append]
      simp only [List.foldl_cons, List.foldl_nil]
      omega
  simp only [Nat.zero_add] at h
  dsimp only
  rcases hlt with hlt | hnil
  · omega
  · rw [hnil]
    simp

/-- C16: for a bootloader command byte and a payload of `n <= 128` bytes,
`lightranger9_write_bl_cmd` writes to the command register the frame
`[command, n, payload..., c]` with `c = 255 - ((command + n + sum of payload) mod 256)`. -/
theorem bl_cmd_frame (io : DevIO) (cmd : Nat) (data_in : List Nat) (n : Nat)
    (hn : n ≤ 128) (hlen : n ≤ data_in.length) :
    ∃ io1 ret, lightranger9_write_bl_cmd io cmd data_in n = some (io1, ret) ∧
      io1.log = io.log ++
        [bus_op.write (LIGHTRANGER9_REG_CMD_STAT ::
          ([cmd, n] ++ data_in.take n ++
            [255 - (cmd + n + (data_in.take n).sum) % 256])) ret] := by
  have hck : lightranger9_calculate_checksum ([cmd, n] ++ data_in.take n) (n + 2) =
      255 - (cmd + n + (data_in.take n).sum) % 256 := by
    rw [calculate_checksum_eq, List.take_of_length_le (by
      simp only [List.length_append, List.length_cons, List.length_nil, List.length_take]
      omega)]
    simp only [List.sum_append, List.sum_cons, List.sum_nil, Nat.add_zero, Nat.add_assoc]
  unfold lightranger9_write_bl_cmd
  rw [if_pos ⟨by omega, hlen⟩]
  dsimp only
  rw [hck]
  refine ⟨_, _, rfl, ?_⟩
  simp only [lightranger9_generic_write, i2c_write_dt]
  rw [List.take_of_length_le (by
    simp only [List.length_append, List.length_cons, List.length_nil, List.length_take]
    omega)]

/-- Witness of C16: the download-init command with its seed byte. -/
theorem bl_cmd_frame_witness :
    ∃ io1 ret, lightranger9_write_bl_cmd ⟨fun _ => ⟨0, []⟩, []⟩ 0x14 [0x29] 1 =
        some (io1, ret) ∧
      io1.log = (⟨fun _ => ⟨0, []⟩, []⟩ : DevIO).log ++
        [bus_op.write (LIGHTRANGER9_REG_CMD_STAT ::
          ([0x14, 1] ++ [0x29].take 1 ++
            [255 - (0x14 + 1 + ([0x29].take 1).sum) % 256])) ret] :=
  bl_cmd_frame ⟨fun _ => ⟨0, []⟩, []⟩ 0x14 [0x29] 1 (by decide) (by decide)

/-! ## Broadcaster life cycle and send result -/

/-- C18, after a successful create and a successful delete: `bt_broadcaster_delete`
clears `adv` only when `bt_le_ext_adv_delete` failed, so after a delete that returned 0
the handle is still set and `bt_broadcaster_send_message` hands the three fragments of a
record to the transport instead of failing with `-ENOENT`. -/
theorem send_after_delete :
    bt_broadcaster_create false 0 0 = (true, 0) ∧
    bt_broadcaster_delete true 0 0 = (true, 0) ∧
    bt_broadcaster_send_message (bt_broadcaster_delete true 0 0).1 (fun _ => 0) (1, 2)
        (some (List.replicate SIZEOF_BTDATA 0)) (List.replicate SIZEOF_BTDATA 0).length =
      some (0, [fragment (1, 2) 3 (List.replicate SIZEOF_BTDATA 0) 0,
                fragment (1, 2) 3 (List.replicate SIZEOF_BTDATA 0) 1,
                fragment (1, 2) 3 (List.replicate SIZEOF_BTDATA 0) 2]) := by
  have hd : bt_broadcaster_delete true 0 0 = (true, 0) := rfl
  refine ⟨rfl, hd, ?_⟩
  rw [hd]
  exact send_message_record (fun _ => 0) (1, 2) (List.replicate SIZEOF_BTDATA 0)
    (List.length_replicate _ _)

/-- C19, with a transport that rejects part 1 of a record and accepts parts 2 and 3:
`ret` is overwritten by every `bt_le_ext_adv_set_data` call, so
`bt_broadcaster_send_message` returns 0 although a part was rejected. -/
theorem send_result_masks_rejection :
    reject_part_1 (fragment (1, 2) 3 (List.replicate SIZEOF_BTDATA 0) 0) = -22 ∧
    bt_broadcaster_send_message true reject_part_1 (1, 2)
        (some (List.replicate SIZEOF_BTDATA 0)) (List.replicate SIZEOF_BTDATA 0).length =
      some (0, [fragment (1, 2) 3 (List.replicate SIZEOF_BTDATA 0) 0,
                fragment (1, 2) 3 (List.replicate SIZEOF_BTDATA 0) 1,
                fragment (1, 2) 3 (List.replicate SIZEOF_BTDATA 0) 2]) := by
  have h0 : reject_part_1 (fragment (1, 2) 3 (List.replicate SIZEOF_BTDATA 0) 0) = -22 := by
    simp [reject_part_1, fragment]
  have h2 : reject_part_1 (fragment (1, 2) 3 (List.replicate SIZEOF_BTDATA 0) 2) = 0 := by
    simp [reject_part_1, fragment]
  refine ⟨h0, ?_⟩
  rw [send_message_record reject_part_1 (1, 2) (List.replicate SIZEOF_BTDATA 0)
    (List.length_replicate _ _), h2]

/-! ## Bootstrap failures -/

theorem read_register_length (io : DevIO) (reg len : Nat) (rx_buf : List Nat)
    (hlen : len ≤ rx_buf.length) :
    (lightranger9_read_register io reg rx_buf len).2.2.length = rx_buf.length := by
  simp only [lightranger9_read_register, i2c_write_read_dt, List.length_append,
    List.length_take, List.length_drop]
  omega

theorem digitChar_ne_nul : ∀ d, d < 10 → Nat.digitChar d ≠ NUL := by decide

theorem toDigitsCore_ne_nul (fuel : Nat) : ∀ (n : Nat) (ds : List Char),
    (∀ c ∈ ds, c ≠ NUL) → ∀ c ∈ Nat.toDigitsCore 10 fuel n ds, c ≠ NUL := by
  induction fuel with
  | zero =>
    intro n ds hds c hc
    exact hds c hc
  | succ fuel ih =>
    intro n ds hds c hc
    have hcons : ∀ c ∈ Nat.digitChar (n % 10) :: ds, c ≠ NUL := by
      intro c hc
      rcases List.mem_cons.mp hc with h | h
      · rw [h]
        exact digitChar_ne_nul _ (Nat.mod_lt _ (by decide))
      · exact hds c h
    simp only [Nat.toDigitsCore] at hc
    split at hc
    · exact hcons c hc
    · exact ih _ _ hcons c hc

theorem fmt_d_ne_nul (n : Nat) : ∀ c ∈ fmt_d n, c ≠ NUL := by
  intro c hc
  exact toDigitsCore_ne_nul _ _ [] (fun c h => absurd h (List.not_mem_nil c)) c hc

theorem fmt_d_length (n : Nat) (h : n < 65536) : (fmt_d n).length ≤ 5 :=
  Nat.repr_length n 5 (by decide) (by omega)

theorem c_str_terminated (t rest : List Char) (h : ∀ c ∈ t, c ≠ NUL) :
    c_str (t ++ NUL :: rest) = t := by
  unfold c_str
  rw [List.takeWhile_append_of_pos (fun c hc => by simpa using h c hc)]
  simp

/-- A call that has room for the whole of `text` and its terminator stores them behind
the `current_len` characters already there. -/
theorem json_print_fits (max_len : Nat) (t rest text : List Char)
    (hlen : (t ++ rest).length = max_len) (hroom : t.length + text.length < max_len)
    (hmax : max_len < 65536) :
    ∃ rest1, json_print max_len (t ++ rest, t.length) text =
        some ((t ++ text) ++ NUL :: rest1, (t ++ text).length) ∧
      ((t ++ text) ++ NUL :: rest1).length = max_len := by
  have hsz : size_left max_len t.length = max_len - t.length := by
    unfold size_left
    rw [if_pos (by omega)]
  have htake : text.take (max_len - t.length - 1) = text :=
    List.take_of_length_le (by omega)
  refine ⟨(t ++ rest).drop (t.length + (text.length + 1)), ?_, ?_⟩
  · unfold json_print snprintk
    dsimp only
    rw [hsz, if_neg (by omega), htake, if_pos (by omega)]
    dsimp only
    rw [List.take_left, Nat.mod_eq_of_lt (by omega), List.length_append]
    simp only [List.append_assoc, List.singleton_append]
  · simp only [List.length_append, List.length_cons, List.length_drop] at hlen ⊢
    omega

theorem print_step (max_len : Nat) (s : List Char × Nat) (t text : List Char)
    (hs : holds_text max_len s t) (hroom : t.length + text.length < max_len)
    (hmax : max_len < 65536) :
    ∃ s1, json_print max_len s text = some s1 ∧ holds_text max_len s1 (t ++ text) := by
  obtain ⟨rest, rfl, hlen⟩ := hs
  obtain ⟨rest1, hp, hl1⟩ := json_print_fits max_len t rest text hlen hroom hmax
  exact ⟨_, hp, NUL :: rest1, rfl, hl1⟩

theorem back_step (max_len : Nat) (s : List Char × Nat) (t : List Char) (c : Char)
    (hs : holds_text max_len s (t ++ [c])) (hmax : max_len < 65536) :
    holds_text max_len (json_back s) t := by
  obtain ⟨rest, rfl, hlen⟩ := hs
  refine ⟨c :: rest, ?_, ?_⟩
  · unfold json_back
    simp only [List.length_append, List.length_cons, List.length_nil, List.append_assoc,
      List.singleton_append, Prod.mk.injEq, true_and] at hlen ⊢
    omega
  · simpa only [List.append_assoc, List.singleton_append] using hlen

theorem cells_text_nil : cells_text [] = [] := rfl

theorem cells_text_append (a b : List lightranger9_meas_result_t) :
    cells_text (a ++ b) = cells_text a ++ cells_text b := by
  simp only [cells_text, List.map_append, List.flatten_append]

theorem cells_text_single (r : lightranger9_meas_result_t) :
    cells_text [r] = fmt_d r.distance_mm ++ ",".data := by
  simp only [cells_text, List.map_cons, List.map_nil, List.flatten_cons, List.flatten_nil,
    List.append_nil]

theorem cells_text_take_succ (l : List lightranger9_meas_result_t) (n : Nat)
    (r : lightranger9_meas_result_t) (h : l[n]? = some r) :
    cells_text (l.take (n + 1)) = cells_text (l.take n) ++ (fmt_d r.distance_mm ++ ",".data) := by
  rw [List.take_succ, h, cells_text_append]
  simp only [Option.toList_some, cells_text_single]

theorem cells_text_length (l : List lightranger9_meas_result_t)
    (h : ∀ r ∈ l, r.distance_mm < 65536) : (cells_text l).length ≤ 6 * l.length := by
  induction l with
  | nil => simp [cells_text]
  | cons r l ih =>
    have h1 := fmt_d_length r.distance_mm (h r (List.mem_cons_self _ _))
    have h2 := ih (fun x hx => h x (List.mem_cons_of_mem _ hx))
    have e : cells_text (r :: l) = (fmt_d r.distance_mm ++ ",".data) ++ cells_text l := rfl
    rw [e]
    simp only [List.length_append, List.length_cons, List.length_nil]
    omega

theorem cells_text_ne_nul (l : List lightranger9_meas_result_t) :
    ∀ c ∈ cells_text l, c ≠ NUL := by
  induction l with
  | nil =>
    intro c hc
    exact absurd hc (List.not_mem_nil c)
  | cons r l ih =>
    intro c hc
    have e : cells_text (r :: l) = (fmt_d r.distance_mm ++ ",".data) ++ cells_text l := rfl
    rw [e] at hc
    rcases List.mem_append.mp hc with h | h
    · rcases List.mem_append.mp h with h | h
      · exact fmt_d_ne_nul _ c h
      · have : c = ',' := by simpa using h
        rw [this]
        decide
    · exact ih c h

theorem cells_text_dropLast (l : List lightranger9_meas_result_t) (h : l ≠ []) :
    (cells_text l).dropLast =
      ",".data.intercalate (l.map (fun r => fmt_d r.distance_mm)) := by
  induction l with
  | nil => exact absurd rfl h
  | cons r l ih =>
    have e : cells_text (r :: l) = (fmt_d r.distance_mm ++ ",".data) ++ cells_text l := rfl
    rw [e]
    cases l with
    | nil =>
      simp [cells_text, List.intercalate, List.dropLast_append_of_ne_nil]
    | cons r1 l1 =>
      have hne : cells_text (r1 :: l1) ≠ [] := by
        intro h0
        have : (cells_text (r1 :: l1)).length = 0 := by rw [h0]; rfl
        have e1 : cells_text (r1 :: l1) =
            (fmt_d r1.distance_mm ++ ",".data) ++ cells_text l1 := rfl
        rw [e1] at this
        simp at this
      rw [List.dropLast_append_of_ne_nil _ hne, ih (List.cons_ne_nil _ _)]
      simp [List.intercalate, List.intersperse]

theorem json_body_low (meas : lightranger9_btdata_t) (max_len : Nat) (s s1 : List Char × Nat)
    (cnt : Nat) (r : lightranger9_meas_result_t) (h : cnt < 64)
    (hr : meas.obj1[cnt]? = some r)
    (hp : json_print max_len s (fmt_d r.distance_mm ++ ",".data) = some s1) :
    json_body meas max_len s cnt = some s1 := by
  unfold json_body
  rw [if_pos (show cnt < LIGHTRANGER9_OBJECT_MAP_SIZE from h), hr]
  dsimp only
  rw [hp]
  dsimp only
  rw [if_neg (show ¬ cnt = LIGHTRANGER9_OBJECT_MAP_SIZE from Nat.ne_of_lt h)]
  dsimp only
  rw [if_neg (show ¬ cnt ≥ LIGHTRANGER9_OBJECT_MAP_SIZE from Nat.not_le_of_lt h)]

theorem json_body_mid (meas : lightranger9_btdata_t) (max_len : Nat)
    (s s1 s2 : List Char × Nat) (r : lightranger9_meas_result_t)
    (hr : meas.obj2[0]? = some r)
    (hp1 : json_print max_len (json_back s) "],\"map2\":[".data = some s1)
    (hp2 : json_print max_len s1 (fmt_d r.distance_mm ++ ",".data) = some s2) :
    json_body meas max_len s 64 = some s2 := by
  unfold json_body
  rw [if_neg (show ¬ 64 < LIGHTRANGER9_OBJECT_MAP_SIZE by decide)]
  dsimp only
  rw [if_pos (show 64 = LIGHTRANGER9_OBJECT_MAP_SIZE from rfl), hp1]
  dsimp only
  rw [if_pos (show 64 ≥ LIGHTRANGER9_OBJECT_MAP_SIZE by decide)]
  rw [show 64 - LIGHTRANGER9_OBJECT_MAP_SIZE = 0 from rfl, hr]
  dsimp only
  rw [hp2]

theorem json_body_high (meas : lightranger9_btdata_t) (max_len : Nat)
    (s s1 : List Char × Nat) (m : Nat) (r : lightranger9_meas_result_t) (h : 0 < m)
    (hr : meas.obj2[m]? = some r)
    (hp : json_print max_len s (fmt_d r.distance_mm ++ ",".data) = some s1) :
    json_body meas max_len s (64 + m) = some s1 := by
  unfold json_body
  rw [if_neg (show ¬ 64 + m < LIGHTRANGER9_OBJECT_MAP_SIZE by
    unfold LIGHTRANGER9_OBJECT_MAP_SIZE; omega)]
  dsimp only
  rw [if_neg (show ¬ 64 + m = LIGHTRANGER9_OBJECT_MAP_SIZE by
    unfold LIGHTRANGER9_OBJECT_MAP_SIZE; omega)]
  dsimp only
  rw [if_pos (show 64 + m ≥ LIGHTRANGER9_OBJECT_MAP_SIZE by
    unfold LIGHTRANGER9_OBJECT_MAP_SIZE; omega)]
  rw [show 64 + m - LIGHTRANGER9_OBJECT_MAP_SIZE = m by
    unfold LIGHTRANGER9_OBJECT_MAP_SIZE; omega, hr]
  dsimp only
  rw [hp]

theorem json_upto_succ (meas : lightranger9_btdata_t) (max_len : Nat)
    (s0 s1 : List Char × Nat) (n : Nat) (h : json_upto meas max_len s0 n = some s1) :
    json_upto meas max_len s0 (n + 1) = json_body meas max_len s1 n := by
  show (match json_upto meas max_len s0 n with
    | none => none
    | some s1 => json_body meas max_len s1 n) = _
  rw [h]

theorem take_length_le_of_mem {α : Type} (l : List α) (n : Nat) (P : α → Prop)
    (h : ∀ x ∈ l, P x) : ∀ x ∈ l.take n, P x :=
  fun x hx => h x (List.mem_of_mem_take hx)

/-- The first 64 iterations store the cells of object map 1. -/
theorem json_upto_low (meas : lightranger9_btdata_t) (max_len : Nat) (s0 : List Char × Nat)
    (t0 : List Char) (hok : btdata_ok meas) (hmax : max_len < 65536)
    (hroom : t0.length + 6 * 64 < max_len) (h0 : holds_text max_len s0 t0) (n : Nat)
    (hn : n ≤ 64) :
    ∃ s, json_upto meas max_len s0 n = some s ∧
      holds_text max_len s (t0 ++ cells_text (meas.obj1.take n)) := by
  induction n with
  | zero =>
    refine ⟨s0, rfl, ?_⟩
    simpa [cells_text] using h0
  | succ n ih =>
    obtain ⟨s, hs, hh⟩ := ih (by omega)
    have hlt : n < meas.obj1.length := by rw [hok.1]; exact hn
    have hr : meas.obj1[n]? = some (meas.obj1[n]) := List.getElem?_eq_getElem hlt
    have hd : (meas.obj1[n]).distance_mm < 65536 :=
      hok.2.2.1 _ (List.getElem_mem _)
    have hl1 := cells_text_length (meas.obj1.take n)
      (take_length_le_of_mem _ _ _ hok.2.2.1)
    have hl2 := fmt_d_length _ hd
    rw [List.length_take] at hl1
    have hmin : min n meas.obj1.length = n := by omega
    rw [hmin] at hl1
    obtain ⟨s1, hp, hh1⟩ := print_step max_len s _
      (fmt_d (meas.obj1[n]).distance_mm ++ ",".data) hh (by
        simp only [List.length_append, List.length_cons, List.length_nil]
        omega) hmax
    refine ⟨s1, ?_, ?_⟩
    · rw [json_upto_succ meas max_len s0 s n hs]
      exact json_body_low meas max_len s s1 n _ (by omega) hr hp
    · rw [cells_text_take_succ _ _ _ hr, ← List.append_assoc]
      exact hh1

/-- The iterations 64 to 127 store the separator and the cells of object map 2. -/
theorem json_upto_high (meas : lightranger9_btdata_t) (max_len : Nat) (s0 s64 : List Char × Nat)
    (t1 : List Char) (c : Char) (hok : btdata_ok meas) (hmax : max_len < 65536)
    (hroom : t1.length + 10 + 6 * 64 < max_len)
    (h64 : json_upto meas max_len s0 64 = some s64)
    (hh64 : holds_text max_len s64 (t1 ++ [c])) (m : Nat) (hm1 : 1 ≤ m) (hm : m ≤ 64) :
    ∃ s, json_upto meas max_len s0 (64 + m) = some s ∧
      holds_text max_len s
        (t1 ++ "],\"map2\":[".data ++ cells_text (meas.obj2.take m)) := by
  induction m with
  | zero => omega
  | succ m ih =>
    have hlt : m < meas.obj2.length := by rw [hok.2.1]; exact hm
    have hr : meas.obj2[m]? = some (meas.obj2[m]) := List.getElem?_eq_getElem hlt
    have hd : (meas.obj2[m]).distance_mm < 65536 :=
      hok.2.2.2 _ (List.getElem_mem _)
    have hl2 := fmt_d_length _ hd
    have hl1 := cells_text_length (meas.obj2.take m)
      (take_length_le_of_mem _ _ _ hok.2.2.2)
    rw [List.length_take] at hl1
    have hmin : min m meas.obj2.length = m := by omega
    rw [hmin] at hl1
    have hsep : "],\"map2\":[".data.length = 10 := rfl
    rcases Nat.eq_zero_or_pos m with hz | hpos
    · subst hz
      have hb := back_step max_len s64 t1 c hh64 hmax
      obtain ⟨s1, hp1, hh1⟩ := print_step max_len (json_back s64) t1
        "],\"map2\":[".data hb (by rw [hsep]; omega) hmax
      obtain ⟨s2, hp2, hh2⟩ := print_step max_len s1 _
        (fmt_d (meas.obj2[0]).distance_mm ++ ",".data) hh1 (by
          simp only [List.length_append, List.length_cons, List.length_nil]
          omega) hmax
      refine ⟨s2, ?_, ?_⟩
      · rw [show 64 + (0 + 1) = 64 + 1 from rfl, json_upto_succ meas max_len s0 s64 64 h64]
        exact json_body_mid meas max_len s64 s1 s2 _ hr hp1 hp2
      · rw [cells_text_take_succ _ _ _ hr]
        simpa [cells_text] using hh2
    · obtain ⟨s, hs, hh⟩ := ih hpos (by omega)
      obtain ⟨s1, hp, hh1⟩ := print_step max_len s _
        (fmt_d (meas.obj2[m]).distance_mm ++ ",".data) hh (by
          simp only [List.length_append, List.length_cons, List.length_nil] at hsep ⊢
          omega) hmax
      refine ⟨s1, ?_, ?_⟩
      · rw [show 64 + (m + 1) = (64 + m) + 1 from rfl,
          json_upto_succ meas max_len s0 s (64 + m) hs]
        exact json_body_high meas max_len s s1 m _ hpos hr hp
      · rw [cells_text_take_succ _ _ _ hr, ← List.append_assoc]
        exact hh1

theorem dropLast_snoc_of_ne_nil (l : List Char) (h : l ≠ []) :
    ∃ c, l = l.dropLast ++ [c] :=
  ⟨l.getLast h, (List.dropLast_append_getLast h).symm⟩

theorem cells_text_ne_nil (l : List lightranger9_meas_result_t) (h : l ≠ []) :
    cells_text l ≠ [] := by
  cases l with
  | nil => exact absurd rfl h
  | cons r l =>
    intro h0
    have e : cells_text (r :: l) = (fmt_d r.distance_mm ++ ",".data) ++ cells_text l := rfl
    rw [e] at h0
    simp at h0

theorem ne_nil_of_length_64 {α : Type} (l : List α) (h : l.length = 64) : l ≠ [] := by
  intro h0
  rw [h0] at h
  cases h

/-- With room for 800 characters the helper stores the text of both maps, terminated,
and returns true. -/
theorem helper_spec (meas : lightranger9_btdata_t) (json : List Char) (max_len : Nat)
    (hok : btdata_ok meas) (hlen : json.length = max_len) (hmin : 800 ≤ max_len)
    (hmax : max_len < 65536) :
    ∃ rest, mqttMeasurementToJsonHelper meas json max_len =
        some (spec_maps_text meas ++ NUL :: rest, true) ∧
      (spec_maps_text meas ++ NUL :: rest).length = max_len := by
  have hopen : "\x7b\"map1\":[".data.length = 9 := rfl
  have hsep : "],\"map2\":[".data.length = 10 := rfl
  have hclose : "]\x7d".data.length = 2 := rfl
  have h1ne := ne_nil_of_length_64 _ hok.1
  have h2ne := ne_nil_of_length_64 _ hok.2.1
  have hc1 := cells_text_length _ hok.2.2.1
  have hc2 := cells_text_length _ hok.2.2.2
  have hn1 : meas.obj1.length = 64 := hok.1
  have hn2 : meas.obj2.length = 64 := hok.2.1
  rw [hn1] at hc1
  rw [hn2] at hc2
  -- the opening text
  obtain ⟨rest0, hp0, hl0⟩ := json_print_fits max_len [] json "\x7b\"map1\":[".data
    (by simpa using hlen) (by rw [hopen]; simp only [List.length_nil]; omega) hmax
  unfold json_print at hp0
  simp only [List.nil_append, List.length_nil] at hp0 hl0
  rcases hsn : snprintk json 0 (size_left max_len 0) "\x7b\"map1\":[".data with _ | ⟨j0, r0⟩
  · rw [hsn] at hp0
    cases hp0
  rw [hsn] at hp0
  simp only [Nat.zero_add, Option.some.injEq, Prod.mk.injEq] at hp0
  have h0 : holds_text max_len (j0, r0 % 65536) "\x7b\"map1\":[".data :=
    ⟨NUL :: rest0, by rw [hp0.1, hp0.2], hl0⟩
  -- object map 1
  obtain ⟨s64, hs64, hh64⟩ := json_upto_low meas max_len _ _ hok hmax
    (by rw [hopen]; omega) h0 64 (Nat.le_refl _)
  rw [List.take_of_length_le (by rw [hn1])] at hh64
  obtain ⟨c1, hc1e⟩ := dropLast_snoc_of_ne_nil _ (cells_text_ne_nil _ h1ne)
  have hd1 : (cells_text meas.obj1).dropLast.length + 1 = (cells_text meas.obj1).length := by
    rw [List.length_dropLast]
    have := List.length_pos.mpr (cells_text_ne_nil _ h1ne)
    omega
  rw [hc1e, ← List.append_assoc] at hh64
  -- object map 2
  obtain ⟨s128, hs128, hh128⟩ := json_upto_high meas max_len _ s64 _ c1 hok hmax
    (by simp only [List.length_append, hopen]; omega) hs64 hh64 64 (by decide)
    (Nat.le_refl _)
  rw [List.take_of_length_le (by rw [hn2])] at hh128
  obtain ⟨c2, hc2e⟩ := dropLast_snoc_of_ne_nil _ (cells_text_ne_nil _ h2ne)
  have hd2 : (cells_text meas.obj2).dropLast.length + 1 = (cells_text meas.obj2).length := by
    rw [List.length_dropLast]
    have := List.length_pos.mpr (cells_text_ne_nil _ h2ne)
    omega
  rw [hc2e, ← List.append_assoc] at hh128
  have hb := back_step max_len s128 _ c2 hh128 hmax
  obtain ⟨rest2, hst, hl2⟩ := hb
  obtain ⟨rest3, hp3, hl3⟩ := json_print_fits max_len _ rest2 "]\x7d".data hl2
    (by simp only [List.length_append, hopen, hsep, hclose]; omega) hmax
  rw [← hst] at hp3
  have htext : ("\x7b\"map1\":[".data ++ (cells_text meas.obj1).dropLast ++
      "],\"map2\":[".data ++ (cells_text meas.obj2).dropLast) ++ "]\x7d".data =
      spec_maps_text meas := by
    rw [cells_text_dropLast _ h1ne, cells_text_dropLast _ h2ne]
    rfl
  rw [htext] at hp3 hl3
  refine ⟨rest3, ?_, hl3⟩
  unfold mqttMeasurementToJsonHelper
  rw [hsn]
  dsimp only
  rw [show LIGHTRANGER9_OBJECT_MAP_SIZE * 2 = 64 + 64 from rfl, hs128]
  dsimp only
  rw [hp3]
  dsimp only
  rw [if_neg (by
    have : (spec_maps_text meas ++ NUL :: rest3).length =
        (spec_maps_text meas).length + (rest3.length + 1) := by
      simp only [List.length_append, List.length_cons]
    omega)]

theorem spec_maps_text_ne_nul (meas : lightranger9_btdata_t) :
    ∀ c ∈ spec_maps_text meas, c ≠ NUL := by
  have hi : ∀ l : List lightranger9_meas_result_t,
      ∀ c ∈ ",".data.intercalate (l.map (fun r => fmt_d r.distance_mm)), c ≠ NUL := by
    intro l c hc
    rcases List.eq_nil_or_concat l with h | ⟨l1, r, h⟩
    · rw [h] at hc
      simp [List.intercalate] at hc
    · rw [← cells_text_dropLast l (by rw [h]; simp)] at hc
      exact cells_text_ne_nul l c (List.mem_of_mem_dropLast hc)
  intro c hc
  unfold spec_maps_text at hc
  simp only [List.mem_append] at hc
  rcases hc with (((h | h) | h) | h) | h
  · revert c
    decide
  · exact hi _ c h
  · revert c
    decide
  · exact hi _ c h
  · revert c
    decide

theorem spec_maps_text_congr (meas meas1 : lightranger9_btdata_t)
    (h1 : meas1.obj1.map (fun r => r.distance_mm) = meas.obj1.map (fun r => r.distance_mm))
    (h2 : meas1.obj2.map (fun r => r.distance_mm) = meas.obj2.map (fun r => r.distance_mm)) :
    spec_maps_text meas1 = spec_maps_text meas := by
  have e : ∀ l : List lightranger9_meas_result_t,
      l.map (fun r => fmt_d r.distance_mm) = (l.map (fun r => r.distance_mm)).map fmt_d := by
    intro l
    rw [List.map_map]
    rfl
  unfold spec_maps_text
  rw [e meas1.obj1, e meas1.obj2, e meas.obj1, e meas.obj2, h1, h2]

/-- C20: for a record with two maps of 64 cells and 16-bit distances, and a buffer of
`max_len` characters with `800 <= max_len`, `mqttMeasurementToJsonHelper` returns
true and leaves in `json` the string `\x7b"map1":[d0,...,d63],"map2":[e0,...,e63]\x7d`
of the decimal distances of object map 1 and object map 2 in cell order; a record
with the same distances, whatever its confidence values, gives the same string. -/
theorem published_distances (meas meas1 : lightranger9_btdata_t) (json : List Char)
    (max_len : Nat) (hok : btdata_ok meas) (hok1 : btdata_ok meas1)
    (hlen : json.length = max_len) (hmin : 800 ≤ max_len) (hmax : max_len < 65536)
    (h1 : meas1.obj1.map (fun r => r.distance_mm) = meas.obj1.map (fun r => r.distance_mm))
    (h2 : meas1.obj2.map (fun r => r.distance_mm) = meas.obj2.map (fun r => r.distance_mm)) :
    ∃ out out1,
      mqttMeasurementToJsonHelper meas json max_len = some (out, true) ∧
      c_str out = spec_maps_text meas ∧
      mqttMeasurementToJsonHelper meas1 json max_len = some (out1, true) ∧
      c_str out1 = c_str out := by
  obtain ⟨rest, hh, _⟩ := helper_spec meas json max_len hok hlen hmin hmax
  obtain ⟨rest1, hh1, _⟩ := helper_spec meas1 json max_len hok1 hlen hmin hmax
  refine ⟨_, _, hh, c_str_terminated _ _ (spec_maps_text_ne_nul meas), hh1, ?_⟩
  rw [c_str_terminated _ _ (spec_maps_text_ne_nul meas),
    c_str_terminated _ _ (spec_maps_text_ne_nul meas1)]
  exact spec_maps_text_congr meas meas1 h1 h2

theorem zero_measurement_ok : btdata_ok zero_measurement := by
  refine ⟨rfl, rfl, ?_, ?_⟩
  · intro r hr
    rw [List.eq_of_mem_replicate hr]
    decide
  · intro r hr
    rw [List.eq_of_mem_replicate hr]
    decide

theorem confident_measurement_ok : btdata_ok confident_measurement := by
  refine ⟨rfl, rfl, ?_, ?_⟩
  · intro r hr
    rw [List.eq_of_mem_replicate hr]
    decide
  · intro r hr
    rw [List.eq_of_mem_replicate hr]
    decide

/-- Witness of C20: the all-zero record and the record that differs from it in the
confidence values of object map 1, rendered into `dist_res`. -/
theorem published_distances_witness :
    ∃ out out1,
      mqttMeasurementToJsonHelper zero_measurement
        (List.replicate MEAS_DIST_RES_BUFF_LEN NUL) MEAS_DIST_RES_BUFF_LEN = some (out, true) ∧
      c_str out = spec_maps_text zero_measurement ∧
      mqttMeasurementToJsonHelper confident_measurement
        (List.replicate MEAS_DIST_RES_BUFF_LEN NUL) MEAS_DIST_RES_BUFF_LEN = some (out1, true) ∧
      c_str out1 = c_str out :=
  published_distances zero_measurement confident_measurement
    (List.replicate MEAS_DIST_RES_BUFF_LEN NUL) MEAS_DIST_RES_BUFF_LEN zero_measurement_ok
    confident_measurement_ok (List.length_replicate _ _) (by decide) (by decide)
    (by decide) (by decide)

/-! ## Rendering the message and the publish step -/

theorem fmt_int_length (n : Int) (hlo : -2147483648 ≤ n) (hhi : n < 2147483648) :
    (fmt_int n).length ≤ 11 := by
  unfold fmt_int
  split
  · have h := Nat.repr_length n.natAbs 10 (by decide) (by omega)
    simp only [List.length_cons]
    have e : (fmt_d n.natAbs).length = (Nat.repr n.natAbs).length := rfl
    omega
  · have h := Nat.repr_length n.toNat 10 (by decide) (by omega)
    have e : (fmt_d n.toNat).length = (Nat.repr n.toNat).length := rfl
    omega

theorem fmt_int_ne_nul (n : Int) : ∀ c ∈ fmt_int n, c ≠ NUL := by
  intro c hc
  unfold fmt_int at hc
  split at hc
  · rcases List.mem_cons.mp hc with h | h
    · rw [h]
      decide
    · exact fmt_d_ne_nul _ c h
  · exact fmt_d_ne_nul _ c hc

theorem as_int32_range (n : Nat) (h : n < 4294967296) :
    -2147483648 ≤ as_int32 n ∧ as_int32 n < 2147483648 := by
  unfold as_int32
  split <;> omega

theorem spec_maps_text_length (meas : lightranger9_btdata_t) (hok : btdata_ok meas) :
    (spec_maps_text meas).length ≤ 789 := by
  have hn1 : meas.obj1.length = 64 := hok.1
  have hn2 : meas.obj2.length = 64 := hok.2.1
  have h1 := cells_text_length _ hok.2.2.1
  have h2 := cells_text_length _ hok.2.2.2
  rw [hn1] at h1
  rw [hn2] at h2
  unfold spec_maps_text
  rw [← cells_text_dropLast _ (ne_nil_of_length_64 _ hn1),
    ← cells_text_dropLast _ (ne_nil_of_length_64 _ hn2)]
  have hopen : "\x7b\"map1\":[".data.length = 9 := rfl
  have hsep : "],\"map2\":[".data.length = 10 := rfl
  have hclose : "]\x7d".data.length = 2 := rfl
  simp only [List.length_append, List.length_dropLast, hopen, hsep, hclose]
  omega

theorem message_text_length (fmt_f : Nat → List Char) (meas : lightranger9_btdata_t)
    (dist : List Char) (hsc : scalars_ok meas) :
    (message_text fmt_f meas dist).length ≤
      138 + (fmt_f meas.sys_tick_sec).length + dist.length := by
  obtain ⟨h1, h2, h3, h4, h5, h6, h7⟩ := hsc
  have l1 := fmt_int_length (meas.result_number : Int) (by omega) (by omega)
  have l2 := fmt_int_length meas.temperature (by omega) (by omega)
  have l3 := fmt_int_length (meas.valid_results : Int) (by omega) (by omega)
  have l4 := fmt_int_length _ (as_int32_range _ h5).1 (as_int32_range _ h5).2
  have l5 := fmt_int_length _ (as_int32_range _ h6).1 (as_int32_range _ h6).2
  have l6 := fmt_int_length _ (as_int32_range _ h7).1 (as_int32_range _ h7).2
  have e1 : "\x7b\"resno\":".data.length = 9 := rfl
  have e2 : ",\"temp\":".data.length = 8 := rfl
  have e3 : ",\"valres\":".data.length = 10 := rfl
  have e4 : ",\"ambli\":".data.length = 9 := rfl
  have e5 : ",\"phocnt\":".data.length = 10 := rfl
  have e6 : ",\"refcnt\":".data.length = 10 := rfl
  have e7 : ",\"syst\":".data.length = 8 := rfl
  have e8 : ",\"res\":".data.length = 7 := rfl
  have e9 : "\x7d".data.length = 1 := rfl
  unfold message_text
  simp only [List.length_append, e1, e2, e3, e4, e5, e6, e7, e8, e9]
  omega

theorem message_text_pos (fmt_f : Nat → List Char) (meas : lightranger9_btdata_t)
    (dist : List Char) : 0 < (message_text fmt_f meas dist).length := by
  unfold message_text
  have e9 : "\x7d".data.length = 1 := rfl
  simp only [List.length_append, e9]
  omega

theorem message_text_ne_nul (fmt_f : Nat → List Char) (meas : lightranger9_btdata_t)
    (dist : List Char) (hf : ∀ c ∈ fmt_f meas.sys_tick_sec, c ≠ NUL)
    (hd : ∀ c ∈ dist, c ≠ NUL) : ∀ c ∈ message_text fmt_f meas dist, c ≠ NUL := by
  unfold message_text
  simp only [List.forall_mem_append]
  repeat' apply And.intro
  all_goals first
    | exact fmt_int_ne_nul _
    | exact hf
    | exact hd
    | decide

theorem helper_dist_res (meas : lightranger9_btdata_t) (hok : btdata_ok meas) :
    ∃ dist_res, mqttMeasurementToJsonHelper meas
        (List.replicate MEAS_DIST_RES_BUFF_LEN NUL) MEAS_DIST_RES_BUFF_LEN =
        some (dist_res, true) ∧ c_str dist_res = spec_maps_text meas := by
  obtain ⟨rest, hh, _⟩ := helper_spec meas (List.replicate MEAS_DIST_RES_BUFF_LEN NUL)
    MEAS_DIST_RES_BUFF_LEN hok (List.length_replicate _ _) (by decide) (by decide)
  exact ⟨_, hh, c_str_terminated _ _ (spec_maps_text_ne_nul meas)⟩

/-- A text of `max_len` characters or more makes `mqttMeasurementToJson` return false. -/
theorem to_json_overflow (fmt_f : Nat → List Char) (meas : lightranger9_btdata_t)
    (json : List Char) (max_len : Nat) (hok : btdata_ok meas) (hlen : max_len ≤ json.length)
    (hbig : max_len ≤ (message_text fmt_f meas (spec_maps_text meas)).length) :
    ∃ json1, mqttMeasurementToJson fmt_f meas json max_len = some (json1, false) := by
  obtain ⟨dist_res, hh, hc⟩ := helper_dist_res meas hok
  unfold mqttMeasurementToJson memset_nul
  rw [if_pos hlen]
  dsimp only
  rw [hh]
  dsimp only
  rw [if_pos rfl, hc]
  unfold snprintk
  by_cases h0 : max_len = 0
  · rw [if_pos h0]
    dsimp only
    by_cases hz : (message_text fmt_f meas (spec_maps_text meas)).length = 0
    · rw [if_pos hz]
      exact ⟨_, rfl⟩
    · rw [if_neg hz, if_pos (by omega)]
      exact ⟨_, rfl⟩
  · rw [if_neg h0, if_pos (by
      simp only [List.length_take, List.length_append, List.length_replicate,
        List.length_drop]
      omega)]
    dsimp only
    rw [if_neg (by have := message_text_pos fmt_f meas (spec_maps_text meas); omega),
      if_pos (show (message_text fmt_f meas (spec_maps_text meas)).length ≥ max_len from hbig)]
    exact ⟨_, rfl⟩

/-- A text that fits is stored whole, and `mqttMeasurementToJson` returns true. -/
theorem to_json_fits (fmt_f : Nat → List Char) (meas : lightranger9_btdata_t)
    (json : List Char) (max_len : Nat) (hok : btdata_ok meas) (hlen : max_len ≤ json.length)
    (hfit : (message_text fmt_f meas (spec_maps_text meas)).length < max_len) :
    ∃ rest, mqttMeasurementToJson fmt_f meas json max_len =
      some (message_text fmt_f meas (spec_maps_text meas) ++ NUL :: rest, true) := by
  obtain ⟨dist_res, hh, hc⟩ := helper_dist_res meas hok
  unfold mqttMeasurementToJson memset_nul
  rw [if_pos hlen]
  dsimp only
  rw [hh]
  dsimp only
  rw [if_pos rfl, hc]
  unfold snprintk
  have htake : (message_text fmt_f meas (spec_maps_text meas)).take (max_len - 1) =
      message_text fmt_f meas (spec_maps_text meas) := List.take_of_length_le (by omega)
  rw [if_neg (by omega), htake, if_pos (by
      simp only [List.length_append, List.length_replicate, List.length_drop]
      omega)]
  dsimp only
  rw [if_neg (by have := message_text_pos fmt_f meas (spec_maps_text meas); omega),
    if_neg (by omega)]
  refine ⟨List.drop (0 + ((message_text fmt_f meas (spec_maps_text meas)).length + 1))
    (List.replicate max_len NUL ++ List.drop max_len json), ?_⟩
  simp only [List.take_zero, List.nil_append, List.append_assoc, List.singleton_append]

/-- With scalars in the range of their types and a tick text of at most 2048
characters the text of a record has fewer than 3072 characters: the publish step of
`main` then hands the complete text to `uMqttClientPublish`. -/
theorem publish_complete_text (fmt_f : Nat → List Char) (meas : lightranger9_btdata_t)
    (hok : btdata_ok meas) (hsc : scalars_ok meas) (hf : float_text_ok fmt_f) :
    (message_text fmt_f meas (spec_maps_text meas)).length < MEAS_COMPLETE_BUFF_LEN ∧
    (∃ json1, mqttMeasurementToJson fmt_f meas (List.replicate MEAS_COMPLETE_BUFF_LEN NUL)
      MEAS_COMPLETE_BUFF_LEN = some (json1, true)) ∧
    publish_step fmt_f meas = some (message_text fmt_f meas (spec_maps_text meas)) := by
  have hlen : (message_text fmt_f meas (spec_maps_text meas)).length <
      MEAS_COMPLETE_BUFF_LEN := by
    have h1 := message_text_length fmt_f meas (spec_maps_text meas) hsc
    have h2 := spec_maps_text_length meas hok
    have h3 := (hf meas.sys_tick_sec).1
    have e : MEAS_COMPLETE_BUFF_LEN = 3072 := rfl
    omega
  obtain ⟨rest, hfit⟩ := to_json_fits fmt_f meas (List.replicate MEAS_COMPLETE_BUFF_LEN NUL)
    MEAS_COMPLETE_BUFF_LEN hok (by rw [List.length_replicate]) hlen
  refine ⟨hlen, ⟨_, hfit⟩, ?_⟩
  unfold publish_step
  rw [hfit]
  dsimp only
  rw [c_str_terminated _ _ (message_text_ne_nul fmt_f meas _ (hf meas.sys_tick_sec).2
    (spec_maps_text_ne_nul meas))]

theorem name_matches_long (data behind : List Nat) (h : 7 ≤ (data ++ behind).length) :
    name_matches data behind =
      some (decide ((data ++ behind).take 7 = BROADCASTER_NAME)) := by
  unfold name_matches
  by_cases hm : (data ++ behind).take 7 = BROADCASTER_NAME
  · rw [if_pos hm, decide_eq_true hm]
  · rw [if_neg hm, if_neg (by omega), decide_eq_false hm]

theorem bt_data_parse_more {σ : Type} (func : bt_data → List Nat → σ → Option (Bool × σ))
    (a : bt_data) (rest : List bt_data) (u u1 : σ)
    (h : func a (ad_bytes rest) u = some (true, u1)) :
    bt_data_parse func (a :: rest) u = bt_data_parse func rest u1 := by
  simp only [bt_data_parse, h]

theorem bt_data_parse_stop {σ : Type} (func : bt_data → List Nat → σ → Option (Bool × σ))
    (a : bt_data) (rest : List bt_data) (u u1 : σ)
    (h : func a (ad_bytes rest) u = some (false, u1)) :
    bt_data_parse func (a :: rest) u = some u1 := by
  simp only [bt_data_parse, h]

theorem bt_data_parse_none {σ : Type} (func : bt_data → List Nat → σ → Option (Bool × σ))
    (a : bt_data) (rest : List bt_data) (u : σ) (h : func a (ad_bytes rest) u = none) :
    bt_data_parse func (a :: rest) u = none := by
  simp only [bt_data_parse, h]

/-- The name search over a broadcast that holds at least seven bytes from the first
byte of each name element on: it ends with `true` exactly for a run of
manufacturer-data elements followed directly by a name element such that the seven
bytes from its first byte on, its own and those behind it, are the broadcaster name. -/
theorem parse_name_spec (buf : List bt_data)
    (hdet : ∀ ms d rest, buf = ms ++ d :: rest → d.type = BT_DATA_NAME_COMPLETE →
      7 ≤ (d.data ++ ad_bytes rest).length) :
    ∃ found, bt_data_parse adv_check_name buf false = some found ∧
      (found = true ↔ ∃ ms d rest, buf = ms ++ d :: rest ∧
        (∀ m ∈ ms, m.type = BT_DATA_MANUFACTURER_DATA) ∧
        d.type = BT_DATA_NAME_COMPLETE ∧
        (d.data ++ ad_bytes rest).take 7 = BROADCASTER_NAME) := by
  induction buf with
  | nil =>
    refine ⟨false, rfl, ?_⟩
    constructor
    · intro h
      cases h
    · rintro ⟨ms, d, rest, h, _⟩
      cases ms <;> cases h
  | cons a buf ih =>
    obtain ⟨found, hf, hiff⟩ := ih (fun ms d rest hb hd =>
      hdet (a :: ms) d rest (by rw [hb]; rfl) hd)
    by_cases hman : a.type = BT_DATA_MANUFACTURER_DATA
    · have hstep : adv_check_name a (ad_bytes buf) false = some (true, false) := by
        unfold adv_check_name
        rw [if_pos rfl, if_pos hman]
      refine ⟨found, ?_, ?_⟩
      · rw [bt_data_parse_more _ _ _ _ _ hstep]
        exact hf
      · rw [hiff]
        constructor
        · rintro ⟨ms, d, rest, h1, h2, h3, h4⟩
          refine ⟨a :: ms, d, rest, by rw [h1]; rfl, ?_, h3, h4⟩
          intro m hm
          rcases List.mem_cons.mp hm with h | h
          · rw [h]
            exact hman
          · exact h2 m h
        · rintro ⟨ms, d, rest, h1, h2, h3, h4⟩
          cases ms with
          | nil =>
            simp only [List.nil_append, List.cons.injEq] at h1
            rw [← h1.1, hman] at h3
            exact absurd h3 (by decide)
          | cons m ms =>
            simp only [List.cons_append, List.cons.injEq] at h1
            exact ⟨ms, d, rest, h1.2, fun x hx => h2 x (List.mem_cons_of_mem _ hx), h3, h4⟩
    · have hshape : ∀ b : Bool,
          adv_check_name a (ad_bytes buf) false = some (false, b) →
          (b = true ↔ a.type = BT_DATA_NAME_COMPLETE ∧
            (a.data ++ ad_bytes buf).take 7 = BROADCASTER_NAME) →
          ∃ found, bt_data_parse adv_check_name (a :: buf) false = some found ∧
            (found = true ↔ ∃ ms d rest, a :: buf = ms ++ d :: rest ∧
              (∀ m ∈ ms, m.type = BT_DATA_MANUFACTURER_DATA) ∧
              d.type = BT_DATA_NAME_COMPLETE ∧
              (d.data ++ ad_bytes rest).take 7 = BROADCASTER_NAME) := by
        intro b hstep hb
        refine ⟨b, ?_, ?_⟩
        · exact bt_data_parse_stop _ _ _ _ _ hstep
        · rw [hb]
          constructor
          · rintro ⟨h3, h4⟩
            exact ⟨[], a, buf, rfl, fun m hm => absurd hm (List.not_mem_nil m), h3, h4⟩
          · rintro ⟨ms, d, rest, h1, h2, h3, h4⟩
            cases ms with
            | nil =>
              simp only [List.nil_append, List.cons.injEq] at h1
              rw [h1.1, h1.2]
              exact ⟨h3, h4⟩
            | cons m ms =>
              simp only [List.cons_append, List.cons.injEq] at h1
              exact absurd (h1.1 ▸ h2 m (List.mem_cons_self _ _)) hman
      by_cases hname : a.type = BT_DATA_NAME_COMPLETE
      · have hl := hdet [] a buf rfl hname
        by_cases hm : (a.data ++ ad_bytes buf).take 7 = BROADCASTER_NAME
        · refine hshape true ?_ ?_
          · unfold adv_check_name
            rw [if_pos rfl, if_neg hman, if_pos hname, name_matches_long _ _ hl,
              decide_eq_true hm]
          · exact ⟨fun _ => ⟨hname, hm⟩, fun _ => rfl⟩
        · refine hshape false ?_ ?_
          · unfold adv_check_name
            rw [if_pos rfl, if_neg hman, if_pos hname, name_matches_long _ _ hl,
              decide_eq_false hm]
          · exact ⟨fun h => (by cases h), fun h => absurd h.2 hm⟩
      · refine hshape false ?_ ?_
        · unfold adv_check_name
          rw [if_pos rfl, if_neg hman, if_neg hname]
        · exact ⟨fun h => (by cases h), fun h => absurd h.1 hname⟩

/-- A broadcast without any manufacturer-data element, whose only element is the name
"LIGHTR9", makes the receiver record the address: `adv_check_name` passes over
manufacturer data but does not ask for it. -/
theorem name_only_broadcast_locks :
    (∀ d ∈ name_only_broadcast, d.type ≠ BT_DATA_MANUFACTURER_DATA) ∧
    scan_cb scan_init sample_addr name_only_broadcast =
      some { scan_init with gAddress := sample_addr, gAddressObtained := true } :=
  ⟨by decide, rfl⟩

/-- While no address has been obtained, and for a broadcast that holds at least seven
bytes from the first byte of each name element on, `scan_cb` records the sender's
address and sets `gAddressObtained` exactly when the broadcast consists of a run of
manufacturer-data elements (possibly none) followed directly by a complete-name element
such that the seven bytes from its first byte on are "LIGHTR9"; every other such
broadcast leaves the state as it was. -/
theorem discovery_filter (st : ScanState) (addr : List Nat) (buf : List bt_data)
    (hst : st.gAddressObtained = false)
    (hdet : ∀ ms d rest, buf = ms ++ d :: rest → d.type = BT_DATA_NAME_COMPLETE →
      7 ≤ (d.data ++ ad_bytes rest).length) :
    ((∃ ms d rest, buf = ms ++ d :: rest ∧
        (∀ m ∈ ms, m.type = BT_DATA_MANUFACTURER_DATA) ∧
        d.type = BT_DATA_NAME_COMPLETE ∧
        (d.data ++ ad_bytes rest).take 7 = BROADCASTER_NAME) →
      scan_cb st addr buf = some { st with gAddress := addr, gAddressObtained := true }) ∧
    (¬ (∃ ms d rest, buf = ms ++ d :: rest ∧
        (∀ m ∈ ms, m.type = BT_DATA_MANUFACTURER_DATA) ∧
        d.type = BT_DATA_NAME_COMPLETE ∧
        (d.data ++ ad_bytes rest).take 7 = BROADCASTER_NAME) →
      scan_cb st addr buf = some st) := by
  obtain ⟨found, hf, hiff⟩ := parse_name_spec buf hdet
  constructor
  · intro h
    have hfound : found = true := hiff.mpr h
    unfold scan_cb
    rw [if_pos hst, hf]
    dsimp only
    rw [if_pos hfound]
  · intro h
    have hfound : ¬ found = true := fun h1 => h (hiff.mp h1)
    unfold scan_cb
    rw [if_pos hst, hf]
    dsimp only
    rw [if_neg hfound]

set_option maxRecDepth 100000 in
/-- C22, the comparison of the name ignores the length of the name element: the
source describes the device looked for as the one "named the same" as the
broadcaster, but `memcmp` compares `strlen(BROADCASTER_NAME)` = 7 bytes from the first
byte of the element on.  A broadcast whose name is "LIGHTR9X" makes the receiver
record the address and leave the discovering state, and so does a broadcast whose name
element is the five bytes "LIGHT" when the advertisement goes on with the bytes 0x52,
0x39 (the length byte and the AD type of the next element); neither name equals the
target name. -/
theorem name_compare_ignores_length :
    (∀ d ∈ longer_name_broadcast, d.data ≠ BROADCASTER_NAME) ∧
    scan_cb scan_init sample_addr longer_name_broadcast =
      some { scan_init with gAddress := sample_addr, gAddressObtained := true } ∧
    (∀ d ∈ short_name_broadcast, d.data ≠ BROADCASTER_NAME) ∧
    scan_cb scan_init sample_addr short_name_broadcast =
      some { scan_init with gAddress := sample_addr, gAddressObtained := true } := by
  refine ⟨by decide, ?_, by decide, ?_⟩
  · decide
  · decide

/-- C23: once the address has been obtained, `scan_cb` never changes `gAddress` or
`gAddressObtained`, and a broadcast whose sender address differs from `gAddress` leaves
the whole state, the state of `adv_data_found` included, as it was. -/
theorem locked_isolation (st : ScanState) (addr : List Nat) (buf : List bt_data)
    (h : st.gAddressObtained = true) :
    (∀ st1, scan_cb st addr buf = some st1 →
      st1.gAddressObtained = true ∧ st1.gAddress = st.gAddress) ∧
    (addr ≠ st.gAddress → scan_cb st addr buf = some st) := by
  have hne : ¬ st.gAddressObtained = false := by rw [h]; decide
  constructor
  · intro st1 h1
    unfold scan_cb at h1
    rw [if_neg hne] at h1
    by_cases ha : addr = st.gAddress
    · rw [if_pos ha] at h1
      split at h1
      · cases h1
      · cases h1
        exact ⟨h, rfl⟩
    · rw [if_neg ha] at h1
      cases h1
      exact ⟨h, rfl⟩
  · intro ha
    unfold scan_cb
    rw [if_neg hne, if_neg ha]

/-- Witness of C23: a broadcast from another address while `sample_addr` is pinned. -/
theorem locked_isolation_witness :
    (∀ st1, scan_cb scan_locked [1, 2, 3, 4, 5, 6] data_and_name_broadcast = some st1 →
      st1.gAddressObtained = true ∧ st1.gAddress = scan_locked.gAddress) ∧
    ([1, 2, 3, 4, 5, 6] ≠ scan_locked.gAddress →
      scan_cb scan_locked [1, 2, 3, 4, 5, 6] data_and_name_broadcast = some scan_locked) :=
  locked_isolation scan_locked [1, 2, 3, 4, 5, 6] data_and_name_broadcast rfl

/-! ## Status reads and polling -/

/-- C26: `lightranger9_read_bl_cmd_status` returns 0 exactly when the three-byte read
of the command register returned 0, the second byte read is 0 and the third byte is
the checksum `255 - ((b0 + b1) mod 256)` of the first two; then the status put out is
the first byte.  In every other case the result is not 0 and the caller's status byte
keeps its value. -/
theorem status_validation (io : DevIO) (status : Nat) :
    let rd := lightranger9_read_register io LIGHTRANGER9_REG_CMD_STAT [0, 0, 0] 3
    let out := lightranger9_read_bl_cmd_status io status
    (out.2.1 = 0 ↔
      rd.2.1 = 0 ∧ rd.2.2.getD 1 0 = 0 ∧
        rd.2.2.getD 2 0 = 255 - (rd.2.2.getD 0 0 + rd.2.2.getD 1 0) % 256) ∧
    (out.2.1 = 0 → out.2.2 = rd.2.2.getD 0 0) ∧
    (out.2.1 ≠ 0 → out.2.2 = status) ∧
    out.1 = rd.1 := by
  intro rd out
  have hlen : rd.2.2.length = 3 :=
    read_register_length io LIGHTRANGER9_REG_CMD_STAT 3 [0, 0, 0] (by decide)
  have hck : lightranger9_calculate_checksum rd.2.2 2 =
      255 - (rd.2.2.getD 0 0 + rd.2.2.getD 1 0) % 256 := by
    rw [calculate_checksum_eq]
    rcases hb : rd.2.2 with _ | ⟨b0, _ | ⟨b1, _ | ⟨b2, _ | ⟨b3, t⟩⟩⟩⟩
    · rw [hb] at hlen; cases hlen
    · rw [hb] at hlen; cases hlen
    · rw [hb] at hlen; cases hlen
    · simp
    · rw [hb] at hlen; simp at hlen
  have hout : out = (rd.1,
      if rd.2.1 = 0 then
        if rd.2.2.getD 1 0 ≠ 0 ∨
            rd.2.2.getD 2 0 ≠ lightranger9_calculate_checksum rd.2.2 2 then
          ((-1 : Int), status)
        else ((0 : Int), rd.2.2.getD 0 0)
      else (rd.2.1, status)) := by
    show lightranger9_read_bl_cmd_status io status = _
    unfold lightranger9_read_bl_cmd_status
    show (match rd with
      | (io1, ret, data_buf) =>
        if ret = 0 then
          if data_buf.getD 1 0 ≠ 0 ∨
              data_buf.getD 2 0 ≠ lightranger9_calculate_checksum data_buf 2 then
            (io1, -1, status)
          else (io1, 0, data_buf.getD 0 0)
        else (io1, ret, status)) = _
    rcases rd with ⟨io1, ret, data_buf⟩
    dsimp only
    split <;> [split; skip] <;> rfl
  rw [hout, hck]
  dsimp only
  by_cases hr : rd.2.1 = 0
  · rw [if_pos hr]
    by_cases hv : rd.2.2.getD 1 0 ≠ 0 ∨
        rd.2.2.getD 2 0 ≠ 255 - (rd.2.2.getD 0 0 + rd.2.2.getD 1 0) % 256
    · rw [if_pos hv]
      have hm : ¬ ((-1 : Int) = 0) := by decide
      refine ⟨⟨fun h => absurd h hm, fun h => ?_⟩, fun h => absurd h hm,
        fun _ => rfl, rfl⟩
      rcases hv with hv | hv
      · exact absurd h.2.1 hv
      · exact absurd h.2.2 hv
    · rw [if_neg hv]
      have hv1 : rd.2.2.getD 1 0 = 0 := by
        by_contra h
        exact hv (Or.inl h)
      have hv2 : rd.2.2.getD 2 0 = 255 - (rd.2.2.getD 0 0 + rd.2.2.getD 1 0) % 256 := by
        by_contra h
        exact hv (Or.inr h)
      exact ⟨⟨fun _ => ⟨hr, hv1, hv2⟩, fun _ => rfl⟩, fun _ => rfl,
        fun h => absurd rfl h, rfl⟩
  · rw [if_neg hr]
    exact ⟨⟨fun h => absurd h hr, fun h => absurd h.1 hr⟩, fun h => absurd h hr,
      fun _ => rfl, rfl⟩

set_option maxRecDepth 100000 in
/-- C27, on a device whose status read after the RAM-address command fails: the
driver has put `BL_START_ADDRESS & 0xFF = 0x00` into `data_buf[0]` for that command, a
failed status read leaves the byte as it is, and `0x00` is `LIGHTRANGER9_BL_CMD_STAT_READY`;
so the polling loop is left after this one failed read and the RAM write of the
firmware byte follows.  The download is not left through a timeout. -/
theorem poll_left_on_failed_read :
    (lightranger9_download_fw_bin ⟨failed_poll_bus, []⟩ [0x01]).map
        (fun r => (r.1.log, r.2.2)) =
      some ([bus_op.read LIGHTRANGER9_REG_APPID 1 0 [0x80],
             bus_op.write [0x08, LIGHTRANGER9_BL_CMD_DOWNLOAD_INIT, 1, 0x29, 0xC1] 0,
             bus_op.read LIGHTRANGER9_REG_CMD_STAT 3 0 [0x00, 0x00, 0xFF],
             bus_op.write [0x08, LIGHTRANGER9_BL_CMD_ADDR_RAM, 2, 0x00, 0x00, 0xBA] 0,
             bus_op.read LIGHTRANGER9_REG_CMD_STAT 3 (-5) [],
             bus_op.write [0x08, LIGHTRANGER9_BL_CMD_W_RAM, 1, 0x01, 0xBC] 0,
             bus_op.read LIGHTRANGER9_REG_CMD_STAT 3 0 [0x00, 0x00, 0xFF],
             bus_op.write [0x08, LIGHTRANGER9_BL_CMD_RAMREMAP_RESET, 0, 0xEE] 0,
             bus_op.read LIGHTRANGER9_REG_APPID 1 0 [0x03]],
            false) := by
  decide

/-! ## Firmware chunks -/

theorem write_bl_cmd_log (io : DevIO) (cmd len : Nat) (data_in : List Nat)
    (h1 : len ≤ 128) (h2 : len ≤ data_in.length) :
    lightranger9_write_bl_cmd io cmd data_in len =
      some ({ io with log := io.log ++
          [bus_op.write (LIGHTRANGER9_REG_CMD_STAT :: cmd :: len ::
            (data_in.take len ++
              [lightranger9_calculate_checksum ([cmd, len] ++ data_in.take len) (len + 2)]))
            (io.bus io.log.length).ret] },
        (io.bus io.log.length).ret) := by
  unfold lightranger9_write_bl_cmd
  rw [if_pos ⟨by omega, h2⟩]
  simp only [lightranger9_generic_write, i2c_write_dt]
  rw [List.take_of_length_le (by
    simp only [List.length_append, List.length_cons, List.length_nil, List.length_take]
    omega)]
  rfl

theorem read_status_ready (io : DevIO) (status : Nat)
    (h : ready_reply (io.bus io.log.length)) :
    lightranger9_read_bl_cmd_status io status =
      ({ io with log := io.log ++ [bus_op.read LIGHTRANGER9_REG_CMD_STAT 3
          (io.bus io.log.length).ret (io.bus io.log.length).rx] }, 0, 0) := by
  obtain ⟨hret, hrx⟩ := h
  have hl : 3 ≤ (io.bus io.log.length).rx.length := by
    have := congrArg List.length hrx
    simp only [List.length_take, List.length_cons, List.length_nil] at this
    omega
  have hbuf : (io.bus io.log.length).rx.take 3 ++
      [0, 0, 0].drop (min (io.bus io.log.length).rx.length 3) = [0, 0, 255] := by
    rw [hrx, Nat.min_eq_right hl]
    rfl
  simp only [lightranger9_read_bl_cmd_status, lightranger9_read_register, i2c_write_read_dt]
  rw [hbuf, if_pos hret, if_neg (by decide)]
  rfl

theorem poll_status_ready (n : Nat) (io : DevIO) (ef : Int) (buf : List Nat)
    (hb : 1 ≤ buf.length) (h : ready_reply (io.bus io.log.length)) :
    poll_status (n + 2) io ef buf =
      ⟨{ io with log := io.log ++ [bus_op.read LIGHTRANGER9_REG_CMD_STAT 3
          (io.bus io.log.length).ret (io.bus io.log.length).rx] },
        Int.lor ef 0, buf.set 0 0, false⟩ := by
  have hz : (buf.set 0 0).getD 0 0 = 0 := by
    cases buf with
    | nil => simp at hb
    | cons a t => rfl
  simp only [poll_status, read_status_ready io _ h]
  rw [if_neg (by omega), if_neg (by rw [hz]; decide)]

theorem chunks_from_ge (image : List Nat) (fuel j : Nat) (h : image.length ≤ j) :
    chunks_from image fuel j = [] := by
  cases fuel with
  | zero => rfl
  | succ fuel =>
    unfold chunks_from
    rw [if_neg (by omega)]

theorem chunks_from_lt (image : List Nat) (fuel i : Nat) (h : i < image.length) :
    chunks_from image (fuel + 1) i =
      (image.drop i).take BL_MAX_CHUNK_BYTES ::
        chunks_from image fuel (i + BL_MAX_CHUNK_BYTES) := by
  rw [chunks_from, if_pos h]

theorem ram_payloads_append (a b : List bus_op) :
    ram_payloads (a ++ b) = ram_payloads a ++ ram_payloads b := by
  simp only [ram_payloads, List.filterMap_append]

theorem w_ram_log (io : DevIO) (len : Nat) (data_in : List Nat)
    (h1 : len ≤ 128) (h2 : len ≤ data_in.length) :
    ∃ op, lightranger9_write_bl_cmd io LIGHTRANGER9_BL_CMD_W_RAM data_in len =
        some (⟨io.bus, io.log ++ [op]⟩, (io.bus io.log.length).ret) ∧
      ram_write_payload op = some (data_in.take len) := by
  refine ⟨_, write_bl_cmd_log io LIGHTRANGER9_BL_CMD_W_RAM len data_in h1 h2, ?_⟩
  simp only [ram_write_payload, true_and, if_true]
  rw [List.take_left' (by rw [List.length_take]; omega)]

theorem poll_ready_log (io : DevIO) (ef : Int) (buf : List Nat)
    (hb : 1 ≤ buf.length) (h : ready_reply (io.bus io.log.length)) :
    ∃ op, poll_status (LIGHTRANGER9_TIMEOUT + 1) io ef buf =
        ⟨⟨io.bus, io.log ++ [op]⟩, Int.lor ef 0, buf.set 0 0, false⟩ ∧
      ram_write_payload op = none :=
  ⟨_, poll_status_ready 4999 io ef buf hb h, rfl⟩

/-- On a device that reports ready after every RAM write, the firmware loop sends the
pieces of the image from `fw_index` on, each followed by one status read. -/
theorem fw_loop_ready (image : List Nat) :
    ∀ (fuel i : Nat) (io : DevIO) (ef : Int) (buf : List Nat),
      image.length - i ≤ fuel → buf.length = 128 →
      (∀ k, k < (chunks_from image fuel i).length →
        ready_reply (io.bus (io.log.length + 1 + 2 * k))) →
      ∃ p ops, fw_loop image fuel i io ef buf = some p ∧ p.timed_out = false ∧
        p.io.bus = io.bus ∧ p.io.log = io.log ++ ops ∧
        ram_payloads ops = chunks_from image fuel i ∧
        ops.length = 2 * (chunks_from image fuel i).length ∧ p.data_buf.length = 128 := by
  intro fuel
  induction fuel with
  | zero =>
    intro i io ef buf hf hb _
    unfold fw_loop
    rw [if_neg (by omega)]
    exact ⟨_, [], rfl, rfl, rfl, (List.append_nil _).symm, rfl, rfl, hb⟩
  | succ fuel ih =>
    intro i io ef buf hf hb hready
    by_cases hlt : i < image.length
    · rw [chunks_from_lt image fuel i hlt] at hready ⊢
      unfold fw_loop
      rw [if_pos hlt]
      dsimp only
      have hchunk : (if i + BL_MAX_CHUNK_BYTES ≤ image.length then BL_MAX_CHUNK_BYTES
          else image.length - i) ≤ 128 ∧
          1 ≤ (if i + BL_MAX_CHUNK_BYTES ≤ image.length then BL_MAX_CHUNK_BYTES
          else image.length - i) ∧
          (if i + BL_MAX_CHUNK_BYTES ≤ image.length then BL_MAX_CHUNK_BYTES
          else image.length - i) ≤ image.length - i ∧
          ((if i + BL_MAX_CHUNK_BYTES ≤ image.length then BL_MAX_CHUNK_BYTES
          else image.length - i) = 128 ∨
           (if i + BL_MAX_CHUNK_BYTES ≤ image.length then BL_MAX_CHUNK_BYTES
          else image.length - i) = image.length - i) := by
        simp only [BL_MAX_CHUNK_BYTES]
        split <;> omega
      generalize (if i + BL_MAX_CHUNK_BYTES ≤ image.length then BL_MAX_CHUNK_BYTES
          else image.length - i) = chunk at hchunk ⊢
      obtain ⟨hc1, hc2, hc3, hc4⟩ := hchunk
      have hpl : ((image.drop i).take chunk).length = chunk := by
        rw [List.length_take, List.length_drop]
        omega
      have hbl : ((image.drop i).take chunk ++ buf.drop chunk).length = 128 := by
        simp only [List.length_append, List.length_take, List.length_drop, hb]
        omega
      have hpay : ((image.drop i).take chunk ++ buf.drop chunk).take chunk =
          (image.drop i).take BL_MAX_CHUNK_BYTES := by
        rw [List.take_left' hpl]
        rcases hc4 with h | h
        · rw [h]
          rfl
        · rw [List.take_of_length_le (by rw [List.length_drop]; omega),
            List.take_of_length_le (by
              rw [List.length_drop]; unfold BL_MAX_CHUNK_BYTES; omega)]
      obtain ⟨op1, hw, hp1⟩ := w_ram_log io chunk
        ((image.drop i).take chunk ++ buf.drop chunk) hc1 (by rw [hbl]; omega)
      rw [hw]
      dsimp only
      obtain ⟨op2, hpoll, hp2⟩ := poll_ready_log ⟨io.bus, io.log ++ [op1]⟩
        (Int.lor ef (io.bus io.log.length).ret)
        ((image.drop i).take chunk ++ buf.drop chunk) (by rw [hbl]; decide) (by
          have := hready 0 (by simp)
          simpa [List.length_append] using this)
      rw [hpoll]
      dsimp only
      rw [if_neg (by decide)]
      have hnext : chunks_from image fuel (i + BL_MAX_CHUNK_BYTES) =
          chunks_from image fuel (i + chunk) := by
        rcases hc4 with h | h
        · rw [h]
          rfl
        · rw [chunks_from_ge image fuel _ (by unfold BL_MAX_CHUNK_BYTES; omega),
            chunks_from_ge image fuel _ (by omega)]
      rw [hnext] at hready ⊢
      obtain ⟨p, ops, hp, ht, hbus, hlog, hpay1, hlen1, hdb⟩ := ih (i + chunk)
        ⟨io.bus, io.log ++ [op1] ++ [op2]⟩
        (Int.lor (Int.lor ef (io.bus io.log.length).ret) 0)
        (((image.drop i).take chunk ++ buf.drop chunk).set 0 0) (by omega)
        (by rw [List.length_set, hbl]) (by
          intro k hk
          have := hready (k + 1) (by simp only [List.length_cons]; omega)
          show ready_reply (io.bus ((io.log ++ [op1] ++ [op2]).length + 1 + 2 * k))
          simp only [List.length_append, List.length_cons, List.length_nil]
          rw [show io.log.length + 1 + 2 * (k + 1) = io.log.length + (0 + 1) + (0 + 1) + 1 + 2 * k
            by omega] at this
          exact this)
      refine ⟨p, op1 :: op2 :: ops, hp, ht, hbus, ?_, ?_, ?_, hdb⟩
      · rw [hlog]
        show (io.log ++ [op1] ++ [op2]) ++ ops = io.log ++ op1 :: op2 :: ops
        simp only [List.append_assoc, List.singleton_append, List.cons_append,
          List.nil_append]
      · rw [show op1 :: op2 :: ops = [op1] ++ ([op2] ++ ops) from rfl, ram_payloads_append,
          ram_payloads_append, hpay1]
        simp only [ram_payloads, List.filterMap_cons, List.filterMap_nil, hp1, hp2, hpay,
          List.nil_append, List.singleton_append]
      · simp only [List.length_cons, hlen1]
        omega
    · rw [chunks_from_ge image _ i (by omega)]
      unfold fw_loop
      rw [if_neg hlt]
      exact ⟨_, [], rfl, rfl, rfl, (List.append_nil _).symm, rfl, rfl, hb⟩

theorem chunks_from_flatten (image : List Nat) :
    ∀ (fuel i : Nat), image.length - i ≤ fuel →
      (chunks_from image fuel i).flatten = image.drop i := by
  intro fuel
  induction fuel with
  | zero =>
    intro i h
    rw [List.drop_of_length_le (by omega)]
    rfl
  | succ fuel ih =>
    intro i h
    by_cases hlt : i < image.length
    · rw [chunks_from_lt image fuel i hlt, List.flatten_cons,
        ih (i + BL_MAX_CHUNK_BYTES) (by unfold BL_MAX_CHUNK_BYTES; omega),
        ← List.drop_drop, List.take_append_drop]
    · rw [chunks_from_ge image _ i (by omega), List.drop_of_length_le (by omega)]
      rfl

theorem chunks_from_length (image : List Nat) :
    ∀ (fuel i : Nat), image.length - i ≤ fuel →
      (chunks_from image fuel i).length = (image.length - i + 127) / 128 := by
  intro fuel
  induction fuel with
  | zero =>
    intro i h
    have : image.length - i = 0 := by omega
    rw [this]
    rfl
  | succ fuel ih =>
    intro i h
    by_cases hlt : i < image.length
    · rw [chunks_from_lt image fuel i hlt, List.length_cons,
        ih (i + BL_MAX_CHUNK_BYTES) (by unfold BL_MAX_CHUNK_BYTES; omega)]
      unfold BL_MAX_CHUNK_BYTES
      omega
    · rw [chunks_from_ge image _ i (by omega)]
      have : image.length - i = 0 := by omega
      rw [this]
      rfl

theorem chunks_from_getElem? (image : List Nat) :
    ∀ (fuel i j : Nat), j < (chunks_from image fuel i).length →
      (chunks_from image fuel i)[j]? = some ((image.drop (i + 128 * j)).take 128) := by
  intro fuel
  induction fuel with
  | zero =>
    intro i j h
    exact absurd h (Nat.not_lt_zero _)
  | succ fuel ih =>
    intro i j h
    by_cases hlt : i < image.length
    · rw [chunks_from_lt image fuel i hlt] at h ⊢
      cases j with
      | zero =>
        rw [List.getElem?_cons_zero, Nat.mul_zero, Nat.add_zero]
        rfl
      | succ j =>
        rw [List.getElem?_cons_succ, ih (i + BL_MAX_CHUNK_BYTES) j (by
          simpa only [List.length_cons, Nat.add_lt_add_iff_right] using h)]
        rw [show i + BL_MAX_CHUNK_BYTES + 128 * j = i + 128 * (j + 1) by
          unfold BL_MAX_CHUNK_BYTES; omega]
    · rw [chunks_from_ge image _ i (by omega)] at h
      exact absurd h (Nat.not_lt_zero _)

/-- The transfers of the application-id polling loop are reads. -/
theorem poll_appid_log :
    ∀ (left : Nat) (io : DevIO) (ef : Int) (buf : List Nat),
      ∃ ops, (poll_appid left io ef buf).io.log = io.log ++ ops ∧ ram_payloads ops = [] := by
  intro left
  induction left with
  | zero =>
    intro io ef buf
    exact ⟨[], (List.append_nil _).symm, rfl⟩
  | succ left ih =>
    intro io ef buf
    have hr : lightranger9_read_register io LIGHTRANGER9_REG_APPID buf 1 =
        (⟨io.bus, io.log ++ [bus_op.read LIGHTRANGER9_REG_APPID 1 (io.bus io.log.length).ret
          (io.bus io.log.length).rx]⟩, (io.bus io.log.length).ret,
          (io.bus io.log.length).rx.take 1 ++
            buf.drop (min (io.bus io.log.length).rx.length 1)) := rfl
    simp only [poll_appid, hr]
    by_cases h0 : left = 0
    · rw [if_pos h0]
      exact ⟨[_], rfl, rfl⟩
    · rw [if_neg h0]
      split
      · obtain ⟨ops, h1, h2⟩ := ih
          ⟨io.bus, io.log ++ [bus_op.read LIGHTRANGER9_REG_APPID 1 (io.bus io.log.length).ret
            (io.bus io.log.length).rx]⟩ (Int.lor ef (io.bus io.log.length).ret)
          ((io.bus io.log.length).rx.take 1 ++
            buf.drop (min (io.bus io.log.length).rx.length 1))
        refine ⟨bus_op.read LIGHTRANGER9_REG_APPID 1 (io.bus io.log.length).ret
            (io.bus io.log.length).rx :: ops, ?_, ?_⟩
        · rw [h1]
          show (io.log ++ [_]) ++ ops = _
          simp only [List.append_assoc, List.singleton_append]
        · rw [show ∀ (a : bus_op) (l : List bus_op), a :: l = [a] ++ l from fun _ _ => rfl,
            ram_payloads_append, h2]
          rfl
      · exact ⟨[_], rfl, rfl⟩

theorem bl_cmd_log_other (io : DevIO) (cmd len : Nat) (data_in : List Nat)
    (h1 : len ≤ 128) (h2 : len ≤ data_in.length) (hcmd : cmd ≠ LIGHTRANGER9_BL_CMD_W_RAM) :
    ∃ op, lightranger9_write_bl_cmd io cmd data_in len =
        some (⟨io.bus, io.log ++ [op]⟩, (io.bus io.log.length).ret) ∧
      ram_write_payload op = none := by
  refine ⟨_, write_bl_cmd_log io cmd len data_in h1 h2, ?_⟩
  simp only [ram_write_payload, hcmd, and_false, if_false]

/-- On a device in bootloader mode that reports ready after every command, the
download returns and the payloads of its RAM-write commands are the pieces of the
image. -/
theorem download_ready (io : DevIO) (image : List Nat)
    (hboot : (io.bus io.log.length).rx.take 1 = [LIGHTRANGER9_APP_ID_BOOTLOADER])
    (hready : ∀ k, k ≤ (image.length + 127) / 128 + 1 →
      ready_reply (io.bus (io.log.length + 2 + 2 * k))) :
    ∃ io1 ret t ops, lightranger9_download_fw_bin io image = some (io1, ret, t) ∧
      io1.log = io.log ++ ops ∧ ram_payloads ops = chunks_from image image.length 0 := by
  have hr0 : lightranger9_read_register io LIGHTRANGER9_REG_APPID
      (List.replicate BL_MAX_CHUNK_BYTES 0) 1 =
      (⟨io.bus, io.log ++ [bus_op.read LIGHTRANGER9_REG_APPID 1 (io.bus io.log.length).ret
        (io.bus io.log.length).rx]⟩, (io.bus io.log.length).ret,
        (io.bus io.log.length).rx.take 1 ++
          (List.replicate BL_MAX_CHUNK_BYTES 0).drop
            (min (io.bus io.log.length).rx.length 1)) := rfl
  have hl0 : ((io.bus io.log.length).rx.take 1 ++
      (List.replicate BL_MAX_CHUNK_BYTES 0).drop
        (min (io.bus io.log.length).rx.length 1)).length = 128 := by
    have := read_register_length io LIGHTRANGER9_REG_APPID 1
      (List.replicate BL_MAX_CHUNK_BYTES 0) (by rw [List.length_replicate]; decide)
    rw [hr0, List.length_replicate] at this
    exact this
  generalize hb1 : (io.bus io.log.length).rx.take 1 ++
      (List.replicate BL_MAX_CHUNK_BYTES 0).drop
        (min (io.bus io.log.length).rx.length 1) = buf1 at hr0 hl0
  have hb10 : LIGHTRANGER9_APP_ID_BOOTLOADER = buf1.getD 0 0 := by
    rw [← hb1, hboot]
    rfl
  generalize hop0 : bus_op.read LIGHTRANGER9_REG_APPID 1 (io.bus io.log.length).ret
    (io.bus io.log.length).rx = op0 at hr0
  have hp0 : ram_write_payload op0 = none := by rw [← hop0]; rfl
  -- download init
  obtain ⟨op1, hw1, hp1⟩ := bl_cmd_log_other ⟨io.bus, io.log ++ [op0]⟩
    LIGHTRANGER9_BL_CMD_DOWNLOAD_INIT 1 (buf1.set 0 BL_DOWNLOAD_INIT_SEED) (by decide)
    (by rw [List.length_set, hl0]; decide) (by decide)
  obtain ⟨op2, hpoll1, hp2⟩ := poll_ready_log ⟨io.bus, io.log ++ [op0] ++ [op1]⟩
    (Int.lor (Int.lor 0 (io.bus io.log.length).ret)
      (io.bus (io.log ++ [op0]).length).ret)
    (buf1.set 0 BL_DOWNLOAD_INIT_SEED) (by rw [List.length_set, hl0]; decide) (by
      have := hready 0 (Nat.zero_le _)
      show ready_reply (io.bus ((io.log ++ [op0] ++ [op1]).length))
      simpa [List.length_append] using this)
  -- RAM address
  obtain ⟨op3, hw3, hp3⟩ := bl_cmd_log_other ⟨io.bus, io.log ++ [op0] ++ [op1] ++ [op2]⟩
    LIGHTRANGER9_BL_CMD_ADDR_RAM 2
    ((((buf1.set 0 BL_DOWNLOAD_INIT_SEED).set 0 0).set 0 (BL_START_ADDRESS % 256)).set 1
      (BL_START_ADDRESS / 256 % 256)) (by decide)
    (by simp only [List.length_set, hl0]; decide) (by decide)
  obtain ⟨op4, hpoll2, hp4⟩ := poll_ready_log
    ⟨io.bus, io.log ++ [op0] ++ [op1] ++ [op2] ++ [op3]⟩
    (Int.lor (Int.lor (Int.lor (Int.lor 0 (io.bus io.log.length).ret)
      (io.bus (io.log ++ [op0]).length).ret) 0)
      (io.bus (io.log ++ [op0] ++ [op1] ++ [op2]).length).ret)
    ((((buf1.set 0 BL_DOWNLOAD_INIT_SEED).set 0 0).set 0 (BL_START_ADDRESS % 256)).set 1
      (BL_START_ADDRESS / 256 % 256))
    (by simp only [List.length_set, hl0]; decide) (by
      have := hready 1 (by omega)
      show ready_reply (io.bus ((io.log ++ [op0] ++ [op1] ++ [op2] ++ [op3]).length))
      simpa [List.length_append] using this)
  -- the image
  obtain ⟨p3, ops3, hfw, ht3, hbus3, hlog3, hpay3, _, hdb3⟩ := fw_loop_ready image
    image.length 0 ⟨io.bus, io.log ++ [op0] ++ [op1] ++ [op2] ++ [op3] ++ [op4]⟩
    (Int.lor (Int.lor (Int.lor (Int.lor (Int.lor 0 (io.bus io.log.length).ret)
      (io.bus (io.log ++ [op0]).length).ret) 0)
      (io.bus (io.log ++ [op0] ++ [op1] ++ [op2]).length).ret) 0)
    (((((buf1.set 0 BL_DOWNLOAD_INIT_SEED).set 0 0).set 0 (BL_START_ADDRESS % 256)).set 1
      (BL_START_ADDRESS / 256 % 256)).set 0 0)
    (by omega) (by simp only [List.length_set, hl0]) (by
      intro k hk
      rw [chunks_from_length image image.length 0 (by omega)] at hk
      have := hready (k + 2) (by omega)
      show ready_reply (io.bus
        ((io.log ++ [op0] ++ [op1] ++ [op2] ++ [op3] ++ [op4]).length + 1 + 2 * k))
      simp only [List.length_append, List.length_cons, List.length_nil]
      rw [show io.log.length + 2 + 2 * (k + 2) =
        io.log.length + (0 + 1) + (0 + 1) + (0 + 1) + (0 + 1) + (0 + 1) + 1 + 2 * k
        by omega] at this
      exact this)
  -- reset
  obtain ⟨op5, hw5, hp5⟩ := bl_cmd_log_other p3.io LIGHTRANGER9_BL_CMD_RAMREMAP_RESET 0 []
    (by decide) (by decide) (by decide)
  obtain ⟨ops6, hlog6, hpay6⟩ := poll_appid_log (LIGHTRANGER9_TIMEOUT + 1)
    ⟨p3.io.bus, p3.io.log ++ [op5]⟩ (Int.lor p3.error_flag (p3.io.bus p3.io.log.length).ret)
    p3.data_buf
  have hlogs : (poll_appid (LIGHTRANGER9_TIMEOUT + 1) ⟨p3.io.bus, p3.io.log ++ [op5]⟩
      (Int.lor p3.error_flag (p3.io.bus p3.io.log.length).ret) p3.data_buf).io.log =
      io.log ++ ([op0] ++ [op1] ++ [op2] ++ [op3] ++ [op4] ++ ops3 ++ [op5] ++ ops6) := by
    rw [hlog6]
    show (p3.io.log ++ [op5]) ++ ops6 = _
    rw [hlog3]
    show ((io.log ++ [op0] ++ [op1] ++ [op2] ++ [op3] ++ [op4]) ++ ops3 ++ [op5]) ++ ops6 = _
    simp only [List.append_assoc]
  have hpays : ram_payloads ([op0] ++ [op1] ++ [op2] ++ [op3] ++ [op4] ++ ops3 ++ [op5] ++
      ops6) = chunks_from image image.length 0 := by
    simp only [ram_payloads_append, hpay3, hpay6]
    simp only [ram_payloads, List.filterMap_cons, List.filterMap_nil, hp0, hp1, hp2, hp3,
      hp4, hp5, List.nil_append, List.append_nil]
  unfold lightranger9_download_fw_bin
  simp only [hr0]
  rw [if_pos hb10]
  simp only [hw1]
  rw [hpoll1]
  dsimp only
  rw [if_neg (by decide)]
  simp only [hw3]
  rw [hpoll2]
  dsimp only
  rw [if_neg (by decide)]
  simp only [hfw]
  rw [if_neg (by rw [ht3]; decide)]
  simp only [hw5]
  split
  · exact ⟨_, _, _, _, rfl, hlogs, hpays⟩
  · exact ⟨_, _, _, _, rfl, hlogs, hpays⟩

/-- C24: for a firmware image of `N > 0` bytes and a device in bootloader mode whose
status reads all pass validation and report ready, `lightranger9_download_fw_bin`
returns and has sent `ceil(N/128)` RAM-write commands; their payloads, concatenated in
order, are the image; every payload has 128 bytes except the last, which has the
remaining `N - 128 * (count - 1)` bytes. -/
theorem firmware_chunking (io : DevIO) (image : List Nat) (hN : 0 < image.length)
    (hboot : (io.bus io.log.length).rx.take 1 = [LIGHTRANGER9_APP_ID_BOOTLOADER])
    (hready : ∀ k, k ≤ (image.length + 127) / 128 + 1 →
      ready_reply (io.bus (io.log.length + 2 + 2 * k))) :
    ∃ io1 ret t, lightranger9_download_fw_bin io image = some (io1, ret, t) ∧
      (ram_payloads (io1.log.drop io.log.length)).length = (image.length + 127) / 128 ∧
      (ram_payloads (io1.log.drop io.log.length)).flatten = image ∧
      ∀ j, j < (image.length + 127) / 128 →
        ((ram_payloads (io1.log.drop io.log.length)).getD j []).length =
          if j + 1 < (image.length + 127) / 128 then 128
          else image.length - 128 * ((image.length + 127) / 128 - 1) := by
  obtain ⟨io1, ret, t, ops, hd, hlog, hpay⟩ := download_ready io image hboot hready
  have hdrop : io1.log.drop io.log.length = ops := by
    rw [hlog, List.drop_left]
  have hlen := chunks_from_length image image.length 0 (by omega)
  rw [Nat.sub_zero] at hlen
  refine ⟨io1, ret, t, hd, ?_, ?_, ?_⟩
  · rw [hdrop, hpay, hlen]
  · rw [hdrop, hpay, chunks_from_flatten image image.length 0 (by omega)]
    rfl
  · intro j hj
    rw [hdrop, hpay, List.getD_eq_getElem?_getD,
      chunks_from_getElem? image image.length 0 j (by rw [hlen]; exact hj)]
    simp only [Option.getD_some, List.length_take, List.length_drop]
    split <;> omega

/-- Witness of C24: a three-byte image on a device that is ready after every command. -/
theorem firmware_chunking_witness :
    ∃ io1 ret t, lightranger9_download_fw_bin ⟨ready_bus, []⟩ [1, 2, 3] = some (io1, ret, t) ∧
      (ram_payloads (io1.log.drop (⟨ready_bus, []⟩ : DevIO).log.length)).length =
        ([1, 2, 3].length + 127) / 128 ∧
      (ram_payloads (io1.log.drop (⟨ready_bus, []⟩ : DevIO).log.length)).flatten =
        [1, 2, 3] ∧
      ∀ j, j < ([1, 2, 3].length + 127) / 128 →
        ((ram_payloads (io1.log.drop (⟨ready_bus, []⟩ : DevIO).log.length)).getD j
          []).length =
          if j + 1 < ([1, 2, 3].length + 127) / 128 then 128
          else [1, 2, 3].length - 128 * (([1, 2, 3].length + 127) / 128 - 1) :=
  firmware_chunking ⟨ready_bus, []⟩ [1, 2, 3] (by decide) rfl (by
    intro k _
    show ready_reply (ready_bus (0 + 2 + 2 * k))
    unfold ready_bus
    rw [if_neg (by omega)]
    exact ⟨rfl, rfl⟩)

/-! ## Start of a record after a completion, and write bounds -/

set_option maxRecDepth 100000 in
/-- C25, at session id 0x0000: the three fragments of a record of 7s complete it and
leave `rx_completed`, whose `prev_header` is all zero.  The first fragment of the next
record, an all-zero record with session id (0, 0), has the id of the cleared header:
it takes the branch for a known session, `buffer` is not cleared, and behind the 206
bytes of the chunk the buffer still holds the 325 bytes of the record before.  With
session id (3, 4) the same fragment leaves the buffer zero outside its chunk. -/
theorem stale_buffer_at_id_zero :
    rx_run rx_init
        [fragment (1, 2) 3 (List.replicate SIZEOF_BTDATA 7) 0,
         fragment (1, 2) 3 (List.replicate SIZEOF_BTDATA 7) 1,
         fragment (1, 2) 3 (List.replicate SIZEOF_BTDATA 7) 2] =
      some (rx_completed, [none, none, some (List.replicate SIZEOF_BTDATA 7)]) ∧
    adv_data_found rx_completed (fragment (0, 0) 3 (List.replicate SIZEOF_BTDATA 0) 0) =
      some { rx_completed with
        header := ⟨0, 0, 1, 3⟩, prev_header := ⟨0, 0, 1, 3⟩, cnt := 1,
        buffer := List.replicate 206 0 ++ List.replicate 325 7 } ∧
    adv_data_found rx_completed (fragment (3, 4) 3 (List.replicate SIZEOF_BTDATA 0) 0) =
      some { rx_completed with
        header := ⟨3, 4, 1, 3⟩, prev_header := ⟨3, 4, 1, 3⟩, cnt := 1,
        buffer := List.replicate SIZEOF_BTDATA 0 } := by
  refine ⟨?_, ?_, ?_⟩
  · decide
  · decide
  · decide

set_option maxRecDepth 100000 in
/-- C30, on the receiver that has pinned `sample_addr`: `adv_data_found` copies the
chunk without looking at `part_no` or `data_len`.  A block with `part_no = 4` and one
payload byte is copied to offset 618 of the 531-byte buffer, a block with `part_no = 0`
to 206 bytes before the buffer, and for a block of two bytes the header read and the
length `data_len - 4` leave the block; none of these copies stays inside its objects. -/
theorem chunk_copy_out_of_bounds :
    (4 - 1) * BT_ADD_MAIN_BUFF_CHUNK + (5 - SIZEOF_HEADER) > SIZEOF_BTDATA ∧
    scan_cb scan_locked sample_addr [⟨BT_DATA_MANUFACTURER_DATA, [1, 2, 4, 4, 9]⟩] = none ∧
    scan_cb scan_locked sample_addr [⟨BT_DATA_MANUFACTURER_DATA, [1, 2, 0, 3, 9]⟩] = none ∧
    scan_cb scan_locked sample_addr [⟨BT_DATA_MANUFACTURER_DATA, [1, 2]⟩] = none := by
  refine ⟨by decide, ?_, ?_, ?_⟩
  · decide
  · decide
  · decide

/-! ## Index safety of decode and fold -/

set_option maxRecDepth 100000 in
theorem remap_row_col_le :
    ∀ i, i < 36 → ∀ s, s < 4 → fold_skips i = false →
      remap_row i s ≤ 7 ∧ remap_col i s ≤ 7 := by
  decide

/-- C28: for every block of 132 bytes `lightranger9_sample_fetch` returns, all the
offsets it reads lie below 132 (the highest is that of the distance MSB of result 35),
and the capture it decodes has a sub-capture index of at most 3; folding that capture
into a record with two maps of 64 cells returns, and for every slot the fold writes the
row and the column are at most 7 and the cell `row * 8 + col` is below 64. -/
theorem decode_fold_index_safety (sys_tick_to_sec : Nat → Nat) (data_buf : List Nat)
    (data : lightranger9_meas_cpt_t) (sub_capture_cnt : Nat)
    (parsed_data : lightranger9_measurement_t)
    (hl : data_buf.length = LIGHTRANGER9_BLOCKREAD_SIZE) (hb : ∀ b ∈ data_buf, b < 256)
    (h1 : parsed_data.obj1.length = LIGHTRANGER9_OBJECT_MAP_SIZE)
    (h2 : parsed_data.obj2.length = LIGHTRANGER9_OBJECT_MAP_SIZE) :
    block_offset 0x3A + (LIGHTRANGER9_MAX_MEAS_RESULTS - 1) * 3 <
      LIGHTRANGER9_BLOCKREAD_SIZE ∧
    (∀ ret_clear ret_read, ∃ r,
      lightranger9_sample_fetch sys_tick_to_sec ret_clear ret_read data_buf data = some r) ∧
    ∃ capture,
      lightranger9_sample_fetch sys_tick_to_sec 0 0 data_buf data = some (0, capture) ∧
      capture.sub_capture ≤ 3 ∧
      (∃ r, lightranger9_parse_measurement sub_capture_cnt capture parsed_data = some r) ∧
      ∀ i, i < LIGHTRANGER9_MAX_MEAS_RESULTS → fold_skips i = false →
        remap_row i capture.sub_capture ≤ 7 ∧ remap_col i capture.sub_capture ≤ 7 ∧
        remap_cell i capture.sub_capture < LIGHTRANGER9_OBJECT_MAP_SIZE := by
  obtain ⟨cap, hcap, hs, hr, _⟩ := sample_decode_spec sys_tick_to_sec data_buf hl hb
  obtain ⟨pd1, hf, _⟩ := fold_upto_spec cap parsed_data hs hr h1 h2 36 (Nat.le_refl _)
  obtain ⟨cnt1, pd2, ret, hp, _⟩ := parse_measurement_maps sub_capture_cnt cap parsed_data
    pd1 hf
  refine ⟨by decide, ?_, cap, ?_, by omega, ⟨_, hp⟩, ?_⟩
  · intro ret_clear ret_read
    unfold lightranger9_sample_fetch
    dsimp only
    split
    · rw [hcap]
      exact ⟨_, rfl⟩
    · exact ⟨_, rfl⟩
  · unfold lightranger9_sample_fetch
    dsimp only
    rw [if_pos (by decide), hcap]
  · intro i hi hskip
    have h := remap_row_col_le i hi cap.sub_capture hs hskip
    exact ⟨h.1, h.2, (remap_decode i hi cap.sub_capture hs hskip).1⟩

/-- Witness of C28: the all-zero block folded into the all-zero record. -/
theorem decode_fold_index_safety_witness :
    block_offset 0x3A + (LIGHTRANGER9_MAX_MEAS_RESULTS - 1) * 3 <
      LIGHTRANGER9_BLOCKREAD_SIZE ∧
    (∀ ret_clear ret_read, ∃ r,
      lightranger9_sample_fetch (fun t => t) ret_clear ret_read (List.replicate 132 0)
        (sample_capture ⟨0, 0⟩) = some r) ∧
    ∃ capture,
      lightranger9_sample_fetch (fun t => t) 0 0 (List.replicate 132 0)
        (sample_capture ⟨0, 0⟩) = some (0, capture) ∧
      capture.sub_capture ≤ 3 ∧
      (∃ r, lightranger9_parse_measurement 0 capture zero_measurement = some r) ∧
      ∀ i, i < LIGHTRANGER9_MAX_MEAS_RESULTS → fold_skips i = false →
        remap_row i capture.sub_capture ≤ 7 ∧ remap_col i capture.sub_capture ≤ 7 ∧
        remap_cell i capture.sub_capture < LIGHTRANGER9_OBJECT_MAP_SIZE :=
  decode_fold_index_safety (fun t => t) (List.replicate 132 0) (sample_capture ⟨0, 0⟩) 0
    zero_measurement (List.length_replicate _ _)
    (fun b hb => by rw [List.eq_of_mem_replicate hb]; decide) rfl rfl

/-! ## Coverage of the object maps by four captures -/

set_option maxRecDepth 100000 in
theorem cell_source :
    ∀ c, c < 64 →
      cell_sub c < 4 ∧ cell_slot c < 18 ∧ fold_skips (cell_slot c) = false ∧
      fold_skips (cell_slot c + 18) = false ∧
      remap_cell (cell_slot c) (cell_sub c) = c ∧
      remap_cell (cell_slot c + 18) (cell_sub c) = c := by
  decide

theorem cell_of_slot (i s : Nat) (hi : i < 36) (hs : s < 4) (h : fold_skips i = false) :
    remap_cell i s < 64 ∧ cell_sub (remap_cell i s) = s ∧
      cell_slot (remap_cell i s) = i % 18 := by
  have hd := remap_decode i hi s hs h
  exact ⟨hd.1, hd.2.1.symm, hd.2.2.symm⟩

/-- One call of the fold: every cell of the capture's sub-capture takes the result of
its slot, every other cell keeps its value. -/
theorem fold_step_cells (cnt : Nat) (capture : lightranger9_meas_cpt_t)
    (pd : lightranger9_measurement_t) (hs : capture.sub_capture < 4)
    (hr : capture.result.length = 36) (h1 : pd.obj1.length = 64) (h2 : pd.obj2.length = 64) :
    ∃ cnt1 pd1 ret, lightranger9_parse_measurement cnt capture pd = some (cnt1, pd1, ret) ∧
      pd1.obj1.length = 64 ∧ pd1.obj2.length = 64 ∧
      ∀ c, c < 64 →
        pd1.obj1[c]? = (if capture.sub_capture = cell_sub c then
          capture.result[cell_slot c]? else pd.obj1[c]?) ∧
        pd1.obj2[c]? = (if capture.sub_capture = cell_sub c then
          capture.result[cell_slot c + 18]? else pd.obj2[c]?) := by
  obtain ⟨pd1, hf, l1, l2, _, w1, w2, k1, k2⟩ :=
    fold_upto_spec capture pd hs hr h1 h2 36 (Nat.le_refl _)
  obtain ⟨cnt1, pd2, ret, hp, e1, e2⟩ := parse_measurement_maps cnt capture pd pd1 hf
  refine ⟨cnt1, pd2, ret, hp, by rw [e1]; exact l1, by rw [e2]; exact l2, ?_⟩
  intro c hc
  obtain ⟨s4, i18, sk1, sk2, r1, r2⟩ := cell_source c hc
  rw [e1, e2]
  by_cases hsub : capture.sub_capture = cell_sub c
  · rw [if_pos hsub, if_pos hsub]
    constructor
    · have := w1 (cell_slot c) (by omega) sk1 i18
      rw [hsub, r1] at this
      exact this
    · have := w2 (cell_slot c + 18) (by omega) sk2 (by omega)
      rw [hsub, r2] at this
      exact this
  · rw [if_neg hsub, if_neg hsub]
    constructor
    · apply k1
      intro i hi hsk _ heq
      have := (cell_of_slot i capture.sub_capture hi hs hsk).2.1
      rw [heq] at this
      exact hsub this.symm
    · apply k2
      intro i hi hsk _ heq
      have := (cell_of_slot i capture.sub_capture hi hs hsk).2.1
      rw [heq] at this
      exact hsub this.symm

/-- A sequence of calls: every cell ends with the value `cell_after` computes. -/
theorem fold_captures_cells (captures : List lightranger9_meas_cpt_t) :
    ∀ (cnt : Nat) (pd : lightranger9_measurement_t),
      (∀ cap ∈ captures, cap.sub_capture < 4 ∧ cap.result.length = 36) →
      pd.obj1.length = 64 → pd.obj2.length = 64 →
      ∃ cnt1 pd1, fold_captures cnt pd captures = some (cnt1, pd1) ∧
        pd1.obj1.length = 64 ∧ pd1.obj2.length = 64 ∧
        ∀ c, c < 64 →
          pd1.obj1[c]? = cell_after c (cell_slot c) captures (pd.obj1[c]?) ∧
          pd1.obj2[c]? = cell_after c (cell_slot c + 18) captures (pd.obj2[c]?) := by
  induction captures with
  | nil =>
    intro cnt pd _ h1 h2
    exact ⟨cnt, pd, rfl, h1, h2, fun c _ => ⟨rfl, rfl⟩⟩
  | cons cap rest ih =>
    intro cnt pd hwf h1 h2
    obtain ⟨hs, hr⟩ := hwf cap (List.mem_cons_self _ _)
    obtain ⟨cnt1, pd1, ret, hp, l1, l2, hcells⟩ := fold_step_cells cnt cap pd hs hr h1 h2
    obtain ⟨cnt2, pd2, hf, m1, m2, hc2⟩ := ih cnt1 pd1
      (fun x hx => hwf x (List.mem_cons_of_mem _ hx)) l1 l2
    refine ⟨cnt2, pd2, ?_, m1, m2, ?_⟩
    · show (match lightranger9_parse_measurement cnt cap pd with
        | none => none
        | some (cnt1, pd1, _) => fold_captures cnt1 pd1 rest) = _
      rw [hp]
      exact hf
    · intro c hc
      obtain ⟨a1, a2⟩ := hc2 c hc
      obtain ⟨b1, b2⟩ := hcells c hc
      rw [a1, a2, b1, b2]
      exact ⟨rfl, rfl⟩

theorem cell_after_none (c slot : Nat) (captures : List lightranger9_meas_cpt_t)
    (v : Option lightranger9_meas_result_t)
    (h : ∀ cap ∈ captures, cap.sub_capture ≠ cell_sub c) :
    cell_after c slot captures v = v := by
  induction captures generalizing v with
  | nil => rfl
  | cons cap rest ih =>
    show cell_after c slot rest
      (if cap.sub_capture = cell_sub c then cap.result[slot]? else v) = v
    rw [if_neg (h cap (List.mem_cons_self _ _)),
      ih v (fun x hx => h x (List.mem_cons_of_mem _ hx))]

/-- When the sequence holds one capture of the cell's sub-capture, the cell ends with
that capture's result, wherever the capture stands and whatever the cell held. -/
theorem cell_after_unique (c slot : Nat) (captures : List lightranger9_meas_cpt_t)
    (v : Option lightranger9_meas_result_t) (cap0 : lightranger9_meas_cpt_t)
    (hmem : cap0 ∈ captures) (hsub : cap0.sub_capture = cell_sub c)
    (huniq : ∀ cap ∈ captures, cap.sub_capture = cell_sub c → cap = cap0) :
    cell_after c slot captures v = cap0.result[slot]? := by
  induction captures generalizing v with
  | nil => exact absurd hmem (List.not_mem_nil _)
  | cons cap rest ih =>
    show cell_after c slot rest
      (if cap.sub_capture = cell_sub c then cap.result[slot]? else v) = _
    by_cases hin : cap0 ∈ rest
    · exact ih _ hin (fun x hx => huniq x (List.mem_cons_of_mem _ hx))
    · have hcap : cap = cap0 := by
        rcases List.mem_cons.mp hmem with h | h
        · exact h.symm
        · exact absurd h hin
      rw [hcap, if_pos hsub]
      apply cell_after_none
      intro x hx hxs
      have := huniq x (List.mem_cons_of_mem _ hx) hxs
      rw [this] at hx
      exact hin hx

theorem cell_after_perm (c0 c1 c2 c3 : lightranger9_meas_cpt_t)
    (cs : List lightranger9_meas_cpt_t)
    (hs0 : c0.sub_capture = 0) (hs1 : c1.sub_capture = 1) (hs2 : c2.sub_capture = 2)
    (hs3 : c3.sub_capture = 3) (hperm : cs.Perm [c0, c1, c2, c3])
    (c slot : Nat) (hc : c < 64) (v : Option lightranger9_meas_result_t) :
    cell_after c slot cs v = ([c0, c1, c2, c3].getD (cell_sub c) c0).result[slot]? := by
  have hmem : ∀ cap, cap ∈ cs ↔ cap = c0 ∨ cap = c1 ∨ cap = c2 ∨ cap = c3 := by
    intro cap
    rw [hperm.mem_iff]
    simp only [List.mem_cons, List.mem_singleton, List.not_mem_nil, or_false]
  have hs := (cell_source c hc).1
  have key : ∀ cap0, cap0 ∈ cs → cap0.sub_capture = cell_sub c →
      [c0, c1, c2, c3].getD (cell_sub c) c0 = cap0 →
      cell_after c slot cs v = ([c0, c1, c2, c3].getD (cell_sub c) c0).result[slot]? := by
    intro cap0 h1 h2 h3
    rw [h3]
    apply cell_after_unique c slot cs v cap0 h1 h2
    intro cap hcap hsub
    rw [← h2] at hsub
    rcases (hmem cap).mp hcap with h | h | h | h <;>
      rcases (hmem cap0).mp h1 with g | g | g | g <;>
      subst h <;> subst g <;>
      first
        | rfl
        | exact absurd hsub (by omega)
  have h4 : cell_sub c = 0 ∨ cell_sub c = 1 ∨ cell_sub c = 2 ∨ cell_sub c = 3 := by omega
  rcases h4 with h | h | h | h
  · exact key c0 ((hmem c0).mpr (Or.inl rfl)) (by rw [hs0, h]) (by rw [h]; rfl)
  · exact key c1 ((hmem c1).mpr (Or.inr (Or.inl rfl))) (by rw [hs1, h]) (by rw [h]; rfl)
  · exact key c2 ((hmem c2).mpr (Or.inr (Or.inr (Or.inl rfl)))) (by rw [hs2, h])
      (by rw [h]; rfl)
  · exact key c3 ((hmem c3).mpr (Or.inr (Or.inr (Or.inr rfl)))) (by rw [hs3, h])
      (by rw [h]; rfl)

/-- Four captures of sub-captures 0 to 3 folded in some order: the fold returns, and
every cell of either map holds the result of its slot in the capture of its
sub-capture. -/
theorem fold_four (c0 c1 c2 c3 : lightranger9_meas_cpt_t)
    (cs : List lightranger9_meas_cpt_t) (cnt : Nat) (pd : lightranger9_measurement_t)
    (hs0 : c0.sub_capture = 0) (hs1 : c1.sub_capture = 1) (hs2 : c2.sub_capture = 2)
    (hs3 : c3.sub_capture = 3)
    (hr : ∀ cap ∈ [c0, c1, c2, c3], cap.result.length = 36)
    (hperm : cs.Perm [c0, c1, c2, c3])
    (h1 : pd.obj1.length = 64) (h2 : pd.obj2.length = 64) :
    ∃ cnt1 pd1, fold_captures cnt pd cs = some (cnt1, pd1) ∧
      pd1.obj1.length = 64 ∧ pd1.obj2.length = 64 ∧
      ∀ c, c < 64 →
        pd1.obj1[c]? = ([c0, c1, c2, c3].getD (cell_sub c) c0).result[cell_slot c]? ∧
        pd1.obj2[c]? =
          ([c0, c1, c2, c3].getD (cell_sub c) c0).result[cell_slot c + 18]? := by
  have hwf : ∀ cap ∈ cs, cap.sub_capture < 4 ∧ cap.result.length = 36 := by
    intro cap hcap
    have hm := hperm.mem_iff.mp hcap
    refine ⟨?_, hr cap hm⟩
    simp only [List.mem_cons, List.mem_singleton, List.not_mem_nil, or_false] at hm
    rcases hm with h | h | h | h <;> rw [h] <;> omega
  obtain ⟨cnt1, pd1, hf, l1, l2, hcells⟩ := fold_captures_cells cs cnt pd hwf h1 h2
  refine ⟨cnt1, pd1, hf, l1, l2, ?_⟩
  intro c hc
  obtain ⟨a1, a2⟩ := hcells c hc
  rw [a1, a2, cell_after_perm c0 c1 c2 c3 cs hs0 hs1 hs2 hs3 hperm c _ hc,
    cell_after_perm c0 c1 c2 c3 cs hs0 hs1 hs2 hs3 hperm c _ hc]
  exact ⟨rfl, rfl⟩

theorem map_eq_of_cells {α : Type} (a b : List α) (f : Nat → Option α)
    (ha : a.length = 64) (hb : b.length = 64)
    (h1 : ∀ c, c < 64 → a[c]? = f c) (h2 : ∀ c, c < 64 → b[c]? = f c) : a = b := by
  apply List.ext_getElem?
  intro c
  by_cases hc : c < 64
  · rw [h1 c hc, h2 c hc]
  · rw [List.getElem?_eq_none (by omega), List.getElem?_eq_none (by omega)]

/-- C29: four captures with the sub-capture indices 0, 1, 2 and 3, folded in any two
orders `cs` and `cs1` into any two records: both folds return, and the object maps of
the two results are equal.  Each of the 64 cells of a map holds the result of slot
`cell_slot c` (plus 18 for object map 2) of the capture with sub-capture `cell_sub c`;
cells and pairs (slot, sub-capture) correspond one to one, so each cell is written
exactly once. -/
theorem full_coverage_any_order (c0 c1 c2 c3 : lightranger9_meas_cpt_t)
    (cs cs1 : List lightranger9_meas_cpt_t) (cnt cnt1 : Nat)
    (pd pd1 : lightranger9_measurement_t)
    (hs0 : c0.sub_capture = 0) (hs1 : c1.sub_capture = 1) (hs2 : c2.sub_capture = 2)
    (hs3 : c3.sub_capture = 3)
    (hr : ∀ cap ∈ [c0, c1, c2, c3], cap.result.length = 36)
    (hperm : cs.Perm [c0, c1, c2, c3]) (hperm1 : cs1.Perm [c0, c1, c2, c3])
    (h1 : pd.obj1.length = 64) (h2 : pd.obj2.length = 64)
    (g1 : pd1.obj1.length = 64) (g2 : pd1.obj2.length = 64) :
    ∃ r r1, fold_captures cnt pd cs = some r ∧ fold_captures cnt1 pd1 cs1 = some r1 ∧
      r.2.obj1 = r1.2.obj1 ∧ r.2.obj2 = r1.2.obj2 ∧
      (∀ c, c < 64 →
        r.2.obj1[c]? = ([c0, c1, c2, c3].getD (cell_sub c) c0).result[cell_slot c]? ∧
        r.2.obj2[c]? =
          ([c0, c1, c2, c3].getD (cell_sub c) c0).result[cell_slot c + 18]?) ∧
      (∀ c, c < 64 →
        cell_sub c < 4 ∧ cell_slot c < 18 ∧ fold_skips (cell_slot c) = false ∧
        fold_skips (cell_slot c + 18) = false ∧
        remap_cell (cell_slot c) (cell_sub c) = c ∧
        remap_cell (cell_slot c + 18) (cell_sub c) = c) ∧
      (∀ i s, i < 36 → s < 4 → fold_skips i = false →
        remap_cell i s < 64 ∧ cell_sub (remap_cell i s) = s ∧
        cell_slot (remap_cell i s) = i % 18) := by
  obtain ⟨n, p, hf, l1, l2, hc⟩ :=
    fold_four c0 c1 c2 c3 cs cnt pd hs0 hs1 hs2 hs3 hr hperm h1 h2
  obtain ⟨n1, p1, hf1, m1, m2, hc1⟩ :=
    fold_four c0 c1 c2 c3 cs1 cnt1 pd1 hs0 hs1 hs2 hs3 hr hperm1 g1 g2
  refine ⟨(n, p), (n1, p1), hf, hf1, ?_, ?_, hc, cell_source,
    fun i s hi hs h => cell_of_slot i s hi hs h⟩
  · exact map_eq_of_cells _ _ _ l1 m1 (fun c h => (hc c h).1) (fun c h => (hc1 c h).1)
  · exact map_eq_of_cells _ _ _ l2 m2 (fun c h => (hc c h).2) (fun c h => (hc1 c h).2)

theorem perm_2031 {α : Type} (a0 a1 a2 a3 : α) :
    [a2, a0, a3, a1].Perm [a0, a1, a2, a3] :=
  (List.Perm.swap a0 a2 [a3, a1]).trans
    ((((List.Perm.swap a1 a3 []).cons a2).cons a0).trans
      ((List.Perm.swap a1 a2 [a3]).cons a0))

/-- Witness of C29: the captures in the order 2, 0, 3, 1 folded into the all-zero
record, and in the order 0, 1, 2, 3 folded into a record with other contents. -/
theorem full_coverage_any_order_witness :
    ∃ r r1,
      fold_captures 0 zero_measurement
        [capture_of_sub 2, capture_of_sub 0, capture_of_sub 3, capture_of_sub 1] = some r ∧
      fold_captures 0 confident_measurement
        [capture_of_sub 0, capture_of_sub 1, capture_of_sub 2, capture_of_sub 3] = some r1 ∧
      r.2.obj1 = r1.2.obj1 ∧ r.2.obj2 = r1.2.obj2 ∧
      (∀ c, c < 64 →
        r.2.obj1[c]? = ([capture_of_sub 0, capture_of_sub 1, capture_of_sub 2,
          capture_of_sub 3].getD (cell_sub c) (capture_of_sub 0)).result[cell_slot c]? ∧
        r.2.obj2[c]? = ([capture_of_sub 0, capture_of_sub 1, capture_of_sub 2,
          capture_of_sub 3].getD (cell_sub c) (capture_of_sub 0)).result[cell_slot c + 18]?) ∧
      (∀ c, c < 64 →
        cell_sub c < 4 ∧ cell_slot c < 18 ∧ fold_skips (cell_slot c) = false ∧
        fold_skips (cell_slot c + 18) = false ∧
        remap_cell (cell_slot c) (cell_sub c) = c ∧
        remap_cell (cell_slot c + 18) (cell_sub c) = c) ∧
      (∀ i s, i < 36 → s < 4 → fold_skips i = false →
        remap_cell i s < 64 ∧ cell_sub (remap_cell i s) = s ∧
        cell_slot (remap_cell i s) = i % 18) :=
  full_coverage_any_order (capture_of_sub 0) (capture_of_sub 1) (capture_of_sub 2)
    (capture_of_sub 3)
    [capture_of_sub 2, capture_of_sub 0, capture_of_sub 3, capture_of_sub 1]
    [capture_of_sub 0, capture_of_sub 1, capture_of_sub 2, capture_of_sub 3]
    0 0 zero_measurement confident_measurement rfl rfl rfl rfl
    (by
      intro cap hcap
      simp only [List.mem_cons, List.mem_singleton, List.not_mem_nil, or_false] at hcap
      rcases hcap with h | h | h | h <;> rw [h] <;> rfl)
    (perm_2031 _ _ _ _)
    (List.Perm.refl _) rfl rfl rfl rfl

end ToF
